import Mathlib

/- Shallow embedding of src/src/push_pop_actor/actor.py (class PushPopActor).

   Items are opaque payloads (the actor never inspects them), modelled by a
   type parameter.  The actor-state key-value cache and the bulk store are
   modelled as association lists; wall-clock time and the randomly drawn
   lock id are explicit parameters of the operations that use them.  The
   single-threaded execution guaranteed by the host makes every operation a
   pure function from the actor's state to a result and a new state. -/

namespace PushPop

/- Association-list primitives standing for the Python dict operations used
   on the state keys: lookup, insert-or-replace, delete. -/

def alookup {κ β : Type} [DecidableEq κ] : List (κ × β) → κ → Option β
  | [], _ => none
  | (k', v) :: t, k => if k' = k then some v else alookup t k

def aset {κ β : Type} [DecidableEq κ] : List (κ × β) → κ → β → List (κ × β)
  | [], k, v => [(k, v)]
  | (k', v') :: t, k, v => if k' = k then (k, v) :: t else (k', v') :: aset t k v

def aremove {κ β : Type} [DecidableEq κ] : List (κ × β) → κ → List (κ × β)
  | [], _ => []
  | (k', v') :: t, k => if k' = k then t else (k', v') :: aremove t k

/- The `config` object of the metadata record. -/
structure Config where
  segment_size : Nat
  buffer_segments : Nat
deriving DecidableEq

/- One `queue_<p>` record inside `metadata["queues"]`.  Every field is a
   dict entry that may be absent, hence `Option`; the Python getters apply
   the defaults. -/
structure QMeta where
  count : Option Nat := none
  head_segment : Option Nat := none
  tail_segment : Option Nat := none
  head_offloaded_segment : Option Nat := none
  tail_offloaded_segment : Option Nat := none
deriving DecidableEq

/- The `_active_lock` record. -/
structure ALock (α : Type) where
  lock_id : Nat
  items_with_priority : List (α × Nat)
  expires_at : Nat
  created_at : Nat
deriving DecidableEq

/- The persisted `metadata` value. -/
structure Metadata (α : Type) where
  config : Config
  queues : List (Nat × QMeta)
  active_lock : Option (ALock α) := none
deriving DecidableEq

/- Segment maps: actor-state keys `queue_<p>_seg_<n>` and bulk-store keys
   `offloaded_queue_<p>_seg_<n>_<id>`, both keyed by (priority, segment). -/
abbrev SegMap (α : Type) := List ((Nat × Nat) × List α)

/- The in-memory view once the metadata record is known to exist. -/
structure Store (α : Type) where
  md : Metadata α
  segs : SegMap α
  bulk : SegMap α
deriving DecidableEq

/- The whole actor state; `metadata = none` models a store where the
   `metadata` key was never written. -/
structure ActorState (α : Type) where
  metadata : Option (Metadata α)
  segs : SegMap α
  bulk : SegMap α
deriving DecidableEq

def Store.toActor {α : Type} (st : Store α) : ActorState α :=
  ⟨some st.md, st.segs, st.bulk⟩

/- `_get_queue_count` -/
def getQueueCount {α : Type} (m : Metadata α) (p : Nat) : Nat :=
  match alookup m.queues p with
  | none => 0
  | some q => q.count.getD 0

/- Replace (or create) the `queue_<p>` record, as the Python setters do
   through `metadata["queues"][queue_key] = ...`. -/
def putQueue {α : Type} (m : Metadata α) (p : Nat) (q : QMeta) : Metadata α :=
  { m with queues := aset m.queues p q }

/- `_set_queue_count` -/
def setQueueCount {α : Type} (m : Metadata α) (p c : Nat) : Metadata α :=
  putQueue m p { (alookup m.queues p).getD {} with count := some c }

/- `_delete_queue_metadata` -/
def deleteQueueMetadata {α : Type} (m : Metadata α) (p : Nat) : Metadata α :=
  { m with queues := aremove m.queues p }

/- `_get_priority_keys`: the numeric priorities of the queue records, in
   ascending order. -/
def priorityKeys {α : Type} (m : Metadata α) : List Nat :=
  (m.queues.map Prod.fst).insertionSort (· ≤ ·)

/- `_get_segment_size` (default 100). -/
def segmentSize {α : Type} (m : Metadata α) : Nat :=
  m.config.segment_size

/- `_get_buffer_segments` (default 1). -/
def bufferSegments {α : Type} (m : Metadata α) : Nat :=
  m.config.buffer_segments

/- `_get_head_segment` (default 0). -/
def getHeadSegment {α : Type} (m : Metadata α) (p : Nat) : Nat :=
  (((alookup m.queues p).map QMeta.head_segment).getD none).getD 0

/- `_get_tail_segment` (default 0). -/
def getTailSegment {α : Type} (m : Metadata α) (p : Nat) : Nat :=
  (((alookup m.queues p).map QMeta.tail_segment).getD none).getD 0

/- `_set_segment_pointers` -/
def setSegmentPointers {α : Type} (m : Metadata α) (p h t : Nat) : Metadata α :=
  putQueue m p
    { (alookup m.queues p).getD {} with head_segment := some h, tail_segment := some t }

/- `_get_offloaded_range`: `(head, tail)` when both endpoints are present. -/
def getOffloadedRange {α : Type} (m : Metadata α) (p : Nat) : Option (Nat × Nat) :=
  match alookup m.queues p with
  | none => none
  | some q =>
    match q.head_offloaded_segment, q.tail_offloaded_segment with
    | some h, some t => some (h, t)
    | _, _ => none

/- `_add_offloaded_segment`: initialize both endpoints, or extend the tail. -/
def addOffloadedSegment {α : Type} (m : Metadata α) (p n : Nat) : Metadata α :=
  match ((alookup m.queues p).getD {}).head_offloaded_segment with
  | none =>
    putQueue m p
      { (alookup m.queues p).getD {} with
          head_offloaded_segment := some n, tail_offloaded_segment := some n }
  | some _ =>
    putQueue m p { (alookup m.queues p).getD {} with tail_offloaded_segment := some n }

/- `_remove_offloaded_segment`: shrink from the head, clearing both
   endpoints when the last offloaded segment is removed.  (The Python
   guard "record present and both endpoints set" is exactly
   `getOffloadedRange m p = some (h, t)`, and the record it rewrites is
   the one found by the lookup.) -/
def removeOffloadedSegment {α : Type} (m : Metadata α) (p n : Nat) : Metadata α :=
  match getOffloadedRange m p with
  | none => m
  | some (h, t) =>
    if n = h then
      if h = t then
        putQueue m p
          { (alookup m.queues p).getD {} with
              head_offloaded_segment := (none : Option Nat),
              tail_offloaded_segment := (none : Option Nat) }
      else
        putQueue m p
          { (alookup m.queues p).getD {} with head_offloaded_segment := some (h + 1) }
    else m

/- Membership of a segment number in an offloaded range, as checked by the
   offload loop (`head_offloaded <= segment_num <= tail_offloaded`). -/
def inRangeB : Option (Nat × Nat) → Nat → Bool
  | none, _ => false
  | some (a, b), n => decide (a ≤ n) && decide (n ≤ b)

/- `_offload_segment` with a healthy bulk store: write the payload to the
   bulk store, extend the offloaded range, drop the resident copy. -/
def offloadSegment {α : Type} (st : Store α) (p n : Nat) (segData : List α) : Store α :=
  { md := addOffloadedSegment st.md p n,
    segs := aremove st.segs (p, n),
    bulk := aset st.bulk (p, n) segData }

/- `_load_offloaded_segment`: a missing or empty bulk entry is reported as
   `none` and leaves the state untouched; otherwise the payload moves back
   into actor state, the range shrinks and the bulk key is deleted. -/
def loadOffloadedSegment {α : Type} (st : Store α) (p n : Nat) : Option (List α) × Store α :=
  match alookup st.bulk (p, n) with
  | none => (none, st)
  | some [] => (none, st)
  | some (x :: xs) =>
    (some (x :: xs),
     { md := removeOffloadedSegment st.md p n,
       segs := aset st.segs (p, n) (x :: xs),
       bulk := aremove st.bulk (p, n) })

/- The loop body of `_check_and_load_segments`: load each candidate within
   the buffer window, break at the first one beyond it. -/
def loadLoop {α : Type} (p maxOff : Nat) : Store α → List Nat → Store α
  | st, [] => st
  | st, n :: rest =>
    if n ≤ maxOff then loadLoop p maxOff (loadOffloadedSegment st p n).2 rest else st

/- `_check_and_load_segments` -/
def checkAndLoadSegments {α : Type} (st : Store α) (p : Nat) : Store α :=
  match getOffloadedRange st.md p with
  | none => st
  | some (ho, toff) =>
    let maxOff := getHeadSegment st.md p + bufferSegments st.md
    loadLoop p maxOff st (List.range' ho (toff + 1 - ho))

/- `_check_and_offload_segments` loop body: skip segments in the captured
   offloaded range, offload those that are resident and exactly full. -/
def offloadLoop {α : Type} (p : Nat) (capturedRange : Option (Nat × Nat)) (ss : Nat) :
    Store α → List Nat → Store α
  | st, [] => st
  | st, n :: rest =>
    if inRangeB capturedRange n then offloadLoop p capturedRange ss st rest
    else
      match alookup st.segs (p, n) with
      | some l =>
        if l.length = ss then offloadLoop p capturedRange ss (offloadSegment st p n l) rest
        else offloadLoop p capturedRange ss st rest
      | none => offloadLoop p capturedRange ss st rest

/- `_check_and_offload_segments` -/
def checkAndOffloadSegments {α : Type} (st : Store α) (p : Nat) : Store α :=
  match alookup st.md.queues p with
  | none => st
  | some _ =>
    let h := getHeadSegment st.md p
    let t := getTailSegment st.md p
    let buf := bufferSegments st.md
    let offR := getOffloadedRange st.md p
    let ss := segmentSize st.md
    offloadLoop p offR ss st (List.range' (h + buf + 1) (t - (h + buf + 1)))

/- The metadata value that `Push` builds when the `metadata` key is absent
   (and that `_on_activate` writes on first activation). -/
def defaultMetadata {α : Type} : Metadata α :=
  { config := { segment_size := 100, buffer_segments := 1 }, queues := [] }

/- `Push` up to its `save_state` (actor.py lines 443-477): everything
   before the offload check. -/
def pushCore {α : Type} (s : ActorState α) (item : α) (p : Nat) : Store α :=
  let md := s.metadata.getD defaultMetadata
  let tail0 := getTailSegment md p
  let seg0 := (alookup s.segs (p, tail0)).getD []
  let ss := segmentSize md
  let tail := if ss ≤ seg0.length then tail0 + 1 else tail0
  let seg := (if ss ≤ seg0.length then [] else seg0) ++ [item]
  let head := getHeadSegment md p
  let md := setQueueCount md p (getQueueCount md p + 1)
  let md := setSegmentPointers md p head tail
  { md := md, segs := aset s.segs (p, tail) seg, bulk := s.bulk }

/- `Push(data)` for a well-formed request (`item` a dict, `priority` a
   non-negative integer, both enforced by the validation at the top of the
   Python method, after which it always returns True). -/
def Push {α : Type} (s : ActorState α) (item : α) (p : Nat) : Bool × ActorState α :=
  let st := checkAndOffloadSegments (pushCore s item p) p
  (true, st.toActor)

/- The priority loop of `Pop` (actor.py lines 516-586); `none` means the
   loop fell through without finding an item. -/
def popLoop {α : Type} : Store α → List Nat → Option α × Store α
  | st, [] => (none, st)
  | st, p :: rest =>
    if getQueueCount st.md p = 0 then popLoop st rest
    else
      let st := checkAndLoadSegments st p
      let head := getHeadSegment st.md p
      let tail := getTailSegment st.md p
      match alookup st.segs (p, head) with
      | none => popLoop { st with md := deleteQueueMetadata st.md p } rest
      | some [] => popLoop { st with md := deleteQueueMetadata st.md p } rest
      | some (item :: seg) =>
        match seg with
        | [] =>
          if head < tail then
            let md := setQueueCount st.md p (getQueueCount st.md p - 1)
            let md := setSegmentPointers md p (head + 1) tail
            (some item, { st with md := md, segs := aset st.segs (p, head) [] })
          else
            (some item, { st with md := deleteQueueMetadata st.md p,
                                  segs := aset st.segs (p, head) [] })
        | _ :: _ =>
          let md := setQueueCount st.md p (getQueueCount st.md p - 1)
          let md := setSegmentPointers md p head tail
          (some item, { st with md := md, segs := aset st.segs (p, head) seg })

/- `Pop()` -/
def Pop {α : Type} (s : ActorState α) : List α × ActorState α :=
  match s.metadata with
  | none => ([], s)
  | some md =>
    let r := popLoop { md := md, segs := s.segs, bulk := s.bulk } (priorityKeys md)
    (r.1.toList, r.2.toActor)

/- Grouping of `_return_items_to_queue`: a Python dict keyed by priority,
   keys in order of first occurrence, items appended in list order. -/
def groupByPriority {α : Type} (iwp : List (α × Nat)) : List (Nat × List α) :=
  iwp.foldl
    (fun acc e =>
      match alookup acc e.2 with
      | none => acc ++ [(e.2, [e.1])]
      | some l => aset acc e.2 (l ++ [e.1]))
    []

/- The body run by `_return_items_to_queue` for one priority group. -/
def returnGroup {α : Type} (st : Store α) (pg : Nat × List α) : Store α :=
  let st := checkAndLoadSegments st pg.1
  let head := getHeadSegment st.md pg.1
  let seg := (alookup st.segs (pg.1, head)).getD []
  let tail := getTailSegment st.md pg.1
  let md := setQueueCount st.md pg.1 (getQueueCount st.md pg.1 + pg.2.length)
  let md := setSegmentPointers md pg.1 head tail
  { st with md := md, segs := aset st.segs (pg.1, head) (pg.2 ++ seg) }

/- `_return_items_to_queue` -/
def returnItemsToQueue {α : Type} (s : ActorState α) (iwp : List (α × Nat)) : ActorState α :=
  match iwp with
  | [] => s
  | _ :: _ =>
    let md := s.metadata.getD defaultMetadata
    let st := (groupByPriority iwp).foldl returnGroup { md := md, segs := s.segs, bulk := s.bulk }
    st.toActor

/- The priority loop of `PopWithAck` (actor.py lines 725-777); it breaks
   after the first popped item and tracks the item's origin priority. -/
def popAckLoop {α : Type} : Store α → List Nat → Option (α × Nat) × Store α
  | st, [] => (none, st)
  | st, p :: rest =>
    if getQueueCount st.md p = 0 then popAckLoop st rest
    else
      let st := checkAndLoadSegments st p
      let head := getHeadSegment st.md p
      let tail := getTailSegment st.md p
      match alookup st.segs (p, head) with
      | none => popAckLoop { st with md := deleteQueueMetadata st.md p } rest
      | some [] => popAckLoop { st with md := deleteQueueMetadata st.md p } rest
      | some (item :: seg) =>
        let count := getQueueCount st.md p
        let segsHead :
            SegMap α × Nat :=
          match seg with
          | [] => if head < tail then (aset st.segs (p, head) [], head + 1) else (st.segs, head)
          | _ :: _ => (aset st.segs (p, head) seg, head)
        let md :=
          if count - 1 = 0 then deleteQueueMetadata st.md p
          else setSegmentPointers (setQueueCount st.md p (count - 1)) p segsHead.2 tail
        (some (item, p), { st with md := md, segs := segsHead.1 })

/- The result dictionary of `PopWithAck`. -/
structure PopAckResult (α : Type) where
  items : List α
  count : Nat
  locked : Bool
  lock_id : Option Nat := none
  lock_expires_at : Option Nat := none
  message : Option String := none
deriving DecidableEq

/- `min(max(ttl_seconds, 1), 300)` with default 30. -/
def clampTtl (t : Option Int) : Nat :=
  (min (max (t.getD 30) 1) 300).toNat

/- Steps 2-6 of `PopWithAck` (actor.py lines 712-811): reload the
   metadata, pop one item with priority tracking, create the lock. -/
def popAckResume {α : Type} (s : ActorState α) (now : Nat) (ttl_seconds : Option Int)
    (newLockId : Nat) : PopAckResult α × ActorState α :=
  match s.metadata with
  | none => ({ items := [], count := 0, locked := false }, s)
  | some md =>
    let r := popAckLoop { md := md, segs := s.segs, bulk := s.bulk } (priorityKeys md)
    match r.1 with
    | none => ({ items := [], count := 0, locked := false }, r.2.toActor)
    | some (item, q) =>
      let expires := now + clampTtl ttl_seconds
      let lock : ALock α :=
        { lock_id := newLockId, items_with_priority := [(item, q)],
          expires_at := expires, created_at := now }
      let st := { r.2 with md := { r.2.md with active_lock := some lock } }
      ({ items := [item], count := 1, locked := true, lock_id := some newLockId,
         lock_expires_at := some expires }, st.toActor)

/- `PopWithAck(data)`; `now` is the wall clock and `newLockId` the value
   drawn by `secrets.token_urlsafe` when a lock is created. -/
def PopWithAck {α : Type} (s : ActorState α) (now : Nat) (ttl_seconds : Option Int)
    (newLockId : Nat) : PopAckResult α × ActorState α :=
  match s.metadata with
  | none => popAckResume s now ttl_seconds newLockId
  | some md =>
    match md.active_lock with
    | none => popAckResume s now ttl_seconds newLockId
    | some lock =>
      if now < lock.expires_at then
        ({ items := [], count := 0, locked := true,
           lock_expires_at := some lock.expires_at,
           message := some "Queue is locked pending acknowledgement" }, s)
      else
        let s' := returnItemsToQueue s lock.items_with_priority
        let s'' : ActorState α :=
          match s'.metadata with
          | none => s'
          | some md' => { s' with metadata := some { md' with active_lock := none } }
        popAckResume s'' now ttl_seconds newLockId

/- The result dictionary of `Acknowledge`. -/
structure AckResult where
  success : Bool
  message : String
  items_acknowledged : Option Nat := none
  error_code : Option String := none
deriving DecidableEq

/- `Acknowledge(data)`; `lock_id = none` models a missing / falsy lock id. -/
def Acknowledge {α : Type} (s : ActorState α) (now : Nat) (lock_id : Option Nat) :
    AckResult × ActorState α :=
  match lock_id with
  | none => ({ success := false, message := "lock_id is required" }, s)
  | some lid =>
    match s.metadata with
    | none => ({ success := false, message := "No active lock found" }, s)
    | some md =>
      match md.active_lock with
      | none => ({ success := false, message := "No active lock found" }, s)
      | some lock =>
        if lock.expires_at ≤ now then
          ({ success := false, message := "Lock has expired",
             error_code := some "LOCK_EXPIRED" },
           { s with metadata := some { md with active_lock := none } })
        else if lock.lock_id ≠ lid then
          ({ success := false, message := "Invalid lock_id" }, s)
        else
          ({ success := true, message := "Items acknowledged successfully",
             items_acknowledged := some lock.items_with_priority.length },
           { s with metadata := some { md with active_lock := none } })

/- Operation alphabet for sequences of Push and Pop invocations. -/
inductive Op (α : Type) where
  | push (item : α) (p : Nat)
  | pop
deriving DecidableEq

/- The state of a freshly activated instance with the given configuration
   (`_on_activate` writes the metadata record with empty queues). -/
def initState {α : Type} (ss buf : Nat) : ActorState α :=
  ⟨some { config := { segment_size := ss, buffer_segments := buf }, queues := [] }, [], []⟩

/- Execute a sequence of operations, collecting each Pop's returned list. -/
def run {α : Type} : ActorState α → List (Op α) → List (List α)
  | _, [] => []
  | s, Op.push x p :: ops => run (Push s x p).2 ops
  | s, Op.pop :: ops =>
    let r := Pop s
    r.1 :: run r.2 ops

/- Specification-side model used to settle claim C1, following the spec's
   words only: one FIFO list per priority, a record kept only while
   non-empty; a pop takes the head of the lowest-numbered non-empty
   priority. -/
abbrev SpecQueues (α : Type) := List (Nat × List α)

def listMin : List Nat → Option Nat
  | [] => none
  | x :: xs =>
    match listMin xs with
    | none => some x
    | some m => some (min x m)

def specPush {α : Type} (Q : SpecQueues α) (x : α) (p : Nat) : SpecQueues α :=
  aset Q p ((alookup Q p).getD [] ++ [x])

def specPop {α : Type} (Q : SpecQueues α) : List α × SpecQueues α :=
  match listMin (Q.map Prod.fst) with
  | none => ([], Q)
  | some p =>
    match alookup Q p with
    | none => ([], Q)
    | some [] => ([], aremove Q p)
    | some [x] => ([x], aremove Q p)
    | some (x :: y :: rest) => ([x], aset Q p (y :: rest))

def specRun {α : Type} : SpecQueues α → List (Op α) → List (List α)
  | _, [] => []
  | Q, Op.push x p :: ops => specRun (specPush Q x p) ops
  | Q, Op.pop :: ops =>
    let r := specPop Q
    r.1 :: specRun r.2 ops

example :
    run (initState 3 1 : ActorState Nat)
      [Op.push 1 0, Op.push 2 0, Op.push 3 0, Op.push 4 0, Op.push 5 0, Op.push 6 0,
       Op.push 7 0, Op.pop, Op.pop, Op.pop, Op.pop, Op.pop, Op.pop, Op.pop, Op.pop] =
    [[1], [2], [3], [4], [5], [6], [7], []] := by decide

example :
    run (initState 1 0 : ActorState Nat) [Op.push 1 0, Op.push 2 0, Op.push 3 0, Op.pop, Op.pop, Op.pop, Op.pop] =
    specRun [] [Op.push 1 0, Op.push 2 0, Op.push 3 0, Op.pop, Op.pop, Op.pop, Op.pop] := by decide

example :
    run (initState 2 0 : ActorState Nat)
      [Op.push 1 2, Op.push 2 0, Op.push 3 1, Op.push 4 2, Op.push 5 2, Op.push 6 2,
       Op.pop, Op.push 7 0, Op.pop, Op.pop, Op.pop, Op.pop, Op.pop, Op.pop, Op.pop] =
    specRun []
      [Op.push 1 2, Op.push 2 0, Op.push 3 1, Op.push 4 2, Op.push 5 2, Op.push 6 2,
       Op.pop, Op.push 7 0, Op.pop, Op.pop, Op.pop, Op.pop, Op.pop, Op.pop, Op.pop] := by decide

/- Concatenation of segment contents over a list of segment numbers. -/
def segConcat {α : Type} (f : Nat → List α) : List Nat → List α
  | [] => []
  | i :: rest => f i ++ segConcat f rest

/- The logical content of segment (p, i): read from the bulk store while
   the segment number lies in the recorded offloaded range, from actor
   state otherwise. -/
def resolveSeg {α : Type} (st : Store α) (p i : Nat) : Option (List α) :=
  if inRangeB (getOffloadedRange st.md p) i then alookup st.bulk (p, i)
  else alookup st.segs (p, i)

/- The abstract FIFO queue of priority p: the segment contents from the
   head segment to the tail segment, in order. -/
def absQueue {α : Type} (st : Store α) (p : Nat) : List α :=
  match alookup st.md.queues p with
  | none => []
  | some _ =>
    segConcat (fun i => (resolveSeg st p i).getD [])
      (List.range' (getHeadSegment st.md p)
        (getTailSegment st.md p + 1 - getHeadSegment st.md p))

/- The per-record invariant of a reachable store (claim C1): pointers and
   count present, the offloaded range well-placed, offloaded segments full
   in the bulk store, resident segments non-empty (interior ones full, the
   tail within capacity), segments outside the window empty, and the
   count equal to the abstract queue length. -/
def QInv (ss buf : Nat) {α : Type} (st : Store α) (p : Nat) (q : QMeta) : Prop :=
  ∃ c h t, q.count = some c ∧ q.head_segment = some h ∧ q.tail_segment = some t ∧
    0 < c ∧ h ≤ t ∧
    ((q.head_offloaded_segment = none ∧ q.tail_offloaded_segment = none) ∨
      (∃ ho toff, q.head_offloaded_segment = some ho ∧ q.tail_offloaded_segment = some toff ∧
        h + buf ≤ ho ∧ ho ≤ h + buf + 1 ∧ ho ≤ toff ∧ toff < t)) ∧
    (∀ i, inRangeB (getOffloadedRange st.md p) i = true →
      ∃ l, alookup st.bulk (p, i) = some l ∧ l.length = ss) ∧
    (∀ i, h ≤ i → i ≤ t → inRangeB (getOffloadedRange st.md p) i = false →
      ∃ l, alookup st.segs (p, i) = some l ∧ l ≠ [] ∧
        (h < i → i < t → l.length = ss) ∧ (i = t → l.length ≤ ss)) ∧
    (∀ i, i < h ∨ t < i → alookup st.segs (p, i) = none ∨ alookup st.segs (p, i) = some []) ∧
    c = (absQueue st p).length

/- The whole-store invariant: configuration, key uniqueness, per-record
   invariant, and emptiness of segments of deleted records. -/
def StInv (ss buf : Nat) {α : Type} (st : Store α) : Prop :=
  st.md.config = ⟨ss, buf⟩ ∧
  (st.md.queues.map Prod.fst).Nodup ∧
  (∀ p q, alookup st.md.queues p = some q → QInv ss buf st p q) ∧
  (∀ p, alookup st.md.queues p = none →
    ∀ i, alookup st.segs (p, i) = none ∨ alookup st.segs (p, i) = some [])

/- Invariant of the specification-side queues: unique keys, no empty
   record kept. -/
def SpecInv {α : Type} (Q : SpecQueues α) : Prop :=
  (Q.map Prod.fst).Nodup ∧ ∀ e ∈ Q, e.2 ≠ []

/- The refinement relation for claim C1: the actor state is invariant-
   respecting and every priority's abstract queue matches the spec-side
   queue. -/
def Abs (ss buf : Nat) {α : Type} (s : ActorState α) (Q : SpecQueues α) : Prop :=
  ∃ md, s.metadata = some md ∧ StInv ss buf (Store.mk md s.segs s.bulk) ∧ SpecInv Q ∧
    ∀ p, absQueue (Store.mk md s.segs s.bulk) p = (alookup Q p).getD []

/- The relation used while the offload loop runs: how the current
   offloaded range of the pushed priority relates to the captured one,
   `first` being the lowest candidate and `a` the next candidate. -/
def rangeRel (R0 Rcur : Option (Nat × Nat)) (first a : Nat) : Prop :=
  match R0 with
  | none => (a ≤ first ∧ Rcur = none) ∨ (∃ b, first ≤ b ∧ b + 1 = a ∧ Rcur = some (first, b))
  | some (ho, toff) =>
    (a ≤ toff + 1 ∧ Rcur = some (ho, toff)) ∨
    (∃ b, toff ≤ b ∧ b + 1 = a ∧ Rcur = some (ho, b))

/- Iterated plain Pop, used for the concrete end-to-end scenario. -/
def iterPop {α : Type} : ActorState α → Nat → ActorState α
  | s, 0 => s
  | s, n + 1 => iterPop (Pop s).2 n

/- The state reached by pushing the items 1..7 to priority 0 of a fresh
   instance configured with segment_size 3 (spec section 8, scenario 1). -/
def c5Pushed : ActorState Nat :=
  ((List.range 7).foldl (fun s n => (Push s (n + 1) 0).2) (initState 3 1))

/- The state after one Push of item 7 to priority 0 of a fresh instance
   with the default configuration, then PopWithAck at time 1000 with the
   default ttl and lock id 42 (claim C2's failing input). -/
def c2Leased : ActorState Nat :=
  (PopWithAck ((Push (initState 100 1) 7 0).2) 1000 none 42).2

/- Items 7 then 8 pushed to priority 0, then PopWithAck at time 1000 with
   the default ttl (30s, so the lease expires at 1030) and lock id 42. -/
def c3Leased : ActorState Nat :=
  (PopWithAck ((Push ((Push (initState 100 1) 7 0).2) 8 0).2) 1000 none 42).2

/- A state whose priority-0 queue records an offloaded segment 1 that is
   absent from the bulk store, with the head pointer at that segment, and
   a healthy priority-5 queue holding the single item 11. -/
def c4Corrupt : ActorState Nat :=
  { metadata := some
      { config := { segment_size := 3, buffer_segments := 1 },
        queues :=
          [(0, { count := some 4, head_segment := some 1, tail_segment := some 2,
                 head_offloaded_segment := some 1, tail_offloaded_segment := some 1 }),
           (5, { count := some 1, head_segment := some 0, tail_segment := some 0 })] },
    segs := [((0, 2), [9]), ((5, 0), [11])],
    bulk := [] }

/- Like c4Corrupt but with the corrupted priority 0 as the only queue. -/
def c4SoleCorrupt : ActorState Nat :=
  { metadata := some
      { config := { segment_size := 3, buffer_segments := 1 },
        queues :=
          [(0, { count := some 4, head_segment := some 1, tail_segment := some 2,
                 head_offloaded_segment := some 1, tail_offloaded_segment := some 1 })] },
    segs := [((0, 2), [9])],
    bulk := [] }

/- Does an optional segment hold exactly ss items (the `has_segment and
   len(segment_data) == segment_size` test of the offload loop)? -/
def fullSeg {α : Type} (ss : Nat) : Option (List α) → Bool
  | some l => l.length == ss
  | none => false

/- The per-segment part of the offload eligibility test: not already
   recorded as offloaded, resident, and exactly full. -/
def offloadEligibleB {α : Type} (segs : SegMap α) (R : Option (Nat × Nat)) (ss p n : Nat) :
    Bool :=
  !(inRangeB R n) && fullSeg ss (alookup segs (p, n))

/- Full offload eligibility after a Push, exactly as claim C8 words it:
   head_segment + buffer_segments < n < tail_segment, n resident, full,
   and not inside the recorded offloaded range. -/
def pushOffloadEligible {α : Type} (st : Store α) (p n : Nat) : Bool :=
  decide (getHeadSegment st.md p + bufferSegments st.md < n) &&
  decide (n < getTailSegment st.md p) &&
  offloadEligibleB st.segs (getOffloadedRange st.md p) (segmentSize st.md) p n

/- Replace the `_active_lock` entry of a store's metadata. -/
def Store.withLock {α : Type} (st : Store α) (l : Option (ALock α)) : Store α :=
  { st with md := { st.md with active_lock := l } }

/- Replace the `_active_lock` entry of an actor state's metadata (no-op
   when the metadata record is absent). -/
def setLockA {α : Type} (s : ActorState α) (l : Option (ALock α)) : ActorState α :=
  { s with metadata := s.metadata.map (fun m => { m with active_lock := l }) }

/- Two items pushed to priority 0 of an instance with segment_size 1 and
   buffer_segments 0; the next Push makes segment 1 eligible to offload. -/
def c8State : ActorState Nat :=
  (Push ((Push (initState 1 0) 1 0).2) 2 0).2

/- A state carrying an active lease, used to instantiate the lease
   theorems at concrete inputs. -/
def cLock : ALock Nat :=
  { lock_id := 5, items_with_priority := [(2, 0)], expires_at := 100, created_at := 90 }

def cLockMd : Metadata Nat :=
  { config := { segment_size := 3, buffer_segments := 1 }, queues := [],
    active_lock := some cLock }

def cLockS : ActorState Nat := ⟨some cLockMd, [], []⟩

/- Association-list lemmas. -/

theorem alookup_aset_self {κ β : Type} [DecidableEq κ] (l : List (κ × β)) (k : κ) (v : β) :
    alookup (aset l k v) k = some v := by
  induction l with
  | nil => simp [aset, alookup]
  | cons e t ih =>
    obtain ⟨a, b⟩ := e
    by_cases h : a = k <;> simp [aset, alookup, h, ih]

theorem alookup_aset_ne {κ β : Type} [DecidableEq κ] (l : List (κ × β)) (k k' : κ) (v : β)
    (h : k' ≠ k) : alookup (aset l k v) k' = alookup l k' := by
  induction l with
  | nil => simp [aset, alookup, Ne.symm h]
  | cons e t ih =>
    obtain ⟨a, b⟩ := e
    by_cases ha : a = k
    · subst ha
      simp [aset, alookup, Ne.symm h]
    · simp [aset, alookup, ha, ih]

theorem alookup_aremove_ne {κ β : Type} [DecidableEq κ] (l : List (κ × β)) (k k' : κ)
    (h : k' ≠ k) : alookup (aremove l k) k' = alookup l k' := by
  induction l with
  | nil => simp [aremove]
  | cons e t ih =>
    obtain ⟨a, b⟩ := e
    by_cases ha : a = k
    · subst ha
      simp [aremove, alookup, Ne.symm h]
    · simp [aremove, alookup, ha, ih]

theorem alookup_eq_none_iff {κ β : Type} [DecidableEq κ] (l : List (κ × β)) (k : κ) :
    alookup l k = none ↔ k ∉ l.map Prod.fst := by
  induction l with
  | nil => simp [alookup]
  | cons e t ih =>
    obtain ⟨a, b⟩ := e
    by_cases ha : a = k <;> simp [alookup, ha, ih, Ne.symm]

theorem alookup_aremove_self {κ β : Type} [DecidableEq κ] (l : List (κ × β)) (k : κ)
    (nd : (l.map Prod.fst).Nodup) : alookup (aremove l k) k = none := by
  induction l with
  | nil => simp [aremove, alookup]
  | cons e t ih =>
    obtain ⟨a, b⟩ := e
    simp only [List.map_cons, List.nodup_cons] at nd
    by_cases ha : a = k
    · subst ha
      simpa [aremove, alookup, alookup_eq_none_iff] using nd.1
    · simp [aremove, alookup, ha, ih nd.2]

theorem keys_aset_of_mem {κ β : Type} [DecidableEq κ] (l : List (κ × β)) (k : κ) (v : β)
    (h : alookup l k ≠ none) : (aset l k v).map Prod.fst = l.map Prod.fst := by
  induction l with
  | nil => simp [alookup] at h
  | cons e t ih =>
    obtain ⟨a, b⟩ := e
    by_cases ha : a = k
    · simp [aset, ha]
    · simp only [alookup, ha, if_false] at h
      simp [aset, ha, ih h]

theorem keys_aset_of_none {κ β : Type} [DecidableEq κ] (l : List (κ × β)) (k : κ) (v : β)
    (h : alookup l k = none) : (aset l k v).map Prod.fst = l.map Prod.fst ++ [k] := by
  induction l with
  | nil => simp [aset]
  | cons e t ih =>
    obtain ⟨a, b⟩ := e
    by_cases ha : a = k
    · simp [alookup, ha] at h
    · simp only [alookup, ha, if_false] at h
      simp [aset, ha, ih h]

theorem nodup_keys_aset {κ β : Type} [DecidableEq κ] (l : List (κ × β)) (k : κ) (v : β)
    (nd : (l.map Prod.fst).Nodup) : ((aset l k v).map Prod.fst).Nodup := by
  rcases h : alookup l k with _ | w
  · rw [keys_aset_of_none l k v h]
    have hk := (alookup_eq_none_iff l k).mp h
    simp [List.nodup_append, nd, hk]
  · rw [keys_aset_of_mem l k v (by simp [h])]
    exact nd

theorem keys_aremove_sublist {κ β : Type} [DecidableEq κ] (l : List (κ × β)) (k : κ) :
    ((aremove l k).map Prod.fst).Sublist (l.map Prod.fst) := by
  induction l with
  | nil => simp [aremove]
  | cons e t ih =>
    obtain ⟨a, b⟩ := e
    by_cases ha : a = k
    · simp only [aremove, ha, if_true, List.map_cons]
      exact (List.sublist_cons_self _ _)
    · simpa [aremove, ha] using ih.cons₂ a

theorem nodup_keys_aremove {κ β : Type} [DecidableEq κ] (l : List (κ × β)) (k : κ)
    (nd : (l.map Prod.fst).Nodup) : ((aremove l k).map Prod.fst).Nodup :=
  (keys_aremove_sublist l k).nodup nd

theorem mem_keys_aset {κ β : Type} [DecidableEq κ] (l : List (κ × β)) (k : κ) (v : β) :
    k ∈ (aset l k v).map Prod.fst := by
  rcases h : alookup l k with _ | w
  · simp [keys_aset_of_none l k v h]
  · rw [keys_aset_of_mem l k v (by simp [h])]
    by_contra hk
    rw [← alookup_eq_none_iff] at hk
    simp [h] at hk

theorem alookup_mem {κ β : Type} [DecidableEq κ] (l : List (κ × β)) (k : κ) (v : β)
    (h : alookup l k = some v) : (k, v) ∈ l := by
  induction l with
  | nil => simp [alookup] at h
  | cons e t ih =>
    obtain ⟨a, b⟩ := e
    by_cases ha : a = k
    · subst ha
      simp only [alookup, if_pos rfl] at h
      injection h with h'
      subst h'
      exact List.mem_cons_self _ _
    · simp only [alookup, ha, if_false] at h
      exact List.mem_cons_of_mem _ (ih h)

theorem exists_alookup_of_mem_keys {κ β : Type} [DecidableEq κ] (l : List (κ × β)) (k : κ)
    (h : k ∈ l.map Prod.fst) : ∃ v, alookup l k = some v := by
  rcases hv : alookup l k with _ | v
  · rw [alookup_eq_none_iff] at hv
    exact absurd h hv
  · exact ⟨v, rfl⟩

theorem mem_aset_elim {κ β : Type} [DecidableEq κ] (l : List (κ × β)) (k : κ) (v : β)
    (e : κ × β) (he : e ∈ aset l k v) : e ∈ l ∨ e = (k, v) := by
  induction l with
  | nil =>
    simp only [aset, List.mem_singleton] at he
    exact Or.inr he
  | cons f t ih =>
    obtain ⟨a, b⟩ := f
    by_cases ha : a = k
    · subst ha
      simp only [aset, if_pos rfl, if_true] at he
      rw [List.mem_cons] at he
      rcases he with he | he
      · exact Or.inr he
      · exact Or.inl (List.mem_cons_of_mem _ he)
    · simp only [aset, ha, if_false] at he
      rw [List.mem_cons] at he
      rcases he with he | he
      · exact Or.inl (by simp [he])
      · rcases ih he with h1 | h1
        · exact Or.inl (List.mem_cons_of_mem _ h1)
        · exact Or.inr h1

theorem mem_aremove {κ β : Type} [DecidableEq κ] (l : List (κ × β)) (k : κ)
    (e : κ × β) (he : e ∈ aremove l k) : e ∈ l := by
  induction l with
  | nil => simp [aremove] at he
  | cons f t ih =>
    obtain ⟨a, b⟩ := f
    by_cases ha : a = k
    · subst ha
      simp only [aremove, if_pos rfl] at he
      exact List.mem_cons_of_mem _ he
    · simp only [aremove, ha, if_false, List.mem_cons] at he
      rcases he with he | he
      · simp [he]
      · exact List.mem_cons_of_mem _ (ih he)

/- Metadata getter/setter lemmas. -/

theorem getQueueCount_setQueueCount_self {α : Type} (m : Metadata α) (p c : Nat) :
    getQueueCount (setQueueCount m p c) p = c := by
  simp [getQueueCount, setQueueCount, putQueue, alookup_aset_self]

theorem getQueueCount_setQueueCount_ne {α : Type} (m : Metadata α) (p p' c : Nat)
    (h : p' ≠ p) : getQueueCount (setQueueCount m p c) p' = getQueueCount m p' := by
  simp [getQueueCount, setQueueCount, putQueue, alookup_aset_ne _ _ _ _ h]

theorem getHeadSegment_setQueueCount {α : Type} (m : Metadata α) (p p' c : Nat) :
    getHeadSegment (setQueueCount m p c) p' = getHeadSegment m p' := by
  by_cases h : p' = p
  · subst h
    rcases hq : alookup m.queues p' with _ | q <;>
      simp [getHeadSegment, setQueueCount, putQueue, alookup_aset_self, hq]
  · simp [getHeadSegment, setQueueCount, putQueue, alookup_aset_ne _ _ _ _ h]

theorem getTailSegment_setQueueCount {α : Type} (m : Metadata α) (p p' c : Nat) :
    getTailSegment (setQueueCount m p c) p' = getTailSegment m p' := by
  by_cases h : p' = p
  · subst h
    rcases hq : alookup m.queues p' with _ | q <;>
      simp [getTailSegment, setQueueCount, putQueue, alookup_aset_self, hq]
  · simp [getTailSegment, setQueueCount, putQueue, alookup_aset_ne _ _ _ _ h]

theorem getOffloadedRange_setQueueCount {α : Type} (m : Metadata α) (p p' c : Nat) :
    getOffloadedRange (setQueueCount m p c) p' = getOffloadedRange m p' := by
  by_cases h : p' = p
  · subst h
    rcases hq : alookup m.queues p' with _ | q <;>
      simp [getOffloadedRange, setQueueCount, putQueue, alookup_aset_self, hq]
  · simp [getOffloadedRange, setQueueCount, putQueue, alookup_aset_ne _ _ _ _ h]

theorem getHeadSegment_setSegmentPointers_self {α : Type} (m : Metadata α) (p h t : Nat) :
    getHeadSegment (setSegmentPointers m p h t) p = h := by
  simp [getHeadSegment, setSegmentPointers, putQueue, alookup_aset_self]

theorem getTailSegment_setSegmentPointers_self {α : Type} (m : Metadata α) (p h t : Nat) :
    getTailSegment (setSegmentPointers m p h t) p = t := by
  simp [getTailSegment, setSegmentPointers, putQueue, alookup_aset_self]

theorem getHeadSegment_setSegmentPointers_ne {α : Type} (m : Metadata α) (p p' h t : Nat)
    (hp : p' ≠ p) : getHeadSegment (setSegmentPointers m p h t) p' = getHeadSegment m p' := by
  simp [getHeadSegment, setSegmentPointers, putQueue, alookup_aset_ne _ _ _ _ hp]

theorem getTailSegment_setSegmentPointers_ne {α : Type} (m : Metadata α) (p p' h t : Nat)
    (hp : p' ≠ p) : getTailSegment (setSegmentPointers m p h t) p' = getTailSegment m p' := by
  simp [getTailSegment, setSegmentPointers, putQueue, alookup_aset_ne _ _ _ _ hp]

theorem getQueueCount_setSegmentPointers {α : Type} (m : Metadata α) (p p' h t : Nat) :
    getQueueCount (setSegmentPointers m p h t) p' = getQueueCount m p' := by
  by_cases hp : p' = p
  · subst hp
    rcases hq : alookup m.queues p' with _ | q <;>
      simp [getQueueCount, setSegmentPointers, putQueue, alookup_aset_self, hq]
  · simp [getQueueCount, setSegmentPointers, putQueue, alookup_aset_ne _ _ _ _ hp]

theorem getOffloadedRange_setSegmentPointers {α : Type} (m : Metadata α) (p p' h t : Nat) :
    getOffloadedRange (setSegmentPointers m p h t) p' = getOffloadedRange m p' := by
  by_cases hp : p' = p
  · subst hp
    rcases hq : alookup m.queues p' with _ | q <;>
      simp [getOffloadedRange, setSegmentPointers, putQueue, alookup_aset_self, hq]
  · simp [getOffloadedRange, setSegmentPointers, putQueue, alookup_aset_ne _ _ _ _ hp]

theorem getQueueCount_deleteQueueMetadata_ne {α : Type} (m : Metadata α) (p p' : Nat)
    (hp : p' ≠ p) : getQueueCount (deleteQueueMetadata m p) p' = getQueueCount m p' := by
  simp [getQueueCount, deleteQueueMetadata, alookup_aremove_ne _ _ _ hp]

theorem lookup_deleteQueueMetadata_ne {α : Type} (m : Metadata α) (p p' : Nat) (hp : p' ≠ p) :
    alookup (deleteQueueMetadata m p).queues p' = alookup m.queues p' :=
  alookup_aremove_ne _ _ _ hp

theorem lookup_deleteQueueMetadata_self {α : Type} (m : Metadata α) (p : Nat)
    (nd : (m.queues.map Prod.fst).Nodup) :
    alookup (deleteQueueMetadata m p).queues p = none :=
  alookup_aremove_self _ _ nd

theorem getHeadSegment_deleteQueueMetadata_ne {α : Type} (m : Metadata α) (p p' : Nat)
    (hp : p' ≠ p) : getHeadSegment (deleteQueueMetadata m p) p' = getHeadSegment m p' := by
  unfold getHeadSegment
  rw [lookup_deleteQueueMetadata_ne m p p' hp]

theorem getTailSegment_deleteQueueMetadata_ne {α : Type} (m : Metadata α) (p p' : Nat)
    (hp : p' ≠ p) : getTailSegment (deleteQueueMetadata m p) p' = getTailSegment m p' := by
  unfold getTailSegment
  rw [lookup_deleteQueueMetadata_ne m p p' hp]

theorem getOffloadedRange_deleteQueueMetadata_ne {α : Type} (m : Metadata α) (p p' : Nat)
    (hp : p' ≠ p) :
    getOffloadedRange (deleteQueueMetadata m p) p' = getOffloadedRange m p' := by
  unfold getOffloadedRange
  rw [lookup_deleteQueueMetadata_ne m p p' hp]

/- `addOffloadedSegment` rewrites the p-record, keeping count and both
   segment pointers. -/
theorem addOffloadedSegment_eq_aset {α : Type} (m : Metadata α) (p n : Nat) :
    ∃ q' : QMeta, addOffloadedSegment m p n = { m with queues := aset m.queues p q' }
      ∧ q'.count = ((alookup m.queues p).getD {}).count
      ∧ q'.head_segment = ((alookup m.queues p).getD {}).head_segment
      ∧ q'.tail_segment = ((alookup m.queues p).getD {}).tail_segment := by
  unfold addOffloadedSegment
  rcases hho : ((alookup m.queues p).getD {}).head_offloaded_segment with _ | a <;>
    exact ⟨_, rfl, rfl, rfl, rfl⟩

theorem removeOffloadedSegment_eq_of_none {α : Type} (m : Metadata α) (p n : Nat)
    (hr : getOffloadedRange m p = none) : removeOffloadedSegment m p n = m := by
  unfold removeOffloadedSegment
  rw [hr]

theorem removeOffloadedSegment_eq_of_some {α : Type} (m : Metadata α) (p n a b : Nat)
    (hr : getOffloadedRange m p = some (a, b)) :
    removeOffloadedSegment m p n =
      if n = a then
        (if a = b then
          putQueue m p
            { (alookup m.queues p).getD {} with
                head_offloaded_segment := (none : Option Nat),
                tail_offloaded_segment := (none : Option Nat) }
         else
          putQueue m p
            { (alookup m.queues p).getD {} with head_offloaded_segment := some (a + 1) })
      else m := by
  unfold removeOffloadedSegment
  rw [hr]

/- `removeOffloadedSegment` either leaves the metadata unchanged or
   rewrites the p-record, keeping count and both segment pointers. -/
theorem removeOffloadedSegment_cases {α : Type} (m : Metadata α) (p n : Nat) :
    removeOffloadedSegment m p n = m ∨
    ∃ q' : QMeta, removeOffloadedSegment m p n = { m with queues := aset m.queues p q' }
      ∧ q'.count = ((alookup m.queues p).getD {}).count
      ∧ q'.head_segment = ((alookup m.queues p).getD {}).head_segment
      ∧ q'.tail_segment = ((alookup m.queues p).getD {}).tail_segment := by
  rcases hr : getOffloadedRange m p with _ | ⟨a, b⟩
  · exact Or.inl (removeOffloadedSegment_eq_of_none m p n hr)
  · rw [removeOffloadedSegment_eq_of_some m p n a b hr]
    by_cases hn : n = a
    · rw [if_pos hn]
      by_cases hab : a = b
      · rw [if_pos hab]
        exact Or.inr ⟨_, rfl, rfl, rfl, rfl⟩
      · rw [if_neg hab]
        exact Or.inr ⟨_, rfl, rfl, rfl, rfl⟩
    · rw [if_neg hn]
      exact Or.inl rfl

/- The three plain getters see through an `aset` that keeps the
   corresponding fields. -/
theorem getQueueCount_aset_keep {α : Type} (m : Metadata α) (p p' : Nat) (q' : QMeta)
    (hc : q'.count = ((alookup m.queues p).getD {}).count) :
    getQueueCount { m with queues := aset m.queues p q' } p' = getQueueCount m p' := by
  by_cases hp : p' = p
  · subst hp
    rcases hq : alookup m.queues p' with _ | q <;>
      simp_all [getQueueCount, alookup_aset_self, hq]
  · simp [getQueueCount, alookup_aset_ne _ _ _ _ hp]

theorem getHeadSegment_aset_keep {α : Type} (m : Metadata α) (p p' : Nat) (q' : QMeta)
    (hh : q'.head_segment = ((alookup m.queues p).getD {}).head_segment) :
    getHeadSegment { m with queues := aset m.queues p q' } p' = getHeadSegment m p' := by
  by_cases hp : p' = p
  · subst hp
    rcases hq : alookup m.queues p' with _ | q <;>
      simp_all [getHeadSegment, alookup_aset_self, hq]
  · simp [getHeadSegment, alookup_aset_ne _ _ _ _ hp]

theorem getTailSegment_aset_keep {α : Type} (m : Metadata α) (p p' : Nat) (q' : QMeta)
    (ht : q'.tail_segment = ((alookup m.queues p).getD {}).tail_segment) :
    getTailSegment { m with queues := aset m.queues p q' } p' = getTailSegment m p' := by
  by_cases hp : p' = p
  · subst hp
    rcases hq : alookup m.queues p' with _ | q <;>
      simp_all [getTailSegment, alookup_aset_self, hq]
  · simp [getTailSegment, alookup_aset_ne _ _ _ _ hp]

theorem getQueueCount_addOffloadedSegment {α : Type} (m : Metadata α) (p p' n : Nat) :
    getQueueCount (addOffloadedSegment m p n) p' = getQueueCount m p' := by
  obtain ⟨q', he, hc, _, _⟩ := addOffloadedSegment_eq_aset m p n
  rw [he, getQueueCount_aset_keep m p p' q' hc]

theorem getHeadSegment_addOffloadedSegment {α : Type} (m : Metadata α) (p p' n : Nat) :
    getHeadSegment (addOffloadedSegment m p n) p' = getHeadSegment m p' := by
  obtain ⟨q', he, _, hh, _⟩ := addOffloadedSegment_eq_aset m p n
  rw [he, getHeadSegment_aset_keep m p p' q' hh]

theorem getTailSegment_addOffloadedSegment {α : Type} (m : Metadata α) (p p' n : Nat) :
    getTailSegment (addOffloadedSegment m p n) p' = getTailSegment m p' := by
  obtain ⟨q', he, _, _, ht⟩ := addOffloadedSegment_eq_aset m p n
  rw [he, getTailSegment_aset_keep m p p' q' ht]

theorem getQueueCount_removeOffloadedSegment {α : Type} (m : Metadata α) (p p' n : Nat) :
    getQueueCount (removeOffloadedSegment m p n) p' = getQueueCount m p' := by
  rcases removeOffloadedSegment_cases m p n with he | ⟨q', he, hc, _, _⟩
  · rw [he]
  · rw [he, getQueueCount_aset_keep m p p' q' hc]

theorem getHeadSegment_removeOffloadedSegment {α : Type} (m : Metadata α) (p p' n : Nat) :
    getHeadSegment (removeOffloadedSegment m p n) p' = getHeadSegment m p' := by
  rcases removeOffloadedSegment_cases m p n with he | ⟨q', he, _, hh, _⟩
  · rw [he]
  · rw [he, getHeadSegment_aset_keep m p p' q' hh]

theorem getTailSegment_removeOffloadedSegment {α : Type} (m : Metadata α) (p p' n : Nat) :
    getTailSegment (removeOffloadedSegment m p n) p' = getTailSegment m p' := by
  rcases removeOffloadedSegment_cases m p n with he | ⟨q', he, _, _, ht⟩
  · rw [he]
  · rw [he, getTailSegment_aset_keep m p p' q' ht]

theorem getOffloadedRange_addOffloadedSegment_ne {α : Type} (m : Metadata α) (p p' n : Nat)
    (hp : p' ≠ p) :
    getOffloadedRange (addOffloadedSegment m p n) p' = getOffloadedRange m p' := by
  obtain ⟨q', he, _, _, _⟩ := addOffloadedSegment_eq_aset m p n
  rw [he]
  simp [getOffloadedRange, alookup_aset_ne _ _ _ _ hp]

theorem getOffloadedRange_removeOffloadedSegment_ne {α : Type} (m : Metadata α) (p p' n : Nat)
    (hp : p' ≠ p) :
    getOffloadedRange (removeOffloadedSegment m p n) p' = getOffloadedRange m p' := by
  rcases removeOffloadedSegment_cases m p n with he | ⟨q', he, _, _, _⟩
  · rw [he]
  · rw [he]
    simp [getOffloadedRange, alookup_aset_ne _ _ _ _ hp]

theorem config_setQueueCount {α : Type} (m : Metadata α) (p c : Nat) :
    (setQueueCount m p c).config = m.config := rfl

theorem config_setSegmentPointers {α : Type} (m : Metadata α) (p h t : Nat) :
    (setSegmentPointers m p h t).config = m.config := rfl

theorem config_deleteQueueMetadata {α : Type} (m : Metadata α) (p : Nat) :
    (deleteQueueMetadata m p).config = m.config := rfl

theorem config_addOffloadedSegment {α : Type} (m : Metadata α) (p n : Nat) :
    (addOffloadedSegment m p n).config = m.config := by
  obtain ⟨q', he, _, _, _⟩ := addOffloadedSegment_eq_aset m p n
  rw [he]

theorem config_removeOffloadedSegment {α : Type} (m : Metadata α) (p n : Nat) :
    (removeOffloadedSegment m p n).config = m.config := by
  rcases removeOffloadedSegment_cases m p n with he | ⟨q', he, _, _, _⟩ <;> rw [he]

theorem active_lock_setQueueCount {α : Type} (m : Metadata α) (p c : Nat) :
    (setQueueCount m p c).active_lock = m.active_lock := rfl

theorem active_lock_setSegmentPointers {α : Type} (m : Metadata α) (p h t : Nat) :
    (setSegmentPointers m p h t).active_lock = m.active_lock := rfl

theorem active_lock_deleteQueueMetadata {α : Type} (m : Metadata α) (p : Nat) :
    (deleteQueueMetadata m p).active_lock = m.active_lock := rfl

theorem active_lock_addOffloadedSegment {α : Type} (m : Metadata α) (p n : Nat) :
    (addOffloadedSegment m p n).active_lock = m.active_lock := by
  obtain ⟨q', he, _, _, _⟩ := addOffloadedSegment_eq_aset m p n
  rw [he]

theorem active_lock_removeOffloadedSegment {α : Type} (m : Metadata α) (p n : Nat) :
    (removeOffloadedSegment m p n).active_lock = m.active_lock := by
  rcases removeOffloadedSegment_cases m p n with he | ⟨q', he, _, _, _⟩ <;> rw [he]

/- Priority-key lemmas. -/

theorem priorityKeys_sorted {α : Type} (m : Metadata α) :
    (priorityKeys m).Sorted (· ≤ ·) :=
  List.sorted_insertionSort _ _

theorem mem_priorityKeys {α : Type} (m : Metadata α) (p : Nat) :
    p ∈ priorityKeys m ↔ p ∈ m.queues.map Prod.fst := by
  simp [priorityKeys]

theorem priorityKeys_head_le {α : Type} (m : Metadata α) (p0 : Nat) (rest : List Nat)
    (hpk : priorityKeys m = p0 :: rest) : ∀ x ∈ priorityKeys m, p0 ≤ x := by
  have hs := priorityKeys_sorted m
  rw [hpk] at hs ⊢
  intro x hx
  rcases List.mem_cons.mp hx with hx | hx
  · exact hx.ge
  · exact (List.sorted_cons.mp hs).1 x hx

theorem priorityKeys_eq_nil {α : Type} (m : Metadata α) (h : priorityKeys m = []) :
    ∀ p, alookup m.queues p = none := by
  intro p
  rw [alookup_eq_none_iff]
  intro hmem
  have hmem' : p ∈ priorityKeys m := (mem_priorityKeys m p).mpr hmem
  rw [h] at hmem'
  simp at hmem'

/- A load loop over a bulk store with no entries for priority p does
   nothing. -/
theorem loadLoop_bulk_absent {α : Type} (p maxOff : Nat) (st : Store α) (L : List Nat)
    (hb : ∀ n, alookup st.bulk (p, n) = none) : loadLoop p maxOff st L = st := by
  induction L with
  | nil => rfl
  | cons n rest ih =>
    by_cases hn : n ≤ maxOff
    · simp [loadLoop, hn, loadOffloadedSegment, hb n, ih]
    · simp [loadLoop, hn]

/-- Claim C5: with segment_size 3, pushing items 1..7 to priority 0 of an
empty instance yields head_segment 0, tail_segment 2, count 7 and segments
[1,2,3], [4,5,6], [7]; seven Pops return 1..7 in order, the eighth returns
empty, and after the seventh Pop the metadata has no queue_0 record. -/
theorem c5_segment_scenario :
    c5Pushed.metadata.map
        (fun md => (getQueueCount md 0, getHeadSegment md 0, getTailSegment md 0)) =
      some (7, 0, 2)
    ∧ alookup c5Pushed.segs (0, 0) = some [1, 2, 3]
    ∧ alookup c5Pushed.segs (0, 1) = some [4, 5, 6]
    ∧ alookup c5Pushed.segs (0, 2) = some [7]
    ∧ run c5Pushed (List.replicate 8 Op.pop) = [[1], [2], [3], [4], [5], [6], [7], []]
    ∧ (iterPop c5Pushed 7).metadata.map (fun md => alookup md.queues 0) = some none := by
  decide

/-- Claim C2 (failing input): when PopWithAck removes the last item of a
priority whose head segment equals its tail segment, the leased item is
still stored in that segment — the actor-state key queue_0_seg_0 keeps the
full old list while the lease's held_items holds the same item, and after
Acknowledge and one more Push a plain Pop delivers the item a second
time. -/
theorem c2_leased_item_remains_in_segment :
    alookup c2Leased.segs (0, 0) = some [7]
    ∧ c2Leased.metadata.map Metadata.active_lock =
        some (some { lock_id := 42, items_with_priority := [(7, 0)],
                     expires_at := 1030, created_at := 1000 })
    ∧ (Pop ((Push ((Acknowledge c2Leased 1001 (some 42)).2) 8 0).2)).1 = [7] := by
  decide

/-- Claim C3 (counterexample): after PopWithAck leased item 7 from
priority 0 with the lease expiring at 1030, a plain Pop does not return
the held item 7 — it returns the next queued item 8, because Pop never
consults the lease. -/
theorem c3_plain_pop_ignores_lease_counterexample :
    c3Leased.metadata.map Metadata.active_lock =
      some (some { lock_id := 42, items_with_priority := [(7, 0)],
                   expires_at := 1030, created_at := 1000 })
    ∧ (Pop c3Leased).1 = [8]
    ∧ (Pop c3Leased).1 ≠ [7] := by
  decide

/-- Claim C4 (counterexample): with the bulk-store entry for offloaded
segment 1 of priority 0 absent and the head pointer at that segment, Pop
does not fail: it deletes the priority-0 metadata record and serves the
priority-5 item instead. -/
theorem c4_missing_bulk_entry_counterexample :
    alookup c4Corrupt.bulk (0, 1) = none
    ∧ (Pop c4Corrupt).1 = [11]
    ∧ (Pop c4Corrupt).2.metadata.map (fun md => alookup md.queues 0) = some none := by
  decide

/-- Claim C6: while an active lease's expires_at is still in the future,
PopWithAck returns locked = true carrying the lease's expiry and no items,
and the state — metadata, lease, all segments — is returned unchanged. -/
theorem c6_popWithAck_locked_unchanged {α : Type} (s : ActorState α) (now : Nat)
    (ttl : Option Int) (lid : Nat) (md : Metadata α) (lock : ALock α)
    (hm : s.metadata = some md) (hl : md.active_lock = some lock)
    (ht : now < lock.expires_at) :
    PopWithAck s now ttl lid =
      ({ items := [], count := 0, locked := true,
         lock_expires_at := some lock.expires_at,
         message := some "Queue is locked pending acknowledgement" }, s) := by
  simp [PopWithAck, hm, hl, ht]

theorem c6_popWithAck_locked_unchanged_witness :
    PopWithAck cLockS 50 none 9 =
      ({ items := [], count := 0, locked := true, lock_expires_at := some 100,
         message := some "Queue is locked pending acknowledgement" }, cLockS) :=
  c6_popWithAck_locked_unchanged cLockS 50 none 9 cLockMd cLock rfl rfl (by decide)

/-- Claim C7: when the active lease has expired, Acknowledge deletes the
lease record without touching any queue — only the active_lock field of
the metadata changes — and reports failure with the LOCK_EXPIRED error
code, whatever lock id was supplied. -/
theorem c7_acknowledge_expired_clears_lease {α : Type} (s : ActorState α) (now : Nat)
    (lid : Nat) (md : Metadata α) (lock : ALock α)
    (hm : s.metadata = some md) (hl : md.active_lock = some lock)
    (ht : lock.expires_at ≤ now) :
    Acknowledge s now (some lid) =
      ({ success := false, message := "Lock has expired",
         error_code := some "LOCK_EXPIRED" },
       { s with metadata := some { md with active_lock := none } }) := by
  simp [Acknowledge, hm, hl, ht]

theorem c7_acknowledge_expired_clears_lease_witness :
    Acknowledge cLockS 200 (some 77) =
      ({ success := false, message := "Lock has expired",
         error_code := some "LOCK_EXPIRED" },
       { cLockS with metadata := some { cLockMd with active_lock := none } }) :=
  c7_acknowledge_expired_clears_lease cLockS 200 77 cLockMd cLock rfl rfl (by decide)

theorem checkAndLoadSegments_range_none {α : Type} (st : Store α) (p : Nat)
    (h : getOffloadedRange st.md p = none) : checkAndLoadSegments st p = st := by
  simp [checkAndLoadSegments, h]

/- Lemmas about segment concatenation, list minima and range membership. -/

theorem segConcat_congr {α : Type} (f g : Nat → List α) (L : List Nat)
    (h : ∀ i ∈ L, f i = g i) : segConcat f L = segConcat g L := by
  induction L with
  | nil => rfl
  | cons i rest ih =>
    simp only [segConcat]
    rw [h i (List.mem_cons_self i rest), ih (fun j hj => h j (List.mem_cons_of_mem i hj))]

theorem segConcat_append {α : Type} (f : Nat → List α) (L1 L2 : List Nat) :
    segConcat f (L1 ++ L2) = segConcat f L1 ++ segConcat f L2 := by
  induction L1 with
  | nil => rfl
  | cons i rest ih => simp [segConcat, ih]

theorem segConcat_cons {α : Type} (f : Nat → List α) (a : Nat) (L : List Nat) :
    segConcat f (a :: L) = f a ++ segConcat f L := rfl

theorem segConcat_range'_left {α : Type} (f : Nat → List α) (a n : Nat) :
    segConcat f (List.range' a (n + 1)) = f a ++ segConcat f (List.range' (a + 1) n) := by
  rw [List.range'_succ]
  rfl

theorem segConcat_range'_right {α : Type} (f : Nat → List α) (a n : Nat) :
    segConcat f (List.range' a (n + 1)) = segConcat f (List.range' a n) ++ f (a + n) := by
  have h := @List.range'_concat 1 a n
  rw [h, segConcat_append]
  simp [segConcat]

theorem listMin_isSome {l : List Nat} (h : l ≠ []) : ∃ m, listMin l = some m := by
  cases l with
  | nil => exact absurd rfl h
  | cons x xs =>
    rcases hm : listMin xs with _ | m
    · exact ⟨x, by simp [listMin, hm]⟩
    · exact ⟨min x m, by simp [listMin, hm]⟩

theorem listMin_eq_none_iff {l : List Nat} : listMin l = none ↔ l = [] := by
  cases l with
  | nil => simp [listMin]
  | cons x xs =>
    simp only [listMin]
    rcases listMin xs with _ | m <;> simp

theorem listMin_mem {l : List Nat} : ∀ {m : Nat}, listMin l = some m → m ∈ l := by
  induction l with
  | nil => intro m h; simp [listMin] at h
  | cons x xs ih =>
    intro m h
    rcases hm : listMin xs with _ | m'
    · rw [listMin, hm] at h
      simp only [Option.some.injEq] at h
      simp [← h]
    · rw [listMin, hm] at h
      simp only [Option.some.injEq] at h
      rcases Nat.le_total x m' with hle | hle
      · rw [← h, Nat.min_eq_left hle]
        exact List.mem_cons_self x xs
      · rw [← h, Nat.min_eq_right hle]
        exact List.mem_cons_of_mem x (ih hm)

theorem inRangeB_some {a b i : Nat} : inRangeB (some (a, b)) i = true ↔ a ≤ i ∧ i ≤ b := by
  simp [inRangeB]

theorem inRangeB_none {i : Nat} : inRangeB none i = false := rfl

theorem getOffloadedRange_some_lookup {α : Type} {m : Metadata α} {p a b : Nat}
    (h : getOffloadedRange m p = some (a, b)) :
    ∃ q, alookup m.queues p = some q ∧ q.head_offloaded_segment = some a ∧
      q.tail_offloaded_segment = some b := by
  rcases hq : alookup m.queues p with _ | q
  · have h0 : getOffloadedRange m p = none := by
      unfold getOffloadedRange
      rw [hq]
    rw [h0] at h
    simp at h
  · have h0 : getOffloadedRange m p =
        (match q.head_offloaded_segment, q.tail_offloaded_segment with
         | some x, some y => some (x, y)
         | _, _ => none) := by
      unfold getOffloadedRange
      rw [hq]
    rw [h0] at h
    rcases hho : q.head_offloaded_segment with _ | x <;> rw [hho] at h
    · simp at h
    · rcases hto : q.tail_offloaded_segment with _ | y <;> rw [hto] at h
      · simp at h
      · simp only [Option.some.injEq, Prod.mk.injEq] at h
        exact ⟨q, rfl, by rw [hho, h.1], by rw [hto, h.2]⟩

theorem lookup_putQueue_self {α : Type} (m : Metadata α) (p : Nat) (q' : QMeta) :
    alookup (putQueue m p q').queues p = some q' := by
  simp [putQueue, alookup_aset_self]

theorem lookup_putQueue_ne {α : Type} (m : Metadata α) (p p' : Nat) (q' : QMeta)
    (h : p' ≠ p) : alookup (putQueue m p q').queues p' = alookup m.queues p' := by
  simp [putQueue, alookup_aset_ne _ _ _ _ h]

theorem getOffloadedRange_putQueue_some {α : Type} (m : Metadata α) (p x y : Nat) (q' : QMeta)
    (hx : q'.head_offloaded_segment = some x) (hy : q'.tail_offloaded_segment = some y) :
    getOffloadedRange (putQueue m p q') p = some (x, y) := by
  simp [getOffloadedRange, lookup_putQueue_self, hx, hy]

theorem getOffloadedRange_putQueue_none {α : Type} (m : Metadata α) (p : Nat) (q' : QMeta)
    (hx : q'.head_offloaded_segment = none) (hy : q'.tail_offloaded_segment = none) :
    getOffloadedRange (putQueue m p q') p = none := by
  simp [getOffloadedRange, lookup_putQueue_self, hx, hy]

theorem absQueue_of_lookup {α : Type} (st : Store α) (p : Nat) (q : QMeta)
    (hq : alookup st.md.queues p = some q) :
    absQueue st p =
      segConcat (fun i => (resolveSeg st p i).getD [])
        (List.range' (getHeadSegment st.md p)
          (getTailSegment st.md p + 1 - getHeadSegment st.md p)) := by
  unfold absQueue
  rw [hq]

theorem absQueue_of_none {α : Type} (st : Store α) (p : Nat)
    (hq : alookup st.md.queues p = none) : absQueue st p = [] := by
  unfold absQueue
  rw [hq]

/- Two stores with record presence, pointers and resolved contents
   agreeing on a priority have the same abstract queue there. -/
theorem absQueue_congr {α : Type} (st' st : Store α) (p : Nat)
    (hq : alookup st'.md.queues p = none ↔ alookup st.md.queues p = none)
    (hh : getHeadSegment st'.md p = getHeadSegment st.md p)
    (ht : getTailSegment st'.md p = getTailSegment st.md p)
    (hres : ∀ i, getHeadSegment st.md p ≤ i → i ≤ getTailSegment st.md p →
      resolveSeg st' p i = resolveSeg st p i) :
    absQueue st' p = absQueue st p := by
  rcases hq0 : alookup st.md.queues p with _ | q
  · rw [absQueue_of_none st p hq0, absQueue_of_none st' p (hq.mpr hq0)]
  · rcases hq1 : alookup st'.md.queues p with _ | q'
    · rw [hq1, hq0] at hq
      simp at hq
    · rw [absQueue_of_lookup st p q hq0, absQueue_of_lookup st' p q' hq1, hh, ht]
      apply segConcat_congr
      intro i hi
      rw [List.mem_range'_1] at hi
      rw [hres i hi.1 (by omega)]

theorem getQueueCount_of_lookup {α : Type} {m : Metadata α} {p c : Nat} {q : QMeta}
    (hq : alookup m.queues p = some q) (hc : q.count = some c) :
    getQueueCount m p = c := by
  simp [getQueueCount, hq, hc]

theorem getHeadSegment_of_lookup {α : Type} {m : Metadata α} {p hv : Nat} {q : QMeta}
    (hq : alookup m.queues p = some q) (hh : q.head_segment = some hv) :
    getHeadSegment m p = hv := by
  simp [getHeadSegment, hq, hh]

theorem getTailSegment_of_lookup {α : Type} {m : Metadata α} {p tv : Nat} {q : QMeta}
    (hq : alookup m.queues p = some q) (ht : q.tail_segment = some tv) :
    getTailSegment m p = tv := by
  simp [getTailSegment, hq, ht]

theorem lookup_removeOffloadedSegment_ne {α : Type} (m : Metadata α) (p p' n : Nat)
    (hp : p' ≠ p) :
    alookup (removeOffloadedSegment m p n).queues p' = alookup m.queues p' := by
  rcases removeOffloadedSegment_cases m p n with he | ⟨q', he, -, -, -⟩ <;> rw [he]
  exact alookup_aset_ne _ _ _ _ hp

/- Transport of the record invariant along a state change that leaves all
   reads of the record's priority untouched. -/
theorem QInv_transport {α : Type} (ss buf p' : Nat) (st1 st : Store α) (q' : QMeta)
    (hr : getOffloadedRange st1.md p' = getOffloadedRange st.md p')
    (hs : ∀ i, alookup st1.segs (p', i) = alookup st.segs (p', i))
    (hb : ∀ i, alookup st1.bulk (p', i) = alookup st.bulk (p', i))
    (habs : absQueue st1 p' = absQueue st p') :
    QInv ss buf st p' q' → QInv ss buf st1 p' q' := by
  rintro ⟨c, h, t, h1, h2, h3, h4, h5, h6, h7, h8, h9, h10⟩
  refine ⟨c, h, t, h1, h2, h3, h4, h5, h6, ?_, ?_, ?_, ?_⟩
  · intro i hi
    rw [hr] at hi
    rw [hb]
    exact h7 i hi
  · intro i hi1 hi2 hi3
    rw [hr] at hi3
    rw [hs]
    exact h8 i hi1 hi2 hi3
  · intro i hi
    rw [hs]
    exact h9 i hi
  · rw [habs]
    exact h10

/- One successful reload step: the head of the offloaded range moves back
   into actor state; the invariant, every abstract queue, every count and
   pointer, and every other priority's data survive; the range shrinks
   from the head. -/
theorem loadStepInv {α : Type} (ss buf p a toff : Nat) (st : Store α)
    (hss : 1 ≤ ss)
    (hInv : StInv ss buf st)
    (hr : getOffloadedRange st.md p = some (a, toff))
    (ha : a ≤ getHeadSegment st.md p + buf) :
    StInv ss buf (loadOffloadedSegment st p a).2 ∧
    (∀ p', absQueue (loadOffloadedSegment st p a).2 p' = absQueue st p') ∧
    (∀ p', getQueueCount (loadOffloadedSegment st p a).2.md p' = getQueueCount st.md p' ∧
      getHeadSegment (loadOffloadedSegment st p a).2.md p' = getHeadSegment st.md p' ∧
      getTailSegment (loadOffloadedSegment st p a).2.md p' = getTailSegment st.md p') ∧
    (∀ p', p' ≠ p → getOffloadedRange (loadOffloadedSegment st p a).2.md p' =
      getOffloadedRange st.md p') ∧
    getOffloadedRange (loadOffloadedSegment st p a).2.md p =
      (if a = toff then none else some (a + 1, toff)) := by
  obtain ⟨q, hq, hqho, hqto⟩ := getOffloadedRange_some_lookup hr
  obtain ⟨hconf, hnd, hrecs, habsent⟩ := hInv
  obtain ⟨c, h, t, hqc, hqh, hqt, hcpos, hht, hshape, hbfull, hres, hstale, hcnt⟩ :=
    hrecs p q hq
  have hH : getHeadSegment st.md p = h := getHeadSegment_of_lookup hq hqh
  have hT : getTailSegment st.md p = t := getTailSegment_of_lookup hq hqt
  rw [hH] at ha
  rcases hshape with ⟨hn, -⟩ | ⟨ho', toff', hho', hto', hb1, hb2, hb3, hb4⟩
  · rw [hqho] at hn
    simp at hn
  have hoa : ho' = a := Option.some.inj (hho'.symm.trans hqho)
  have htoa : toff' = toff := Option.some.inj (hto'.symm.trans hqto)
  simp only [hoa, htoa] at hb1 hb2 hb3 hb4
  have hat' : a < t := by omega
  have hhba : h ≤ a := by omega
  have hinr0 : inRangeB (getOffloadedRange st.md p) a = true := by
    rw [hr]
    exact inRangeB_some.mpr ⟨Nat.le_refl a, hb3⟩
  obtain ⟨l, hbl, hblen⟩ := hbfull a hinr0
  have hlne : l ≠ [] := by
    intro h0
    rw [h0] at hblen
    simp at hblen
    omega
  rcases l with _ | ⟨x, xs⟩
  · exact absurd rfl hlne
  have hload2 : (loadOffloadedSegment st p a).2 =
      Store.mk (removeOffloadedSegment st.md p a) (aset st.segs (p, a) (x :: xs))
        (aremove st.bulk (p, a)) := by
    simp [loadOffloadedSegment, hbl]
  have hmd1 : removeOffloadedSegment st.md p a =
      putQueue st.md p
        (if a = toff then
          { q with head_offloaded_segment := (none : Option Nat),
                   tail_offloaded_segment := (none : Option Nat) }
         else { q with head_offloaded_segment := some (a + 1) }) := by
    rw [removeOffloadedSegment_eq_of_some st.md p a a toff hr]
    simp only [hq, Option.getD_some, if_pos rfl, if_true]
    by_cases hat : a = toff
    · rw [if_pos hat, if_pos hat]
    · rw [if_neg hat, if_neg hat]
  have hrangep : getOffloadedRange (removeOffloadedSegment st.md p a) p =
      (if a = toff then none else some (a + 1, toff)) := by
    rw [hmd1]
    by_cases hat : a = toff
    · rw [if_pos hat, if_pos hat]
      exact getOffloadedRange_putQueue_none _ _ _ rfl rfl
    · rw [if_neg hat, if_neg hat]
      exact getOffloadedRange_putQueue_some _ _ (a + 1) toff _ rfl hqto
  have hinR1 : ∀ i, inRangeB (getOffloadedRange (removeOffloadedSegment st.md p a) p) i =
      true ↔ (a + 1 ≤ i ∧ i ≤ toff) := by
    intro i
    rw [hrangep]
    by_cases hat : a = toff
    · rw [if_pos hat]
      simp only [inRangeB]
      constructor
      · intro hfalse
        exact absurd hfalse (by simp)
      · intro hcontr
        omega
    · rw [if_neg hat]
      exact inRangeB_some
  have hR0 : ∀ i, inRangeB (getOffloadedRange st.md p) i = true ↔ (a ≤ i ∧ i ≤ toff) := by
    intro i
    rw [hr]
    exact inRangeB_some
  have hL1 : alookup (putQueue st.md p
      (if a = toff then
        { q with head_offloaded_segment := (none : Option Nat),
                 tail_offloaded_segment := (none : Option Nat) }
       else { q with head_offloaded_segment := some (a + 1) })).queues p =
      some (if a = toff then
        { q with head_offloaded_segment := (none : Option Nat),
                 tail_offloaded_segment := (none : Option Nat) }
       else { q with head_offloaded_segment := some (a + 1) }) :=
    lookup_putQueue_self _ _ _
  have hinRfalse : ∀ i, ¬ (a + 1 ≤ i ∧ i ≤ toff) →
      inRangeB (getOffloadedRange (removeOffloadedSegment st.md p a) p) i = false := by
    intro i hni
    cases hbb : inRangeB (getOffloadedRange (removeOffloadedSegment st.md p a) p) i
    · rfl
    · exact absurd ((hinR1 i).mp hbb) hni
  have hinRfalse0 : ∀ i, ¬ (a ≤ i ∧ i ≤ toff) →
      inRangeB (getOffloadedRange st.md p) i = false := by
    intro i hni
    cases hbb : inRangeB (getOffloadedRange st.md p) i
    · rfl
    · exact absurd ((hR0 i).mp hbb) hni
  have hresolvep : ∀ i, resolveSeg
      (Store.mk (removeOffloadedSegment st.md p a) (aset st.segs (p, a) (x :: xs))
        (aremove st.bulk (p, a))) p i = resolveSeg st p i := by
    intro i
    by_cases hia : i = a
    · subst hia
      have h1 := hinRfalse i (by omega)
      simp only [resolveSeg, h1, hinr0, if_true, if_false, Bool.false_eq_true]
      rw [alookup_aset_self, hbl]
    · by_cases hio : a ≤ i ∧ i ≤ toff
      · have hio1 : a + 1 ≤ i ∧ i ≤ toff := ⟨by omega, hio.2⟩
        simp only [resolveSeg, (hinR1 i).mpr hio1, (hR0 i).mpr hio, if_true]
        exact alookup_aremove_ne _ _ _ (by intro hcontr; exact hia (congrArg Prod.snd hcontr))
      · have h1 := hinRfalse i (by omega)
        have h0 := hinRfalse0 i hio
        simp only [resolveSeg, h1, h0, Bool.false_eq_true, if_false]
        exact alookup_aset_ne _ _ _ _ (by intro hcontr; exact hia (congrArg Prod.snd hcontr))
  have hresolvene : ∀ p' i, p' ≠ p → resolveSeg
      (Store.mk (removeOffloadedSegment st.md p a) (aset st.segs (p, a) (x :: xs))
        (aremove st.bulk (p, a))) p' i = resolveSeg st p' i := by
    intro p' i hp'
    have hrne : getOffloadedRange (removeOffloadedSegment st.md p a) p' =
        getOffloadedRange st.md p' := getOffloadedRange_removeOffloadedSegment_ne _ _ _ _ hp'
    have hkey : ((p' : Nat), i) ≠ (p, a) := by
      intro hcontr
      exact hp' (congrArg Prod.fst hcontr)
    simp only [resolveSeg, hrne]
    by_cases hir : inRangeB (getOffloadedRange st.md p') i = true
    · simp only [hir, if_true]
      exact alookup_aremove_ne _ _ _ hkey
    · simp only [Bool.not_eq_true] at hir
      simp only [hir, Bool.false_eq_true, if_false]
      exact alookup_aset_ne _ _ _ _ hkey
  have hgetp : ∀ p', getQueueCount (removeOffloadedSegment st.md p a) p' =
        getQueueCount st.md p' ∧
      getHeadSegment (removeOffloadedSegment st.md p a) p' = getHeadSegment st.md p' ∧
      getTailSegment (removeOffloadedSegment st.md p a) p' = getTailSegment st.md p' :=
    fun p' => ⟨getQueueCount_removeOffloadedSegment _ _ _ _,
      getHeadSegment_removeOffloadedSegment _ _ _ _,
      getTailSegment_removeOffloadedSegment _ _ _ _⟩
  have hlooknone : ∀ p', alookup (removeOffloadedSegment st.md p a).queues p' = none ↔
      alookup st.md.queues p' = none := by
    intro p'
    by_cases hp' : p' = p
    · subst hp'
      rw [hmd1, hL1]
      simp [hq]
    · rw [lookup_removeOffloadedSegment_ne _ _ _ _ hp']
  have habs : ∀ p', absQueue
      (Store.mk (removeOffloadedSegment st.md p a) (aset st.segs (p, a) (x :: xs))
        (aremove st.bulk (p, a))) p' = absQueue st p' := by
    intro p'
    by_cases hp' : p' = p
    · subst hp'
      exact absQueue_congr _ st p' (hlooknone p') (hgetp p').2.1 (hgetp p').2.2
        (fun i _ _ => hresolvep i)
    · exact absQueue_congr _ st p' (hlooknone p') (hgetp p').2.1 (hgetp p').2.2
        (fun i _ _ => hresolvene p' i hp')
  rw [hload2]
  refine ⟨⟨?_, ?_, ?_, ?_⟩, habs, hgetp, ?_, hrangep⟩
  · show (removeOffloadedSegment st.md p a).config = Config.mk ss buf
    rw [config_removeOffloadedSegment]
    exact hconf
  · show ((removeOffloadedSegment st.md p a).queues.map Prod.fst).Nodup
    rw [hmd1]
    exact nodup_keys_aset _ _ _ hnd
  · intro p0 q0 hq0
    by_cases hp0 : p0 = p
    · subst hp0
      rw [hmd1, hL1] at hq0
      have hq0' : q0 =
          (if a = toff then
            { q with head_offloaded_segment := (none : Option Nat),
                     tail_offloaded_segment := (none : Option Nat) }
           else { q with head_offloaded_segment := some (a + 1) }) :=
        (Option.some.inj hq0).symm
      refine ⟨c, h, t, ?_, ?_, ?_, hcpos, hht, ?_, ?_, ?_, ?_, ?_⟩
      · rw [hq0']
        by_cases hat : a = toff <;> simp [hat, hqc]
      · rw [hq0']
        by_cases hat : a = toff <;> simp [hat, hqh]
      · rw [hq0']
        by_cases hat : a = toff <;> simp [hat, hqt]
      · by_cases hat : a = toff
        · left
          rw [hq0']
          simp [hat]
        · right
          refine ⟨a + 1, toff, ?_, ?_, by omega, by omega, by omega, hb4⟩
          · rw [hq0']
            simp [hat]
          · rw [hq0']
            simp [hat, hqto]
      · intro i hi
        have hi' := (hinR1 i).mp hi
        obtain ⟨l', hbl', hlen'⟩ := hbfull i ((hR0 i).mpr ⟨by omega, hi'.2⟩)
        refine ⟨l', ?_, hlen'⟩
        show alookup (aremove st.bulk (p0, a)) (p0, i) = some l'
        rw [alookup_aremove_ne _ _ _
          (by intro hcontr; have := congrArg Prod.snd hcontr; simp at this; omega)]
        exact hbl'
      · intro i hi1 hi2 hi3
        by_cases hia : i = a
        · subst hia
          refine ⟨x :: xs, ?_, by simp, fun _ _ => hblen, fun hit => by omega⟩
          show alookup (aset st.segs (p0, i) (x :: xs)) (p0, i) = some (x :: xs)
          exact alookup_aset_self _ _ _
        · have hni : ¬ (a ≤ i ∧ i ≤ toff) := by
            intro hcontr
            have : a + 1 ≤ i ∧ i ≤ toff := ⟨by omega, hcontr.2⟩
            rw [(hinR1 i).mpr this] at hi3
            simp at hi3
          obtain ⟨l', hl', hlne', hfull', htail'⟩ := hres i hi1 hi2 (hinRfalse0 i hni)
          refine ⟨l', ?_, hlne', hfull', htail'⟩
          show alookup (aset st.segs (p0, a) (x :: xs)) (p0, i) = some l'
          rw [alookup_aset_ne _ _ _ _
            (by intro hcontr; exact hia (congrArg Prod.snd hcontr))]
          exact hl'
      · intro i hi
        have hia : i ≠ a := by omega
        show alookup (aset st.segs (p0, a) (x :: xs)) (p0, i) = none ∨
          alookup (aset st.segs (p0, a) (x :: xs)) (p0, i) = some []
        rw [alookup_aset_ne _ _ _ _
          (by intro hcontr; exact hia (congrArg Prod.snd hcontr))]
        exact hstale i hi
      · rw [habs p0]
        exact hcnt
    · have hq0'' : alookup st.md.queues p0 = some q0 := by
        rw [← lookup_removeOffloadedSegment_ne st.md p p0 a hp0]
        exact hq0
      refine QInv_transport ss buf p0 _ st q0
        (getOffloadedRange_removeOffloadedSegment_ne _ _ _ _ hp0) ?_ ?_ (habs p0)
        (hrecs p0 q0 hq0'')
      · intro i
        exact alookup_aset_ne _ _ _ _
          (by intro hcontr; exact hp0 (congrArg Prod.fst hcontr))
      · intro i
        exact alookup_aremove_ne _ _ _
          (by intro hcontr; exact hp0 (congrArg Prod.fst hcontr))
  · intro p0 hp0
    have hp0p : p0 ≠ p := by
      intro hcontr
      subst hcontr
      rw [hmd1, hL1] at hp0
      simp at hp0
    have hq0'' : alookup st.md.queues p0 = none := by
      rw [← lookup_removeOffloadedSegment_ne st.md p p0 a hp0p]
      exact hp0
    intro i
    have := habsent p0 hq0'' i
    show alookup (aset st.segs (p, a) (x :: xs)) (p0, i) = none ∨
      alookup (aset st.segs (p, a) (x :: xs)) (p0, i) = some []
    rw [alookup_aset_ne _ _ _ _
      (by intro hcontr; exact hp0p (congrArg Prod.fst hcontr))]
    exact this
  · intro p' hp'
    exact getOffloadedRange_removeOffloadedSegment_ne _ _ _ _ hp'

/- The reload loop over a full candidate range: the invariant, the abstract
   queues, counts and pointers all survive; at the end the offloaded range
   is either gone or starts beyond the buffer window. -/
theorem loadLoopInv {α : Type} (ss buf p maxOff : Nat) (hss : 1 ≤ ss) :
    ∀ (k a : Nat) (st : Store α),
    StInv ss buf st →
    maxOff = getHeadSegment st.md p + buf →
    getOffloadedRange st.md p = some (a, a + k) →
    StInv ss buf (loadLoop p maxOff st (List.range' a (k + 1))) ∧
    (∀ p', absQueue (loadLoop p maxOff st (List.range' a (k + 1))) p' = absQueue st p') ∧
    (∀ p', getQueueCount (loadLoop p maxOff st (List.range' a (k + 1))).md p' =
        getQueueCount st.md p' ∧
      getHeadSegment (loadLoop p maxOff st (List.range' a (k + 1))).md p' =
        getHeadSegment st.md p' ∧
      getTailSegment (loadLoop p maxOff st (List.range' a (k + 1))).md p' =
        getTailSegment st.md p') ∧
    (∀ p', p' ≠ p → getOffloadedRange (loadLoop p maxOff st (List.range' a (k + 1))).md p' =
      getOffloadedRange st.md p') ∧
    (getOffloadedRange (loadLoop p maxOff st (List.range' a (k + 1))).md p = none ∨
      ∃ a', getOffloadedRange (loadLoop p maxOff st (List.range' a (k + 1))).md p =
        some (a', a + k) ∧ maxOff < a') := by
  intro k
  induction k with
  | zero =>
    intro a st hInv hmax hr
    by_cases hle : a ≤ maxOff
    · have ha : a ≤ getHeadSegment st.md p + buf := by omega
      obtain ⟨hInv1, habs1, hget1, hrng1, hrp1⟩ :=
        loadStepInv ss buf p a (a + 0) st hss hInv hr ha
      have hLL : loadLoop p maxOff st (List.range' a 1) = (loadOffloadedSegment st p a).2 := by
        simp [List.range', loadLoop, hle]
      rw [hLL]
      refine ⟨hInv1, habs1, hget1, hrng1, Or.inl ?_⟩
      rw [hrp1]
      simp
    · have hLL : loadLoop p maxOff st (List.range' a 1) = st := by
        simp [List.range', loadLoop, hle]
      rw [hLL]
      exact ⟨hInv, fun _ => rfl, fun _ => ⟨rfl, rfl, rfl⟩, fun _ _ => rfl,
        Or.inr ⟨a, hr, by omega⟩⟩
  | succ k ih =>
    intro a st hInv hmax hr
    by_cases hle : a ≤ maxOff
    · have ha : a ≤ getHeadSegment st.md p + buf := by omega
      obtain ⟨hInv1, habs1, hget1, hrng1, hrp1⟩ :=
        loadStepInv ss buf p a (a + (k + 1)) st hss hInv hr ha
      have hane : a ≠ a + (k + 1) := by omega
      rw [if_neg hane] at hrp1
      have hmax1 : maxOff = getHeadSegment (loadOffloadedSegment st p a).2.md p + buf := by
        rw [(hget1 p).2.1]
        exact hmax
      have hr1 : getOffloadedRange (loadOffloadedSegment st p a).2.md p =
          some (a + 1, (a + 1) + k) := by
        rw [hrp1]
        rw [show a + (k + 1) = (a + 1) + k from by omega]
      obtain ⟨hInv2, habs2, hget2, hrng2, hfin2⟩ :=
        ih (a + 1) (loadOffloadedSegment st p a).2 hInv1 hmax1 hr1
      have hLL : loadLoop p maxOff st (List.range' a (k + 1 + 1)) =
          loadLoop p maxOff (loadOffloadedSegment st p a).2 (List.range' (a + 1) (k + 1)) := by
        rw [List.range'_succ]
        simp [loadLoop, hle]
      rw [hLL]
      refine ⟨hInv2, ?_, ?_, ?_, ?_⟩
      · intro p'
        rw [habs2 p', habs1 p']
      · intro p'
        exact ⟨(hget2 p').1.trans (hget1 p').1, (hget2 p').2.1.trans (hget1 p').2.1,
          (hget2 p').2.2.trans (hget1 p').2.2⟩
      · intro p' hp'
        rw [hrng2 p' hp', hrng1 p' hp']
      · rw [show a + (k + 1) = (a + 1) + k from by omega]
        exact hfin2
    · have hLL : loadLoop p maxOff st (List.range' a (k + 1 + 1)) = st := by
        rw [List.range'_succ]
        simp [loadLoop, hle]
      rw [hLL]
      exact ⟨hInv, fun _ => rfl, fun _ => ⟨rfl, rfl, rfl⟩, fun _ _ => rfl,
        Or.inr ⟨a, hr, by omega⟩⟩

/- `_check_and_load_segments` under the invariant: nothing observable
   changes, and afterwards any remaining offloaded range lies strictly
   beyond the buffer window. -/
theorem checkAndLoadSegmentsInv {α : Type} (ss buf p : Nat) (st : Store α)
    (hss : 1 ≤ ss)
    (hInv : StInv ss buf st) :
    StInv ss buf (checkAndLoadSegments st p) ∧
    (∀ p', absQueue (checkAndLoadSegments st p) p' = absQueue st p') ∧
    (∀ p', getQueueCount (checkAndLoadSegments st p).md p' = getQueueCount st.md p' ∧
      getHeadSegment (checkAndLoadSegments st p).md p' = getHeadSegment st.md p' ∧
      getTailSegment (checkAndLoadSegments st p).md p' = getTailSegment st.md p') ∧
    (∀ p', p' ≠ p → getOffloadedRange (checkAndLoadSegments st p).md p' =
      getOffloadedRange st.md p') ∧
    (getOffloadedRange (checkAndLoadSegments st p).md p = none ∨
      ∃ a' b', getOffloadedRange (checkAndLoadSegments st p).md p = some (a', b') ∧
        getHeadSegment st.md p + buf < a') := by
  rcases hr : getOffloadedRange st.md p with _ | ⟨ho, toff⟩
  · have hCL : checkAndLoadSegments st p = st := by
      simp [checkAndLoadSegments, hr]
    rw [hCL]
    exact ⟨hInv, fun _ => rfl, fun _ => ⟨rfl, rfl, rfl⟩, fun _ _ => rfl, Or.inl hr⟩
  · obtain ⟨q, hq, hqho, hqto⟩ := getOffloadedRange_some_lookup hr
    obtain ⟨hconf, hnd, hrecs, habsent⟩ := hInv
    obtain ⟨c, h, t, hqc, hqh, hqt, hcpos, hht, hshape, hbfull, hres, hstale, hcnt⟩ :=
      hrecs p q hq
    rcases hshape with ⟨hn, -⟩ | ⟨ho', toff', hho', hto', hb1, hb2, hb3, hb4⟩
    · rw [hqho] at hn
      simp at hn
    have hoa : ho' = ho := Option.some.inj (hho'.symm.trans hqho)
    have htoa : toff' = toff := Option.some.inj (hto'.symm.trans hqto)
    simp only [hoa, htoa] at hb1 hb2 hb3 hb4
    have hInv' : StInv ss buf st := ⟨hconf, hnd, hrecs, habsent⟩
    have hbufEq : bufferSegments st.md = buf := by
      rw [bufferSegments, hconf]
    have hr' : getOffloadedRange st.md p = some (ho, ho + (toff - ho)) := by
      rw [hr]
      rw [show ho + (toff - ho) = toff from by omega]
    obtain ⟨hInv2, habs2, hget2, hrng2, hfin2⟩ :=
      loadLoopInv ss buf p (getHeadSegment st.md p + buf) hss (toff - ho) ho st hInv' rfl hr'
    have hCL : checkAndLoadSegments st p =
        loadLoop p (getHeadSegment st.md p + buf) st (List.range' ho ((toff - ho) + 1)) := by
      simp only [checkAndLoadSegments, hr, hbufEq]
      rw [show toff + 1 - ho = (toff - ho) + 1 from by omega]
    rw [hCL]
    refine ⟨hInv2, habs2, hget2, hrng2, ?_⟩
    rcases hfin2 with hnone | ⟨a', hsome, hgt⟩
    · exact Or.inl hnone
    · exact Or.inr ⟨a', ho + (toff - ho), hsome, hgt⟩

theorem addOffloadedSegment_eq_of_none {α : Type} (m : Metadata α) (p n : Nat) (q : QMeta)
    (hlq : alookup m.queues p = some q) (hho : q.head_offloaded_segment = none) :
    addOffloadedSegment m p n = putQueue m p
      { q with head_offloaded_segment := some n, tail_offloaded_segment := some n } := by
  unfold addOffloadedSegment
  simp only [hlq, Option.getD_some, hho]

theorem addOffloadedSegment_eq_of_some {α : Type} (m : Metadata α) (p n a : Nat) (q : QMeta)
    (hlq : alookup m.queues p = some q) (hho : q.head_offloaded_segment = some a) :
    addOffloadedSegment m p n = putQueue m p { q with tail_offloaded_segment := some n } := by
  unfold addOffloadedSegment
  simp only [hlq, Option.getD_some, hho]

/- One offload step of the push-side loop: a full interior segment that
   extends the offloaded range contiguously moves from actor state to the
   bulk store; the invariant, the abstract queues, counts and pointers
   survive, and the range grows at its tail. -/
theorem offloadStepInv {α : Type} (ss buf p n h t : Nat) (st : Store α) (q : QMeta)
    (l : List α)
    (hInv : StInv ss buf st)
    (hlq : alookup st.md.queues p = some q)
    (hH : getHeadSegment st.md p = h)
    (hT : getTailSegment st.md p = t)
    (hnh : h < n) (hnt : n < t)
    (hl : alookup st.segs (p, n) = some l)
    (hlen : l.length = ss)
    (harg : (getOffloadedRange st.md p = none ∧ n = h + buf + 1) ∨
      (∃ ho, getOffloadedRange st.md p = some (ho, n - 1))) :
    StInv ss buf (offloadSegment st p n l) ∧
    (∀ p', absQueue (offloadSegment st p n l) p' = absQueue st p') ∧
    (∀ p', getQueueCount (offloadSegment st p n l).md p' = getQueueCount st.md p' ∧
      getHeadSegment (offloadSegment st p n l).md p' = getHeadSegment st.md p' ∧
      getTailSegment (offloadSegment st p n l).md p' = getTailSegment st.md p') ∧
    (∀ p', p' ≠ p → getOffloadedRange (offloadSegment st p n l).md p' =
      getOffloadedRange st.md p') ∧
    (getOffloadedRange st.md p = none →
      getOffloadedRange (offloadSegment st p n l).md p = some (n, n)) ∧
    (∀ ho b, getOffloadedRange st.md p = some (ho, b) →
      getOffloadedRange (offloadSegment st p n l).md p = some (ho, n)) := by
  obtain ⟨hconf, hnd, hrecs, habsent⟩ := hInv
  obtain ⟨c', h', t', hqc, hqh, hqt, hcpos, hht, hshape, hbfull, hres, hstale, hcnt⟩ :=
    hrecs p q hlq
  have hhh : h' = h := by
    have h0 := getHeadSegment_of_lookup hlq hqh
    omega
  have htt : t' = t := by
    have h0 := getTailSegment_of_lookup hlq hqt
    omega
  simp only [hhh, htt] at hht hshape hres hstale
  have hkeyne : ∀ (p' i : Nat), p' ≠ p → ((p' : Nat), i) ≠ (p, n) := by
    intro p' i hp' hcontr
    exact hp' (congrArg Prod.fst hcontr)
  have hmain : ∃ (ho' : Nat) (q2 : QMeta),
      addOffloadedSegment st.md p n = putQueue st.md p q2 ∧
      q2.count = q.count ∧ q2.head_segment = q.head_segment ∧
      q2.tail_segment = q.tail_segment ∧
      q2.head_offloaded_segment = some ho' ∧ q2.tail_offloaded_segment = some n ∧
      h + buf ≤ ho' ∧ ho' ≤ h + buf + 1 ∧ ho' ≤ n ∧
      (getOffloadedRange st.md p = none → ho' = n) ∧
      (∀ ho b, getOffloadedRange st.md p = some (ho, b) → ho' = ho) := by
    rcases harg with ⟨hrn, hn1⟩ | ⟨ho, hrs⟩
    · have hho : q.head_offloaded_segment = none := by
        rcases hshape with ⟨h1, -⟩ | ⟨ho, toff, hho, hto, -, -, -, -⟩
        · exact h1
        · have h2 : getOffloadedRange st.md p = some (ho, toff) := by
            simp only [getOffloadedRange, hlq, hho, hto]
          rw [h2] at hrn
          exact absurd hrn (by simp)
      refine ⟨n, _, addOffloadedSegment_eq_of_none st.md p n q hlq hho, rfl, rfl, rfl,
        rfl, rfl, by omega, by omega, Nat.le_refl n, fun _ => rfl, ?_⟩
      intro ho b hc
      rw [hc] at hrn
      exact absurd hrn (by simp)
    · obtain ⟨qr, hqr, hqrho, hqrto⟩ := getOffloadedRange_some_lookup hrs
      have hqq : qr = q := Option.some.inj (hqr.symm.trans hlq)
      rw [hqq] at hqrho hqrto
      rcases hshape with ⟨h1, -⟩ | ⟨ho2, toff, hho, hto, hb1, hb2, hb3, hb4⟩
      · rw [h1] at hqrho
        exact absurd hqrho (by simp)
      have ho2e : ho2 = ho := Option.some.inj (hho.symm.trans hqrho)
      have htoffe : toff = n - 1 := Option.some.inj (hto.symm.trans hqrto)
      refine ⟨ho, _, addOffloadedSegment_eq_of_some st.md p n ho q hlq (ho2e ▸ hho),
        rfl, rfl, rfl, ho2e ▸ hho, rfl, by omega, by omega, by omega, ?_, ?_⟩
      · intro hc
        rw [hc] at hrs
        exact absurd hrs (by simp)
      · intro ho3 b hc
        rw [hc] at hrs
        exact (Prod.mk.injEq _ _ _ _ ▸ Option.some.inj hrs).1.symm
  obtain ⟨ho', q2, haddEq, hq2c, hq2h, hq2t, hq2ho, hq2to, hob1, hob2, hob3, hnone2n,
    hsome2ho⟩ := hmain
  have hlq2 : alookup (addOffloadedSegment st.md p n).queues p = some q2 := by
    rw [haddEq]
    exact lookup_putQueue_self _ _ _
  have hrnew : getOffloadedRange (addOffloadedSegment st.md p n) p = some (ho', n) := by
    simp only [getOffloadedRange, hlq2, hq2ho, hq2to]
  have hnold : inRangeB (getOffloadedRange st.md p) n = false := by
    rcases harg with ⟨hrn, -⟩ | ⟨ho, hrs⟩
    · rw [hrn]
      rfl
    · rw [hrs]
      cases hb : inRangeB (some (ho, n - 1)) n
      · rfl
      · rw [inRangeB_some] at hb
        omega
  have hragree : ∀ i, i ≠ n →
      inRangeB (getOffloadedRange (addOffloadedSegment st.md p n) p) i =
        inRangeB (getOffloadedRange st.md p) i := by
    intro i hi
    rw [hrnew]
    rcases harg with ⟨hrn, -⟩ | ⟨ho, hrs⟩
    · rw [hrn, hnone2n hrn]
      cases hb : inRangeB (some (n, n)) i
      · rfl
      · rw [inRangeB_some] at hb
        omega
    · rw [hrs, hsome2ho ho (n - 1) hrs]
      cases hb : inRangeB (some (ho, n)) i
      · cases hb2' : inRangeB (some (ho, n - 1)) i
        · rfl
        · rw [inRangeB_some] at hb2'
          have h3 : inRangeB (some (ho, n)) i = true := inRangeB_some.mpr ⟨hb2'.1, by omega⟩
          rw [h3] at hb
          exact absurd hb (by simp)
      · rw [inRangeB_some] at hb
        have h3 : inRangeB (some (ho, n - 1)) i = true := inRangeB_some.mpr ⟨hb.1, by omega⟩
        rw [h3]
  have hresolve_p : ∀ i, resolveSeg (offloadSegment st p n l) p i = resolveSeg st p i := by
    intro i
    by_cases hi : i = n
    · subst hi
      show (if inRangeB (getOffloadedRange (addOffloadedSegment st.md p i) p) i = true then
          alookup (aset st.bulk (p, i) l) (p, i)
        else alookup (aremove st.segs (p, i)) (p, i)) = resolveSeg st p i
      rw [hrnew, show inRangeB (some (ho', i)) i = true from inRangeB_some.mpr ⟨hob3,
        Nat.le_refl i⟩, if_pos rfl, alookup_aset_self]
      rw [resolveSeg, hnold]
      simp only [Bool.false_eq_true, if_false]
      rw [hl]
    · show (if inRangeB (getOffloadedRange (addOffloadedSegment st.md p n) p) i = true then
          alookup (aset st.bulk (p, n) l) (p, i)
        else alookup (aremove st.segs (p, n)) (p, i)) = resolveSeg st p i
      rw [hragree i hi,
        alookup_aset_ne _ _ _ _ (by intro hcontr; exact hi (congrArg Prod.snd hcontr)),
        alookup_aremove_ne _ _ _ (by intro hcontr; exact hi (congrArg Prod.snd hcontr))]
      rfl
  have hresolve_ne : ∀ p' i, p' ≠ p →
      resolveSeg (offloadSegment st p n l) p' i = resolveSeg st p' i := by
    intro p' i hp'
    show (if inRangeB (getOffloadedRange (addOffloadedSegment st.md p n) p') i = true then
        alookup (aset st.bulk (p, n) l) (p', i)
      else alookup (aremove st.segs (p, n)) (p', i)) = resolveSeg st p' i
    rw [getOffloadedRange_addOffloadedSegment_ne _ _ _ _ hp',
      alookup_aset_ne _ _ _ _ (hkeyne p' i hp'),
      alookup_aremove_ne _ _ _ (hkeyne p' i hp')]
    rfl
  have hlookiff : ∀ p', alookup (addOffloadedSegment st.md p n).queues p' = none ↔
      alookup st.md.queues p' = none := by
    intro p'
    by_cases hp' : p' = p
    · subst hp'
      rw [hlq2, hlq]
      simp
    · rw [haddEq, lookup_putQueue_ne _ _ _ _ hp']
  have habsall : ∀ p', absQueue (offloadSegment st p n l) p' = absQueue st p' := by
    intro p'
    by_cases hp' : p' = p
    · subst hp'
      exact absQueue_congr _ st p' (hlookiff p')
        (getHeadSegment_addOffloadedSegment _ _ _ _)
        (getTailSegment_addOffloadedSegment _ _ _ _)
        (fun i _ _ => hresolve_p i)
    · exact absQueue_congr _ st p' (hlookiff p')
        (getHeadSegment_addOffloadedSegment _ _ _ _)
        (getTailSegment_addOffloadedSegment _ _ _ _)
        (fun i _ _ => hresolve_ne p' i hp')
  refine ⟨⟨?_, ?_, ?_, ?_⟩, habsall,
    fun p' => ⟨getQueueCount_addOffloadedSegment _ _ _ _,
      getHeadSegment_addOffloadedSegment _ _ _ _,
      getTailSegment_addOffloadedSegment _ _ _ _⟩,
    fun p' hp' => getOffloadedRange_addOffloadedSegment_ne _ _ _ _ hp',
    fun hrn => by have h0 := hrnew; rw [hnone2n hrn] at h0; exact h0,
    fun ho b hrs => by have h0 := hrnew; rw [hsome2ho ho b hrs] at h0; exact h0⟩
  · show (addOffloadedSegment st.md p n).config = ⟨ss, buf⟩
    rw [haddEq]
    exact hconf
  · show ((addOffloadedSegment st.md p n).queues.map Prod.fst).Nodup
    rw [haddEq]
    exact nodup_keys_aset _ _ _ hnd
  · intro p' q' hq'
    by_cases hp' : p' = p
    · subst hp'
      have hq'' : q' = q2 := Option.some.inj ((hlq2.symm.trans hq')).symm
      refine ⟨c', h, t, ?_, ?_, ?_, hcpos, hht, ?_, ?_, ?_, ?_, ?_⟩
      · rw [hq'', hq2c]
        exact hqc
      · rw [hq'', hq2h]
        rw [hhh] at hqh
        exact hqh
      · rw [hq'', hq2t]
        rw [htt] at hqt
        exact hqt
      · refine Or.inr ⟨ho', n, ?_, ?_, hob1, hob2, hob3, hnt⟩
        · rw [hq'']
          exact hq2ho
        · rw [hq'']
          exact hq2to
      · intro i hi
        by_cases hin : i = n
        · subst hin
          refine ⟨l, ?_, hlen⟩
          show alookup (aset st.bulk (p', i) l) (p', i) = some l
          exact alookup_aset_self _ _ _
        · have hi' : inRangeB (getOffloadedRange (addOffloadedSegment st.md p' n) p') i =
              true := hi
          rw [hragree i hin] at hi'
          obtain ⟨l2, hl2, hlen2⟩ := hbfull i hi'
          refine ⟨l2, ?_, hlen2⟩
          show alookup (aset st.bulk (p', n) l) (p', i) = some l2
          rw [alookup_aset_ne _ _ _ _
            (by intro hcontr; exact hin (congrArg Prod.snd hcontr))]
          exact hl2
      · intro i hi1 hi2 hi3
        have hi3' : inRangeB (getOffloadedRange (addOffloadedSegment st.md p' n) p') i =
            false := hi3
        have hin : i ≠ n := by
          intro hcontr
          subst hcontr
          rw [hrnew] at hi3'
          rw [show inRangeB (some (ho', i)) i = true from
            inRangeB_some.mpr ⟨hob3, Nat.le_refl i⟩] at hi3'
          exact absurd hi3' (by simp)
        rw [hragree i hin] at hi3'
        obtain ⟨l2, hl2, hlne2, hfull2, htl2⟩ := hres i hi1 hi2 hi3'
        refine ⟨l2, ?_, hlne2, hfull2, htl2⟩
        show alookup (aremove st.segs (p', n)) (p', i) = some l2
        rw [alookup_aremove_ne _ _ _
          (by intro hcontr; exact hin (congrArg Prod.snd hcontr))]
        exact hl2
      · intro i hi
        have hin : i ≠ n := by omega
        show alookup (aremove st.segs (p', n)) (p', i) = none ∨
          alookup (aremove st.segs (p', n)) (p', i) = some []
        rw [alookup_aremove_ne _ _ _
          (by intro hcontr; exact hin (congrArg Prod.snd hcontr))]
        exact hstale i hi
      · rw [habsall p']
        exact hcnt
    · have hq'2 : alookup (addOffloadedSegment st.md p n).queues p' = some q' := hq'
      have hq'1 : alookup st.md.queues p' = some q' := by
        rw [← hq'2, haddEq, lookup_putQueue_ne _ _ _ _ hp']
      refine QInv_transport ss buf p' _ st q'
        (getOffloadedRange_addOffloadedSegment_ne _ _ _ _ hp') ?_ ?_ (habsall p')
        (hrecs p' q' hq'1)
      · intro i
        exact alookup_aremove_ne _ _ _ (hkeyne p' i hp')
      · intro i
        exact alookup_aset_ne _ _ _ _ (hkeyne p' i hp')
  · intro p' hp'
    have hp'2 : alookup (addOffloadedSegment st.md p n).queues p' = none := hp'
    have hp'0 : p' ≠ p := by
      intro hcontr
      subst hcontr
      rw [hlq2] at hp'2
      exact absurd hp'2 (by simp)
    have hnone1 : alookup st.md.queues p' = none := (hlookiff p').mp hp'2
    intro i
    have h0 := habsent p' hnone1 i
    show alookup (aremove st.segs (p, n)) (p', i) = none ∨
      alookup (aremove st.segs (p, n)) (p', i) = some []
    rw [alookup_aremove_ne _ _ _ (hkeyne p' i hp'0)]
    exact h0

/- The offload loop of `_check_and_offload_segments` over the candidate
   window: under the invariant every candidate outside the captured range
   is a full interior segment, so each offload extends the range
   contiguously; the invariant and all abstract queues survive. -/
theorem offloadLoopInv {α : Type} (ss buf p h t : Nat) (R0 : Option (Nat × Nat)) :
    ∀ (cnt a : Nat) (st : Store α),
    StInv ss buf st →
    getHeadSegment st.md p = h →
    getTailSegment st.md p = t →
    (∃ q, alookup st.md.queues p = some q) →
    h + buf + 1 ≤ a →
    (cnt = 0 ∨ a + cnt = t) →
    ((getOffloadedRange st.md p = none ∧ R0 = none ∧ a = h + buf + 1) ∨
     (∃ ho toff, getOffloadedRange st.md p = some (ho, toff) ∧ R0 = some (ho, toff) ∧
       a ≤ toff + 1) ∨
     (∃ ho b, getOffloadedRange st.md p = some (ho, b) ∧ b + 1 = a ∧
       ∀ m, a ≤ m → inRangeB R0 m = false)) →
    StInv ss buf (offloadLoop p R0 ss st (List.range' a cnt)) ∧
    (∀ p', absQueue (offloadLoop p R0 ss st (List.range' a cnt)) p' = absQueue st p') := by
  intro cnt
  induction cnt with
  | zero =>
    intro a st hInv hH hT hrec ha hcnt hRH
    exact ⟨hInv, fun p' => rfl⟩
  | succ cnt ih =>
    intro a st hInv hH hT hrec ha hcnt hRH
    have hacnt : a + (cnt + 1) = t := by
      rcases hcnt with h0 | h0
      · exact absurd h0 (by omega)
      · exact h0
    have hat : a < t := by omega
    have hha : h < a := by omega
    obtain ⟨q, hlq⟩ := hrec
    obtain ⟨hconf, hnd, hrecs, habsent⟩ := hInv
    have hInv2' : StInv ss buf st := ⟨hconf, hnd, hrecs, habsent⟩
    obtain ⟨c', h', t', hqc, hqh, hqt, hcpos, hht, hshape, hbfull, hres, hstale, hcntq⟩ :=
      hrecs p q hlq
    have hhh : h' = h := by
      have h0 := getHeadSegment_of_lookup hlq hqh
      omega
    have htt : t' = t := by
      have h0 := getTailSegment_of_lookup hlq hqt
      omega
    simp only [hhh, htt] at hshape hres
    have hmain : (inRangeB R0 a = true ∧
        ((getOffloadedRange st.md p = none ∧ R0 = none ∧ a + 1 = h + buf + 1) ∨
         (∃ ho toff, getOffloadedRange st.md p = some (ho, toff) ∧ R0 = some (ho, toff) ∧
           a + 1 ≤ toff + 1) ∨
         (∃ ho b, getOffloadedRange st.md p = some (ho, b) ∧ b + 1 = a + 1 ∧
           ∀ m, a + 1 ≤ m → inRangeB R0 m = false))) ∨
        (inRangeB R0 a = false ∧ inRangeB (getOffloadedRange st.md p) a = false ∧
         ((getOffloadedRange st.md p = none ∧ a = h + buf + 1) ∨
          (∃ ho, getOffloadedRange st.md p = some (ho, a - 1))) ∧
         (∀ m, a + 1 ≤ m → inRangeB R0 m = false)) := by
      rcases hRH with ⟨hlive, hR0, ha1⟩ | ⟨ho, toff, hlive, hR0, hle⟩ | ⟨ho, b, hlive, hba,
        hupper⟩
      · refine Or.inr ⟨by rw [hR0]; rfl, by rw [hlive]; rfl, Or.inl ⟨hlive, ha1⟩, ?_⟩
        intro m hm
        rw [hR0]
        rfl
      · have hob : h + buf ≤ ho ∧ ho ≤ h + buf + 1 := by
          obtain ⟨qr, hqr, hqrho, hqrto⟩ := getOffloadedRange_some_lookup hlive
          have hqq : qr = q := Option.some.inj (hqr.symm.trans hlq)
          rw [hqq] at hqrho hqrto
          rcases hshape with ⟨h1, -⟩ | ⟨ho2, toff2, hho, hto, hb1, hb2, -, -⟩
          · rw [h1] at hqrho
            exact absurd hqrho (by simp)
          · have he1 : ho2 = ho := Option.some.inj (hho.symm.trans hqrho)
            omega
        by_cases hat2 : a ≤ toff
        · refine Or.inl ⟨?_, Or.inr (Or.inl ⟨ho, toff, hlive, hR0, by omega⟩)⟩
          rw [hR0]
          exact inRangeB_some.mpr ⟨by omega, hat2⟩
        · have haeq : a = toff + 1 := by omega
          have hlive' : getOffloadedRange st.md p = some (ho, a - 1) := by
            rw [hlive, show toff = a - 1 from by omega]
          refine Or.inr ⟨?_, ?_, Or.inr ⟨ho, hlive'⟩, ?_⟩
          · rw [hR0]
            cases hb : inRangeB (some (ho, toff)) a
            · rfl
            · rw [inRangeB_some] at hb
              omega
          · rw [hlive]
            cases hb : inRangeB (some (ho, toff)) a
            · rfl
            · rw [inRangeB_some] at hb
              omega
          · intro m hm
            rw [hR0]
            cases hb : inRangeB (some (ho, toff)) m
            · rfl
            · rw [inRangeB_some] at hb
              omega
      · have hlive' : getOffloadedRange st.md p = some (ho, a - 1) := by
          rw [hlive, show b = a - 1 from by omega]
        refine Or.inr ⟨hupper a (Nat.le_refl a), ?_, Or.inr ⟨ho, hlive'⟩,
          fun m hm => hupper m (by omega)⟩
        rw [hlive]
        cases hb : inRangeB (some (ho, b)) a
        · rfl
        · rw [inRangeB_some] at hb
          omega
    rcases hmain with ⟨hskip, hRH1⟩ | ⟨hR0a, hlivea, harg, hupper1⟩
    · have hstep : offloadLoop p R0 ss st (List.range' a (cnt + 1)) =
          offloadLoop p R0 ss st (List.range' (a + 1) cnt) := by
        rw [List.range'_succ]
        simp [offloadLoop, hskip]
      rw [hstep]
      exact ih (a + 1) st hInv2' hH hT ⟨q, hlq⟩ (by omega) (Or.inr (by omega)) hRH1
    · obtain ⟨l, hseg, hlne, hfull, -⟩ := hres a (by omega) (by omega) hlivea
      have hlen : l.length = ss := hfull hha hat
      have hstep : offloadLoop p R0 ss st (List.range' a (cnt + 1)) =
          offloadLoop p R0 ss (offloadSegment st p a l) (List.range' (a + 1) cnt) := by
        rw [List.range'_succ]
        simp [offloadLoop, hR0a, hseg, hlen]
      obtain ⟨hInv2, habs2, hget2, hrng2, hnone2, hsome2⟩ :=
        offloadStepInv ss buf p a h t st q l hInv2' hlq hH hT hha hat hseg hlen harg
      have hH2 : getHeadSegment (offloadSegment st p a l).md p = h :=
        (hget2 p).2.1.trans hH
      have hT2 : getTailSegment (offloadSegment st p a l).md p = t :=
        (hget2 p).2.2.trans hT
      have hlive2 : ∃ ho2, getOffloadedRange (offloadSegment st p a l).md p =
          some (ho2, a) := by
        rcases harg with ⟨hrn, -⟩ | ⟨ho, hrs⟩
        · exact ⟨a, hnone2 hrn⟩
        · exact ⟨ho, hsome2 ho (a - 1) hrs⟩
      obtain ⟨ho2, hlive2e⟩ := hlive2
      have hrec2 : ∃ q2, alookup (offloadSegment st p a l).md.queues p = some q2 := by
        obtain ⟨q2, hq2, -, -⟩ := getOffloadedRange_some_lookup hlive2e
        exact ⟨q2, hq2⟩
      obtain ⟨hInvF, habsF⟩ := ih (a + 1) (offloadSegment st p a l) hInv2 hH2 hT2 hrec2
        (by omega) (Or.inr (by omega))
        (Or.inr (Or.inr ⟨ho2, a, hlive2e, rfl, hupper1⟩))
      rw [hstep]
      exact ⟨hInvF, fun p' => (habsF p').trans (habs2 p')⟩

/- `_check_and_offload_segments` under the invariant: the invariant and
   every abstract queue survive. -/
theorem checkAndOffloadSegmentsInv {α : Type} (ss buf p : Nat) (st : Store α)
    (hInv : StInv ss buf st) :
    StInv ss buf (checkAndOffloadSegments st p) ∧
    (∀ p', absQueue (checkAndOffloadSegments st p) p' = absQueue st p') := by
  rcases hlq : alookup st.md.queues p with _ | q
  · have hCO : checkAndOffloadSegments st p = st := by
      simp [checkAndOffloadSegments, hlq]
    rw [hCO]
    exact ⟨hInv, fun p' => rfl⟩
  · obtain ⟨hconf, hnd, hrecs, habsent⟩ := hInv
    have hInv' : StInv ss buf st := ⟨hconf, hnd, hrecs, habsent⟩
    have hbufEq : bufferSegments st.md = buf := by
      rw [bufferSegments, hconf]
    have hssEq : segmentSize st.md = ss := by
      rw [segmentSize, hconf]
    have hCO : checkAndOffloadSegments st p =
        offloadLoop p (getOffloadedRange st.md p) ss st
          (List.range' (getHeadSegment st.md p + buf + 1)
            (getTailSegment st.md p - (getHeadSegment st.md p + buf + 1))) := by
      simp only [checkAndOffloadSegments, hlq, hbufEq, hssEq]
    have hRH : (getOffloadedRange st.md p = none ∧ getOffloadedRange st.md p = none ∧
        getHeadSegment st.md p + buf + 1 = getHeadSegment st.md p + buf + 1) ∨
        (∃ ho toff, getOffloadedRange st.md p = some (ho, toff) ∧
          getOffloadedRange st.md p = some (ho, toff) ∧
          getHeadSegment st.md p + buf + 1 ≤ toff + 1) ∨
        (∃ ho b, getOffloadedRange st.md p = some (ho, b) ∧
          b + 1 = getHeadSegment st.md p + buf + 1 ∧
          ∀ m, getHeadSegment st.md p + buf + 1 ≤ m →
            inRangeB (getOffloadedRange st.md p) m = false) := by
      rcases hR : getOffloadedRange st.md p with _ | ⟨ho, toff⟩
      · exact Or.inl ⟨rfl, rfl, rfl⟩
      · obtain ⟨c', h', t', hqc, hqh, hqt, -, -, hshape, -, -, -, -⟩ := hrecs p q hlq
        have hH' : getHeadSegment st.md p = h' := getHeadSegment_of_lookup hlq hqh
        obtain ⟨qr, hqr, hqrho, hqrto⟩ := getOffloadedRange_some_lookup hR
        have hqq : qr = q := Option.some.inj (hqr.symm.trans hlq)
        rw [hqq] at hqrho hqrto
        rcases hshape with ⟨h1, -⟩ | ⟨ho2, toff2, hho, hto, hb1, hb2, hb3, -⟩
        · rw [h1] at hqrho
          exact absurd hqrho (by simp)
        · have he1 : ho2 = ho := Option.some.inj (hho.symm.trans hqrho)
          have he2 : toff2 = toff := Option.some.inj (hto.symm.trans hqrto)
          exact Or.inr (Or.inl ⟨ho, toff, rfl, rfl, by omega⟩)
    obtain ⟨hInvF, habsF⟩ := offloadLoopInv ss buf p (getHeadSegment st.md p)
      (getTailSegment st.md p) (getOffloadedRange st.md p)
      (getTailSegment st.md p - (getHeadSegment st.md p + buf + 1))
      (getHeadSegment st.md p + buf + 1) st hInv' rfl rfl ⟨q, hlq⟩ (Nat.le_refl _)
      (by omega) hRH
    rw [hCO]
    exact ⟨hInvF, habsF⟩

/- `Push` up to its save_state, under the invariant: the invariant is
   preserved, the pushed priority's abstract queue gains the item at its
   tail, and the other queues are untouched. -/
theorem pushCoreInv {α : Type} (ss buf : Nat) (s : ActorState α) (md : Metadata α) (x : α)
    (p : Nat) (hss : 1 ≤ ss)
    (hmd : s.metadata = some md)
    (hInv : StInv ss buf (Store.mk md s.segs s.bulk)) :
    StInv ss buf (pushCore s x p) ∧
    absQueue (pushCore s x p) p = absQueue (Store.mk md s.segs s.bulk) p ++ [x] ∧
    (∀ p', p' ≠ p → absQueue (pushCore s x p) p' =
      absQueue (Store.mk md s.segs s.bulk) p') := by
  obtain ⟨hconf, hnd, hrecs, habsent⟩ := hInv
  have hconf' : md.config = Config.mk ss buf := hconf
  have hnd' : (md.queues.map Prod.fst).Nodup := hnd
  have hssEq : segmentSize md = ss := by
    rw [segmentSize, hconf']
  rcases hlq : alookup md.queues p with _ | q
  · -- no record yet: a fresh record with one item in segment 0
    have htail0 : getTailSegment md p = 0 := by
      simp [getTailSegment, hlq]
    have hhead0 : getHeadSegment md p = 0 := by
      simp [getHeadSegment, hlq]
    have hcount0 : getQueueCount md p = 0 := by
      simp [getQueueCount, hlq]
    have hseg0 : (alookup s.segs (p, 0)).getD [] = ([] : List α) := by
      rcases habsent p hlq 0 with h1 | h1
      · have h1' : alookup s.segs (p, 0) = none := h1
        rw [h1']
        rfl
      · have h1' : alookup s.segs (p, 0) = some [] := h1
        rw [h1']
        rfl
    have hnotfull : ¬ (ss ≤ (([] : List α)).length) := by
      simp
      omega
    have hPC : pushCore s x p = Store.mk (setSegmentPointers (setQueueCount md p 1) p 0 0)
        (aset s.segs (p, 0) [x]) s.bulk := by
      simp only [pushCore, hmd, Option.getD_some, htail0, hseg0, hssEq, hnotfull, if_false,
        List.nil_append, hcount0, hhead0, Nat.zero_add]
    have hlq2 : alookup (setSegmentPointers (setQueueCount md p 1) p 0 0).queues p =
        some ⟨some 1, some 0, some 0, none, none⟩ := by
      simp only [setSegmentPointers, setQueueCount, lookup_putQueue_self, hlq,
        Option.getD_none, Option.getD_some]
    have hR2 : ∀ p', getOffloadedRange (setSegmentPointers (setQueueCount md p 1) p 0 0) p' =
        getOffloadedRange md p' := by
      intro p'
      rw [getOffloadedRange_setSegmentPointers, getOffloadedRange_setQueueCount]
    have hRp : getOffloadedRange (setSegmentPointers (setQueueCount md p 1) p 0 0) p =
        none := by
      simp only [getOffloadedRange, hlq2]
    have hkeyne : ∀ (p' i : Nat), p' ≠ p → ((p' : Nat), i) ≠ (p, 0) := by
      intro p' i hp' hcontr
      exact hp' (congrArg Prod.fst hcontr)
    have hlookiff : ∀ p', p' ≠ p →
        (alookup (setSegmentPointers (setQueueCount md p 1) p 0 0).queues p' = none ↔
          alookup md.queues p' = none) := by
      intro p' hp'
      rw [setSegmentPointers, lookup_putQueue_ne _ _ _ _ hp', setQueueCount,
        lookup_putQueue_ne _ _ _ _ hp']
    have hresolvene : ∀ p' i, p' ≠ p →
        resolveSeg (Store.mk (setSegmentPointers (setQueueCount md p 1) p 0 0)
          (aset s.segs (p, 0) [x]) s.bulk) p' i =
        resolveSeg (Store.mk md s.segs s.bulk) p' i := by
      intro p' i hp'
      show (if inRangeB (getOffloadedRange (setSegmentPointers (setQueueCount md p 1)
          p 0 0) p') i = true then alookup s.bulk (p', i)
        else alookup (aset s.segs (p, 0) [x]) (p', i)) =
        resolveSeg (Store.mk md s.segs s.bulk) p' i
      rw [hR2 p', alookup_aset_ne _ _ _ _ (hkeyne p' i hp')]
      rfl
    have habsne : ∀ p', p' ≠ p →
        absQueue (Store.mk (setSegmentPointers (setQueueCount md p 1) p 0 0)
          (aset s.segs (p, 0) [x]) s.bulk) p' =
        absQueue (Store.mk md s.segs s.bulk) p' := by
      intro p' hp'
      refine absQueue_congr _ _ p' (hlookiff p' hp') ?_ ?_
        (fun i _ _ => hresolvene p' i hp')
      · show getHeadSegment (setSegmentPointers (setQueueCount md p 1) p 0 0) p' =
          getHeadSegment md p'
        rw [getHeadSegment_setSegmentPointers_ne _ _ _ _ _ hp', getHeadSegment_setQueueCount]
      · show getTailSegment (setSegmentPointers (setQueueCount md p 1) p 0 0) p' =
          getTailSegment md p'
        rw [getTailSegment_setSegmentPointers_ne _ _ _ _ _ hp', getTailSegment_setQueueCount]
    have hres0 : resolveSeg (Store.mk (setSegmentPointers (setQueueCount md p 1) p 0 0)
        (aset s.segs (p, 0) [x]) s.bulk) p 0 = some [x] := by
      show (if inRangeB (getOffloadedRange (setSegmentPointers (setQueueCount md p 1)
          p 0 0) p) 0 = true then alookup s.bulk (p, 0)
        else alookup (aset s.segs (p, 0) [x]) (p, 0)) = some [x]
      rw [hRp]
      simp only [inRangeB, Bool.false_eq_true, if_false]
      exact alookup_aset_self _ _ _
    have habsnew : absQueue (Store.mk (setSegmentPointers (setQueueCount md p 1) p 0 0)
        (aset s.segs (p, 0) [x]) s.bulk) p = [x] := by
      rw [absQueue_of_lookup _ p _ hlq2, getHeadSegment_of_lookup hlq2 rfl,
        getTailSegment_of_lookup hlq2 rfl]
      simp [List.range', segConcat, hres0]
    have habsold : absQueue (Store.mk md s.segs s.bulk) p = [] := absQueue_of_none _ _ hlq
    rw [hPC]
    refine ⟨⟨?_, ?_, ?_, ?_⟩, ?_, habsne⟩
    · show (setSegmentPointers (setQueueCount md p 1) p 0 0).config = ⟨ss, buf⟩
      rw [config_setSegmentPointers, config_setQueueCount]
      exact hconf'
    · show ((setSegmentPointers (setQueueCount md p 1) p 0 0).queues.map Prod.fst).Nodup
      simp only [setSegmentPointers, setQueueCount, putQueue]
      exact nodup_keys_aset _ _ _ (nodup_keys_aset _ _ _ hnd')
    · intro p' q' hq'
      by_cases hp' : p' = p
      · subst hp'
        have hq'' : q' = ⟨some 1, some 0, some 0, none, none⟩ :=
          Option.some.inj ((hlq2.symm.trans hq')).symm
        refine ⟨1, 0, 0, by rw [hq''], by rw [hq''], by rw [hq''], Nat.one_pos,
          Nat.le_refl 0, ?_, ?_, ?_, ?_, ?_⟩
        · refine Or.inl ⟨?_, ?_⟩ <;> rw [hq'']
        · intro i hi
          have hi2 : inRangeB (getOffloadedRange (setSegmentPointers (setQueueCount md p' 1)
              p' 0 0) p') i = true := hi
          rw [hRp] at hi2
          exact absurd hi2 (by simp [inRangeB])
        · intro i hi1 hi2 hi3
          have hi0 : i = 0 := by omega
          subst hi0
          refine ⟨[x], ?_, by simp, ?_, ?_⟩
          · show alookup (aset s.segs (p', 0) [x]) (p', 0) = some [x]
            exact alookup_aset_self _ _ _
          · intro h1 h2
            omega
          · intro h1
            simpa using hss
        · intro i hi
          have hi0 : i ≠ 0 := by omega
          have h0 := habsent p' hlq i
          show alookup (aset s.segs (p', 0) [x]) (p', i) = none ∨
            alookup (aset s.segs (p', 0) [x]) (p', i) = some []
          rw [alookup_aset_ne _ _ _ _
            (by intro hcontr; exact hi0 (congrArg Prod.snd hcontr))]
          exact h0
        · rw [habsnew]
          rfl
      · have hq'1 : alookup md.queues p' = some q' := by
          rw [← hq', setSegmentPointers, lookup_putQueue_ne _ _ _ _ hp', setQueueCount,
            lookup_putQueue_ne _ _ _ _ hp']
        refine QInv_transport ss buf p' _ (Store.mk md s.segs s.bulk) q' (hR2 p') ?_
          (fun i => rfl) (habsne p' hp') (hrecs p' q' hq'1)
        intro i
        exact alookup_aset_ne _ _ _ _ (hkeyne p' i hp')
    · intro p' hp'
      have hp'0 : p' ≠ p := by
        intro hcontr
        subst hcontr
        rw [hlq2] at hp'
        exact absurd hp' (by simp)
      have hnone1 : alookup md.queues p' = none := (hlookiff p' hp'0).mp hp'
      intro i
      have h0 := habsent p' hnone1 i
      show alookup (aset s.segs (p, 0) [x]) (p', i) = none ∨
        alookup (aset s.segs (p, 0) [x]) (p', i) = some []
      rw [alookup_aset_ne _ _ _ _ (hkeyne p' i hp'0)]
      exact h0
    · rw [habsnew, habsold]
      rfl
  · -- existing record: append to the tail segment, or start a new one
    obtain ⟨c, h, t, hqc, hqh, hqt, hcpos, hht, hshape, hbfull, hres, hstale, hcnt⟩ :=
      hrecs p q hlq
    have hH : getHeadSegment md p = h := getHeadSegment_of_lookup hlq hqh
    have hT : getTailSegment md p = t := getTailSegment_of_lookup hlq hqt
    have hC : getQueueCount md p = c := getQueueCount_of_lookup hlq hqc
    simp only [hH, hT] at hshape hres hstale
    have hnrGE : ∀ i, t ≤ i → inRangeB (getOffloadedRange md p) i = false := by
      intro i hi
      rcases hshape with ⟨hn1, hn2⟩ | ⟨ho, toff, hho, hto, hb1, hb2, hb3, hb4⟩
      · have h0 : getOffloadedRange md p = none := by
          simp only [getOffloadedRange, hlq, hn1, hn2]
        rw [h0]
        rfl
      · have h0 : getOffloadedRange md p = some (ho, toff) := by
          simp only [getOffloadedRange, hlq, hho, hto]
        rw [h0]
        cases hb : inRangeB (some (ho, toff)) i
        · rfl
        · rw [inRangeB_some] at hb
          omega
    obtain ⟨l, hlt, hlne, hfullt, htlt⟩ := hres t hht (Nat.le_refl t) (hnrGE t (Nat.le_refl t))
    have hlt' : alookup s.segs (p, t) = some l := hlt
    have hseg0 : (alookup s.segs (p, t)).getD [] = l := by
      rw [hlt']
      rfl
    have hltl : l.length ≤ ss := htlt rfl
    have hkeyneT : ∀ (p' i j : Nat), p' ≠ p → ((p' : Nat), i) ≠ (p, j) := by
      intro p' i j hp' hcontr
      exact hp' (congrArg Prod.fst hcontr)
    by_cases hfull : ss ≤ l.length
    · -- the tail segment is exactly full: a new tail segment is started
      have hleq : l.length = ss := by omega
      have hPC : pushCore s x p = Store.mk
          (setSegmentPointers (setQueueCount md p (c + 1)) p h (t + 1))
          (aset s.segs (p, t + 1) [x]) s.bulk := by
        simp only [pushCore, hmd, Option.getD_some, hT, hseg0, hssEq, hfull, if_true,
          List.nil_append, hC, hH]
      have hlq2 : alookup (setSegmentPointers (setQueueCount md p (c + 1))
          p h (t + 1)).queues p = some ⟨some (c + 1), some h, some (t + 1),
          q.head_offloaded_segment, q.tail_offloaded_segment⟩ := by
        simp only [setSegmentPointers, setQueueCount, lookup_putQueue_self, hlq,
          Option.getD_some]
      have hR2 : ∀ p', getOffloadedRange (setSegmentPointers (setQueueCount md p (c + 1))
          p h (t + 1)) p' = getOffloadedRange md p' := by
        intro p'
        rw [getOffloadedRange_setSegmentPointers, getOffloadedRange_setQueueCount]
      have hlookiff : ∀ p', p' ≠ p →
          (alookup (setSegmentPointers (setQueueCount md p (c + 1))
            p h (t + 1)).queues p' = none ↔ alookup md.queues p' = none) := by
        intro p' hp'
        rw [setSegmentPointers, lookup_putQueue_ne _ _ _ _ hp', setQueueCount,
          lookup_putQueue_ne _ _ _ _ hp']
      have hresolvene : ∀ p' i, p' ≠ p →
          resolveSeg (Store.mk (setSegmentPointers (setQueueCount md p (c + 1)) p h (t + 1))
            (aset s.segs (p, t + 1) [x]) s.bulk) p' i =
          resolveSeg (Store.mk md s.segs s.bulk) p' i := by
        intro p' i hp'
        show (if inRangeB (getOffloadedRange (setSegmentPointers (setQueueCount md p (c + 1))
            p h (t + 1)) p') i = true then alookup s.bulk (p', i)
          else alookup (aset s.segs (p, t + 1) [x]) (p', i)) =
          resolveSeg (Store.mk md s.segs s.bulk) p' i
        rw [hR2 p', alookup_aset_ne _ _ _ _ (hkeyneT p' i (t + 1) hp')]
        rfl
      have habsne : ∀ p', p' ≠ p →
          absQueue (Store.mk (setSegmentPointers (setQueueCount md p (c + 1)) p h (t + 1))
            (aset s.segs (p, t + 1) [x]) s.bulk) p' =
          absQueue (Store.mk md s.segs s.bulk) p' := by
        intro p' hp'
        refine absQueue_congr _ _ p' (hlookiff p' hp') ?_ ?_
          (fun i _ _ => hresolvene p' i hp')
        · show getHeadSegment (setSegmentPointers (setQueueCount md p (c + 1)) p h (t + 1))
            p' = getHeadSegment md p'
          rw [getHeadSegment_setSegmentPointers_ne _ _ _ _ _ hp',
            getHeadSegment_setQueueCount]
        · show getTailSegment (setSegmentPointers (setQueueCount md p (c + 1)) p h (t + 1))
            p' = getTailSegment md p'
          rw [getTailSegment_setSegmentPointers_ne _ _ _ _ _ hp',
            getTailSegment_setQueueCount]
      have hresolvep : ∀ i, i ≠ t + 1 →
          resolveSeg (Store.mk (setSegmentPointers (setQueueCount md p (c + 1)) p h (t + 1))
            (aset s.segs (p, t + 1) [x]) s.bulk) p i =
          resolveSeg (Store.mk md s.segs s.bulk) p i := by
        intro i hi
        show (if inRangeB (getOffloadedRange (setSegmentPointers (setQueueCount md p (c + 1))
            p h (t + 1)) p) i = true then alookup s.bulk (p, i)
          else alookup (aset s.segs (p, t + 1) [x]) (p, i)) =
          resolveSeg (Store.mk md s.segs s.bulk) p i
        rw [hR2 p, alookup_aset_ne _ _ _ _
          (by intro hcontr; exact hi (congrArg Prod.snd hcontr))]
        rfl
      have hresolveT1 : resolveSeg (Store.mk (setSegmentPointers (setQueueCount md p (c + 1))
          p h (t + 1)) (aset s.segs (p, t + 1) [x]) s.bulk) p (t + 1) = some [x] := by
        show (if inRangeB (getOffloadedRange (setSegmentPointers (setQueueCount md p (c + 1))
            p h (t + 1)) p) (t + 1) = true then alookup s.bulk (p, t + 1)
          else alookup (aset s.segs (p, t + 1) [x]) (p, t + 1)) = some [x]
        rw [hR2 p, hnrGE (t + 1) (by omega)]
        simp only [Bool.false_eq_true, if_false]
        exact alookup_aset_self _ _ _
      have habsnew : absQueue (Store.mk (setSegmentPointers (setQueueCount md p (c + 1))
          p h (t + 1)) (aset s.segs (p, t + 1) [x]) s.bulk) p =
          absQueue (Store.mk md s.segs s.bulk) p ++ [x] := by
        rw [absQueue_of_lookup _ p _ hlq2, getHeadSegment_of_lookup hlq2 rfl,
          getTailSegment_of_lookup hlq2 rfl,
          show t + 1 + 1 - h = (t + 1 - h) + 1 from by omega, segConcat_range'_right,
          show h + (t + 1 - h) = t + 1 from by omega, hresolveT1,
          absQueue_of_lookup _ p _ hlq]
        have hHs : getHeadSegment (Store.mk md s.segs s.bulk : Store α).md p = h := hH
        have hTs : getTailSegment (Store.mk md s.segs s.bulk : Store α).md p = t := hT
        rw [hHs, hTs]
        congr 1
        apply segConcat_congr
        intro i hi
        rw [List.mem_range'_1] at hi
        rw [hresolvep i (by omega)]
      rw [hPC]
      refine ⟨⟨?_, ?_, ?_, ?_⟩, habsnew, habsne⟩
      · show (setSegmentPointers (setQueueCount md p (c + 1)) p h (t + 1)).config = ⟨ss, buf⟩
        rw [config_setSegmentPointers, config_setQueueCount]
        exact hconf'
      · show ((setSegmentPointers (setQueueCount md p (c + 1)) p h (t + 1)).queues.map
          Prod.fst).Nodup
        simp only [setSegmentPointers, setQueueCount, putQueue]
        exact nodup_keys_aset _ _ _ (nodup_keys_aset _ _ _ hnd')
      · intro p' q' hq'
        by_cases hp' : p' = p
        · subst hp'
          have hq'' : q' = ⟨some (c + 1), some h, some (t + 1),
              q.head_offloaded_segment, q.tail_offloaded_segment⟩ :=
            Option.some.inj ((hlq2.symm.trans hq')).symm
          refine ⟨c + 1, h, t + 1, by rw [hq''], by rw [hq''], by rw [hq''], by omega,
            by omega, ?_, ?_, ?_, ?_, ?_⟩
          · rcases hshape with ⟨hn1, hn2⟩ | ⟨ho, toff, hho, hto, hb1, hb2, hb3, hb4⟩
            · refine Or.inl ⟨?_, ?_⟩ <;> rw [hq'']
              · exact hn1
              · exact hn2
            · refine Or.inr ⟨ho, toff, ?_, ?_, hb1, by omega, hb3, by omega⟩
              · rw [hq'']
                exact hho
              · rw [hq'']
                exact hto
          · intro i hi
            have hi2 : inRangeB (getOffloadedRange (setSegmentPointers
                (setQueueCount md p' (c + 1)) p' h (t + 1)) p') i = true := hi
            rw [hR2 p'] at hi2
            obtain ⟨l2, hl2, hlen2⟩ := hbfull i hi2
            exact ⟨l2, hl2, hlen2⟩
          · intro i hi1 hi2 hi3
            have hi3' : inRangeB (getOffloadedRange (setSegmentPointers
                (setQueueCount md p' (c + 1)) p' h (t + 1)) p') i = false := hi3
            rw [hR2 p'] at hi3'
            by_cases hiT : i = t + 1
            · subst hiT
              refine ⟨[x], ?_, by simp, ?_, ?_⟩
              · show alookup (aset s.segs (p', t + 1) [x]) (p', t + 1) = some [x]
                exact alookup_aset_self _ _ _
              · intro h1 h2
                omega
              · intro h1
                simpa using hss
            · obtain ⟨l2, hl2, hlne2, hfull2, htl2⟩ := hres i hi1 (by omega) hi3'
              have hl2' : alookup s.segs (p', i) = some l2 := hl2
              refine ⟨l2, ?_, hlne2, ?_, ?_⟩
              · show alookup (aset s.segs (p', t + 1) [x]) (p', i) = some l2
                rw [alookup_aset_ne _ _ _ _
                  (by intro hcontr; exact hiT (congrArg Prod.snd hcontr))]
                exact hl2'
              · intro h1 h2
                by_cases hit : i = t
                · subst hit
                  have : l2 = l := Option.some.inj (hl2'.symm.trans hlt')
                  rw [this]
                  exact hleq
                · exact hfull2 h1 (by omega)
              · intro h1
                exact absurd h1 hiT
          · intro i hi
            have hiT : i ≠ t + 1 := by omega
            have h0 := hstale i (by omega)
            show alookup (aset s.segs (p', t + 1) [x]) (p', i) = none ∨
              alookup (aset s.segs (p', t + 1) [x]) (p', i) = some []
            rw [alookup_aset_ne _ _ _ _
              (by intro hcontr; exact hiT (congrArg Prod.snd hcontr))]
            exact h0
          · rw [habsnew]
            have hlen0 := congrArg List.length
              (show absQueue (Store.mk md s.segs s.bulk) p' ++ [x] =
                absQueue (Store.mk md s.segs s.bulk) p' ++ [x] from rfl)
            simp only [List.length_append, List.length_cons, List.length_nil]
            omega
        · have hq'1 : alookup md.queues p' = some q' := by
            rw [← hq', setSegmentPointers, lookup_putQueue_ne _ _ _ _ hp', setQueueCount,
              lookup_putQueue_ne _ _ _ _ hp']
          refine QInv_transport ss buf p' _ (Store.mk md s.segs s.bulk) q' (hR2 p') ?_
            (fun i => rfl) (habsne p' hp') (hrecs p' q' hq'1)
          intro i
          exact alookup_aset_ne _ _ _ _ (hkeyneT p' i (t + 1) hp')
      · intro p' hp'
        have hp'0 : p' ≠ p := by
          intro hcontr
          subst hcontr
          rw [hlq2] at hp'
          exact absurd hp' (by simp)
        have hnone1 : alookup md.queues p' = none := (hlookiff p' hp'0).mp hp'
        intro i
        have h0 := habsent p' hnone1 i
        show alookup (aset s.segs (p, t + 1) [x]) (p', i) = none ∨
          alookup (aset s.segs (p, t + 1) [x]) (p', i) = some []
        rw [alookup_aset_ne _ _ _ _ (hkeyneT p' i (t + 1) hp'0)]
        exact h0
    · -- room in the tail segment: append in place
      have hltlt : l.length < ss := by omega
      have hPC : pushCore s x p = Store.mk
          (setSegmentPointers (setQueueCount md p (c + 1)) p h t)
          (aset s.segs (p, t) (l ++ [x])) s.bulk := by
        simp only [pushCore, hmd, Option.getD_some, hT, hseg0, hssEq, hfull, if_false,
          hC, hH]
      have hlq2 : alookup (setSegmentPointers (setQueueCount md p (c + 1))
          p h t).queues p = some ⟨some (c + 1), some h, some t,
          q.head_offloaded_segment, q.tail_offloaded_segment⟩ := by
        simp only [setSegmentPointers, setQueueCount, lookup_putQueue_self, hlq,
          Option.getD_some]
      have hR2 : ∀ p', getOffloadedRange (setSegmentPointers (setQueueCount md p (c + 1))
          p h t) p' = getOffloadedRange md p' := by
        intro p'
        rw [getOffloadedRange_setSegmentPointers, getOffloadedRange_setQueueCount]
      have hlookiff : ∀ p', p' ≠ p →
          (alookup (setSegmentPointers (setQueueCount md p (c + 1))
            p h t).queues p' = none ↔ alookup md.queues p' = none) := by
        intro p' hp'
        rw [setSegmentPointers, lookup_putQueue_ne _ _ _ _ hp', setQueueCount,
          lookup_putQueue_ne _ _ _ _ hp']
      have hresolvene : ∀ p' i, p' ≠ p →
          resolveSeg (Store.mk (setSegmentPointers (setQueueCount md p (c + 1)) p h t)
            (aset s.segs (p, t) (l ++ [x])) s.bulk) p' i =
          resolveSeg (Store.mk md s.segs s.bulk) p' i := by
        intro p' i hp'
        show (if inRangeB (getOffloadedRange (setSegmentPointers (setQueueCount md p (c + 1))
            p h t) p') i = true then alookup s.bulk (p', i)
          else alookup (aset s.segs (p, t) (l ++ [x])) (p', i)) =
          resolveSeg (Store.mk md s.segs s.bulk) p' i
        rw [hR2 p', alookup_aset_ne _ _ _ _ (hkeyneT p' i t hp')]
        rfl
      have habsne : ∀ p', p' ≠ p →
          absQueue (Store.mk (setSegmentPointers (setQueueCount md p (c + 1)) p h t)
            (aset s.segs (p, t) (l ++ [x])) s.bulk) p' =
          absQueue (Store.mk md s.segs s.bulk) p' := by
        intro p' hp'
        refine absQueue_congr _ _ p' (hlookiff p' hp') ?_ ?_
          (fun i _ _ => hresolvene p' i hp')
        · show getHeadSegment (setSegmentPointers (setQueueCount md p (c + 1)) p h t) p' =
            getHeadSegment md p'
          rw [getHeadSegment_setSegmentPointers_ne _ _ _ _ _ hp',
            getHeadSegment_setQueueCount]
        · show getTailSegment (setSegmentPointers (setQueueCount md p (c + 1)) p h t) p' =
            getTailSegment md p'
          rw [getTailSegment_setSegmentPointers_ne _ _ _ _ _ hp',
            getTailSegment_setQueueCount]
      have hresolvep : ∀ i, i ≠ t →
          resolveSeg (Store.mk (setSegmentPointers (setQueueCount md p (c + 1)) p h t)
            (aset s.segs (p, t) (l ++ [x])) s.bulk) p i =
          resolveSeg (Store.mk md s.segs s.bulk) p i := by
        intro i hi
        show (if inRangeB (getOffloadedRange (setSegmentPointers (setQueueCount md p (c + 1))
            p h t) p) i = true then alookup s.bulk (p, i)
          else alookup (aset s.segs (p, t) (l ++ [x])) (p, i)) =
          resolveSeg (Store.mk md s.segs s.bulk) p i
        rw [hR2 p, alookup_aset_ne _ _ _ _
          (by intro hcontr; exact hi (congrArg Prod.snd hcontr))]
        rfl
      have hresolveT : resolveSeg (Store.mk (setSegmentPointers (setQueueCount md p (c + 1))
          p h t) (aset s.segs (p, t) (l ++ [x])) s.bulk) p t = some (l ++ [x]) := by
        show (if inRangeB (getOffloadedRange (setSegmentPointers (setQueueCount md p (c + 1))
            p h t) p) t = true then alookup s.bulk (p, t)
          else alookup (aset s.segs (p, t) (l ++ [x])) (p, t)) = some (l ++ [x])
        rw [hR2 p, hnrGE t (Nat.le_refl t)]
        simp only [Bool.false_eq_true, if_false]
        exact alookup_aset_self _ _ _
      have hresolveTold : resolveSeg (Store.mk md s.segs s.bulk) p t = some l := by
        show (if inRangeB (getOffloadedRange md p) t = true then alookup s.bulk (p, t)
          else alookup s.segs (p, t)) = some l
        rw [hnrGE t (Nat.le_refl t)]
        simp only [Bool.false_eq_true, if_false]
        exact hlt'
      have habsnew : absQueue (Store.mk (setSegmentPointers (setQueueCount md p (c + 1))
          p h t) (aset s.segs (p, t) (l ++ [x])) s.bulk) p =
          absQueue (Store.mk md s.segs s.bulk) p ++ [x] := by
        rw [absQueue_of_lookup _ p _ hlq2, getHeadSegment_of_lookup hlq2 rfl,
          getTailSegment_of_lookup hlq2 rfl,
          show t + 1 - h = (t - h) + 1 from by omega, segConcat_range'_right,
          show h + (t - h) = t from by omega, hresolveT,
          absQueue_of_lookup _ p _ hlq]
        have hHs : getHeadSegment (Store.mk md s.segs s.bulk : Store α).md p = h := hH
        have hTs : getTailSegment (Store.mk md s.segs s.bulk : Store α).md p = t := hT
        rw [hHs, hTs, show t + 1 - h = (t - h) + 1 from by omega, segConcat_range'_right,
          show h + (t - h) = t from by omega, hresolveTold]
        rw [Option.getD_some, Option.getD_some, List.append_assoc]
        congr 1
        apply segConcat_congr
        intro i hi
        rw [List.mem_range'_1] at hi
        rw [hresolvep i (by omega)]
      rw [hPC]
      refine ⟨⟨?_, ?_, ?_, ?_⟩, habsnew, habsne⟩
      · show (setSegmentPointers (setQueueCount md p (c + 1)) p h t).config = ⟨ss, buf⟩
        rw [config_setSegmentPointers, config_setQueueCount]
        exact hconf'
      · show ((setSegmentPointers (setQueueCount md p (c + 1)) p h t).queues.map
          Prod.fst).Nodup
        simp only [setSegmentPointers, setQueueCount, putQueue]
        exact nodup_keys_aset _ _ _ (nodup_keys_aset _ _ _ hnd')
      · intro p' q' hq'
        by_cases hp' : p' = p
        · subst hp'
          have hq'' : q' = ⟨some (c + 1), some h, some t,
              q.head_offloaded_segment, q.tail_offloaded_segment⟩ :=
            Option.some.inj ((hlq2.symm.trans hq')).symm
          refine ⟨c + 1, h, t, by rw [hq''], by rw [hq''], by rw [hq''], by omega,
            hht, ?_, ?_, ?_, ?_, ?_⟩
          · rcases hshape with ⟨hn1, hn2⟩ | ⟨ho, toff, hho, hto, hb1, hb2, hb3, hb4⟩
            · refine Or.inl ⟨?_, ?_⟩ <;> rw [hq'']
              · exact hn1
              · exact hn2
            · refine Or.inr ⟨ho, toff, ?_, ?_, hb1, hb2, hb3, hb4⟩
              · rw [hq'']
                exact hho
              · rw [hq'']
                exact hto
          · intro i hi
            have hi2 : inRangeB (getOffloadedRange (setSegmentPointers
                (setQueueCount md p' (c + 1)) p' h t) p') i = true := hi
            rw [hR2 p'] at hi2
            obtain ⟨l2, hl2, hlen2⟩ := hbfull i hi2
            exact ⟨l2, hl2, hlen2⟩
          · intro i hi1 hi2 hi3
            have hi3' : inRangeB (getOffloadedRange (setSegmentPointers
                (setQueueCount md p' (c + 1)) p' h t) p') i = false := hi3
            rw [hR2 p'] at hi3'
            by_cases hiT : i = t
            · subst hiT
              refine ⟨l ++ [x], ?_, by simp, ?_, ?_⟩
              · show alookup (aset s.segs (p', i) (l ++ [x])) (p', i) = some (l ++ [x])
                exact alookup_aset_self _ _ _
              · intro h1 h2
                omega
              · intro h1
                simp only [List.length_append, List.length_cons, List.length_nil]
                omega
            · obtain ⟨l2, hl2, hlne2, hfull2, htl2⟩ := hres i hi1 hi2 hi3'
              have hl2' : alookup s.segs (p', i) = some l2 := hl2
              refine ⟨l2, ?_, hlne2, hfull2, fun h1 => absurd h1 hiT⟩
              show alookup (aset s.segs (p', t) (l ++ [x])) (p', i) = some l2
              rw [alookup_aset_ne _ _ _ _
                (by intro hcontr; exact hiT (congrArg Prod.snd hcontr))]
              exact hl2'
          · intro i hi
            have hiT : i ≠ t := by omega
            have h0 := hstale i hi
            show alookup (aset s.segs (p', t) (l ++ [x])) (p', i) = none ∨
              alookup (aset s.segs (p', t) (l ++ [x])) (p', i) = some []
            rw [alookup_aset_ne _ _ _ _
              (by intro hcontr; exact hiT (congrArg Prod.snd hcontr))]
            exact h0
          · rw [habsnew]
            simp only [List.length_append, List.length_cons, List.length_nil]
            omega
        · have hq'1 : alookup md.queues p' = some q' := by
            rw [← hq', setSegmentPointers, lookup_putQueue_ne _ _ _ _ hp', setQueueCount,
              lookup_putQueue_ne _ _ _ _ hp']
          refine QInv_transport ss buf p' _ (Store.mk md s.segs s.bulk) q' (hR2 p') ?_
            (fun i => rfl) (habsne p' hp') (hrecs p' q' hq'1)
          intro i
          exact alookup_aset_ne _ _ _ _ (hkeyneT p' i t hp')
      · intro p' hp'
        have hp'0 : p' ≠ p := by
          intro hcontr
          subst hcontr
          rw [hlq2] at hp'
          exact absurd hp' (by simp)
        have hnone1 : alookup md.queues p' = none := (hlookiff p' hp'0).mp hp'
        intro i
        have h0 := habsent p' hnone1 i
        show alookup (aset s.segs (p, t) (l ++ [x])) (p', i) = none ∨
          alookup (aset s.segs (p, t) (l ++ [x])) (p', i) = some []
        rw [alookup_aset_ne _ _ _ _ (hkeyneT p' i t hp'0)]
        exact h0

/- One Push refines one specification push: the refinement relation is
   preserved, the item landing at the tail of its priority's queue. -/
theorem push_step {α : Type} (ss buf : Nat) (s : ActorState α) (Q : SpecQueues α) (x : α)
    (p : Nat) (hss : 1 ≤ ss) (hA : Abs ss buf s Q) :
    Abs ss buf (Push s x p).2 (specPush Q x p) := by
  obtain ⟨md, hmd, hInv, hQI, habs⟩ := hA
  obtain ⟨hInvPC, habsP, habsNe⟩ := pushCoreInv ss buf s md x p hss hmd hInv
  obtain ⟨hInvCO, habsCO⟩ := checkAndOffloadSegmentsInv ss buf p (pushCore s x p) hInvPC
  refine ⟨(checkAndOffloadSegments (pushCore s x p) p).md, rfl, hInvCO, ?_, ?_⟩
  · refine ⟨nodup_keys_aset _ _ _ hQI.1, ?_⟩
    intro e he
    rcases mem_aset_elim Q p _ e he with h1 | h1
    · exact hQI.2 e h1
    · rw [h1]
      simp
  · intro p'
    by_cases hp' : p' = p
    · subst hp'
      show absQueue (checkAndOffloadSegments (pushCore s x p') p') p' =
        (alookup (specPush Q x p') p').getD []
      rw [habsCO p', habsP, habs p']
      simp only [specPush, alookup_aset_self, Option.getD_some]
    · show absQueue (checkAndOffloadSegments (pushCore s x p) p) p' =
        (alookup (specPush Q x p) p').getD []
      rw [habsCO p', habsNe p' hp', habs p']
      simp only [specPush]
      rw [alookup_aset_ne _ _ _ _ hp']

/- The pop branch that takes one item from a head segment still holding
   more: count decremented, pointers rewritten in place, the head segment
   shortened; the abstract queue loses exactly its first element. -/
theorem popHeadTakeInv {α : Type} (ss buf p0 c h t : Nat) (st1 : Store α) (q1 : QMeta)
    (x : α) (seg : List α)
    (hInv1 : StInv ss buf st1)
    (hlq1 : alookup st1.md.queues p0 = some q1)
    (hq1c : q1.count = some c) (hq1h : q1.head_segment = some h)
    (hq1t : q1.tail_segment = some t)
    (hnr : inRangeB (getOffloadedRange st1.md p0) h = false)
    (hsegh : alookup st1.segs (p0, h) = some (x :: seg))
    (hsegne : seg ≠ []) :
    StInv ss buf
      { st1 with
        md := setSegmentPointers (setQueueCount st1.md p0 (c - 1)) p0 h t,
        segs := aset st1.segs (p0, h) seg } ∧
    absQueue st1 p0 =
      x :: absQueue { st1 with
        md := setSegmentPointers (setQueueCount st1.md p0 (c - 1)) p0 h t,
        segs := aset st1.segs (p0, h) seg } p0 ∧
    (∀ p', p' ≠ p0 →
      absQueue { st1 with
        md := setSegmentPointers (setQueueCount st1.md p0 (c - 1)) p0 h t,
        segs := aset st1.segs (p0, h) seg } p' = absQueue st1 p') ∧
    absQueue { st1 with
      md := setSegmentPointers (setQueueCount st1.md p0 (c - 1)) p0 h t,
      segs := aset st1.segs (p0, h) seg } p0 ≠ [] := by
  rcases seg with _ | ⟨y, more⟩
  · exact absurd rfl hsegne
  obtain ⟨hconf, hnd, hrecs, habsent⟩ := hInv1
  obtain ⟨c', h', t', hq1c', hq1h', hq1t', hcpos, hht, hshape, hbfull, hres, hstale, hcnt⟩ :=
    hrecs p0 q1 hlq1
  have hcc : c' = c := Option.some.inj (hq1c'.symm.trans hq1c)
  have hhh : h' = h := Option.some.inj (hq1h'.symm.trans hq1h)
  have htt : t' = t := Option.some.inj (hq1t'.symm.trans hq1t)
  simp only [hcc, hhh, htt] at hcpos hht hshape hres hstale hcnt
  have hlq2 : alookup (setSegmentPointers (setQueueCount st1.md p0 (c - 1)) p0 h t).queues p0 =
      some ⟨some (c - 1), some h, some t,
        q1.head_offloaded_segment, q1.tail_offloaded_segment⟩ := by
    simp only [setSegmentPointers, setQueueCount, lookup_putQueue_self, hlq1, Option.getD_some]
  have hR2 : ∀ p', getOffloadedRange (setSegmentPointers (setQueueCount st1.md p0 (c - 1))
      p0 h t) p' = getOffloadedRange st1.md p' := by
    intro p'
    rw [getOffloadedRange_setSegmentPointers, getOffloadedRange_setQueueCount]
  have hH2 : getHeadSegment (setSegmentPointers (setQueueCount st1.md p0 (c - 1)) p0 h t) p0 =
      h := getHeadSegment_setSegmentPointers_self _ _ _ _
  have hT2 : getTailSegment (setSegmentPointers (setQueueCount st1.md p0 (c - 1)) p0 h t) p0 =
      t := getTailSegment_setSegmentPointers_self _ _ _ _
  have hHst1 : getHeadSegment st1.md p0 = h := getHeadSegment_of_lookup hlq1 hq1h
  have hTst1 : getTailSegment st1.md p0 = t := getTailSegment_of_lookup hlq1 hq1t
  have hlookiff : ∀ p',
      alookup (setSegmentPointers (setQueueCount st1.md p0 (c - 1)) p0 h t).queues p' = none ↔
      alookup st1.md.queues p' = none := by
    intro p'
    by_cases hp' : p' = p0
    · subst hp'
      rw [hlq2, hlq1]
      simp
    · rw [setSegmentPointers, lookup_putQueue_ne _ _ _ _ hp', setQueueCount,
        lookup_putQueue_ne _ _ _ _ hp']
  have hkeyne : ∀ (p' i : Nat), p' ≠ p0 → ((p' : Nat), i) ≠ (p0, h) := by
    intro p' i hp' hcontr
    exact hp' (congrArg Prod.fst hcontr)
  have hresolvene : ∀ p' i, p' ≠ p0 →
      resolveSeg { st1 with
        md := setSegmentPointers (setQueueCount st1.md p0 (c - 1)) p0 h t,
        segs := aset st1.segs (p0, h) (y :: more) } p' i = resolveSeg st1 p' i := by
    intro p' i hp'
    show (if inRangeB (getOffloadedRange (setSegmentPointers (setQueueCount st1.md p0 (c - 1))
        p0 h t) p') i = true then alookup st1.bulk (p', i)
      else alookup (aset st1.segs (p0, h) (y :: more)) (p', i)) = resolveSeg st1 p' i
    rw [hR2 p', alookup_aset_ne _ _ _ _ (hkeyne p' i hp')]
    rfl
  have hresolvep : ∀ i, i ≠ h →
      resolveSeg { st1 with
        md := setSegmentPointers (setQueueCount st1.md p0 (c - 1)) p0 h t,
        segs := aset st1.segs (p0, h) (y :: more) } p0 i = resolveSeg st1 p0 i := by
    intro i hi
    show (if inRangeB (getOffloadedRange (setSegmentPointers (setQueueCount st1.md p0 (c - 1))
        p0 h t) p0) i = true then alookup st1.bulk (p0, i)
      else alookup (aset st1.segs (p0, h) (y :: more)) (p0, i)) = resolveSeg st1 p0 i
    rw [hR2 p0, alookup_aset_ne _ _ _ _ (by intro hcontr; exact hi (congrArg Prod.snd hcontr))]
    rfl
  have hresolveh :
      resolveSeg { st1 with
        md := setSegmentPointers (setQueueCount st1.md p0 (c - 1)) p0 h t,
        segs := aset st1.segs (p0, h) (y :: more) } p0 h = some (y :: more) := by
    show (if inRangeB (getOffloadedRange (setSegmentPointers (setQueueCount st1.md p0 (c - 1))
        p0 h t) p0) h = true then alookup st1.bulk (p0, h)
      else alookup (aset st1.segs (p0, h) (y :: more)) (p0, h)) = some (y :: more)
    rw [hR2 p0, hnr]
    simp only [Bool.false_eq_true, if_false]
    exact alookup_aset_self _ _ _
  have hresolveh1 : resolveSeg st1 p0 h = some (x :: y :: more) := by
    rw [resolveSeg, hnr]
    simp only [Bool.false_eq_true, if_false]
    exact hsegh
  have habsne : ∀ p', p' ≠ p0 →
      absQueue { st1 with
        md := setSegmentPointers (setQueueCount st1.md p0 (c - 1)) p0 h t,
        segs := aset st1.segs (p0, h) (y :: more) } p' = absQueue st1 p' := by
    intro p' hp'
    refine absQueue_congr _ st1 p' (hlookiff p') ?_ ?_ (fun i _ _ => hresolvene p' i hp')
    · show getHeadSegment (setSegmentPointers (setQueueCount st1.md p0 (c - 1)) p0 h t) p' =
        getHeadSegment st1.md p'
      rw [getHeadSegment_setSegmentPointers_ne _ _ _ _ _ hp', getHeadSegment_setQueueCount]
    · show getTailSegment (setSegmentPointers (setQueueCount st1.md p0 (c - 1)) p0 h t) p' =
        getTailSegment st1.md p'
      rw [getTailSegment_setSegmentPointers_ne _ _ _ _ _ hp', getTailSegment_setQueueCount]
  have hdec1 : absQueue st1 p0 =
      (x :: y :: more) ++ segConcat (fun i => (resolveSeg st1 p0 i).getD [])
        (List.range' (h + 1) (t - h)) := by
    rw [absQueue_of_lookup st1 p0 q1 hlq1, hHst1, hTst1,
      show t + 1 - h = (t - h) + 1 from by omega, segConcat_range'_left, hresolveh1]
    rfl
  have hdec2 : absQueue { st1 with
        md := setSegmentPointers (setQueueCount st1.md p0 (c - 1)) p0 h t,
        segs := aset st1.segs (p0, h) (y :: more) } p0 =
      (y :: more) ++ segConcat (fun i => (resolveSeg st1 p0 i).getD [])
        (List.range' (h + 1) (t - h)) := by
    rw [absQueue_of_lookup _ p0 _ hlq2, hH2, hT2,
      show t + 1 - h = (t - h) + 1 from by omega, segConcat_range'_left, hresolveh]
    congr 1
    apply segConcat_congr
    intro i hi
    rw [List.mem_range'_1] at hi
    rw [hresolvep i (by omega)]
  have habs0 : absQueue st1 p0 =
      x :: absQueue { st1 with
        md := setSegmentPointers (setQueueCount st1.md p0 (c - 1)) p0 h t,
        segs := aset st1.segs (p0, h) (y :: more) } p0 := by
    rw [hdec1, hdec2]
    rfl
  have hc2 : 2 ≤ c := by
    have : c = ((x :: y :: more) ++ segConcat (fun i => (resolveSeg st1 p0 i).getD [])
        (List.range' (h + 1) (t - h))).length := by rw [hcnt, hdec1]
    simp only [List.length_append, List.length_cons] at this
    omega
  refine ⟨⟨?_, ?_, ?_, ?_⟩, habs0, habsne, by rw [hdec2]; simp⟩
  · show (setSegmentPointers (setQueueCount st1.md p0 (c - 1)) p0 h t).config = ⟨ss, buf⟩
    rw [config_setSegmentPointers, config_setQueueCount]
    exact hconf
  · show ((setSegmentPointers (setQueueCount st1.md p0 (c - 1)) p0 h t).queues.map
      Prod.fst).Nodup
    simp only [setSegmentPointers, setQueueCount, putQueue]
    exact nodup_keys_aset _ _ _ (nodup_keys_aset _ _ _ hnd)
  · intro p' q' hq'
    by_cases hp' : p' = p0
    · subst hp'
      rw [hlq2] at hq'
      have hq'' := (Option.some.inj hq').symm
      refine ⟨c - 1, h, t, by rw [hq''], by rw [hq''], by rw [hq''], by omega, hht, ?_,
        ?_, ?_, ?_, ?_⟩
      · rw [hq'']
        exact hshape
      · intro i hi
        rw [hR2 p'] at hi
        obtain ⟨l, hl, hlen⟩ := hbfull i hi
        exact ⟨l, hl, hlen⟩
      · intro i hi1 hi2 hi3
        rw [hR2 p'] at hi3
        by_cases hih : i = h
        · subst hih
          refine ⟨y :: more, alookup_aset_self _ _ _, by simp, ?_, ?_⟩
          · intro hlt1 hlt2
            exact absurd rfl (by omega : ¬ i = i)
          · intro hit
            obtain ⟨l, hl, -, -, htl⟩ := hres i (Nat.le_refl i) hi2 hi3
            rw [hsegh] at hl
            have := htl hit
            rw [← Option.some.inj hl] at this
            simp only [List.length_cons] at this ⊢
            omega
        · obtain ⟨l, hl, hlne, hfull, htl⟩ := hres i hi1 hi2 hi3
          refine ⟨l, ?_, hlne, hfull, htl⟩
          show alookup (aset st1.segs (p', h) (y :: more)) (p', i) = some l
          rw [alookup_aset_ne _ _ _ _
            (by intro hcontr; exact hih (congrArg Prod.snd hcontr))]
          exact hl
      · intro i hi
        have hih : i ≠ h := by omega
        show alookup (aset st1.segs (p', h) (y :: more)) (p', i) = none ∨
          alookup (aset st1.segs (p', h) (y :: more)) (p', i) = some []
        rw [alookup_aset_ne _ _ _ _
          (by intro hcontr; exact hih (congrArg Prod.snd hcontr))]
        exact hstale i hi
      · have hlen : (absQueue st1 p').length = (x :: absQueue { st1 with
            md := setSegmentPointers (setQueueCount st1.md p' (c - 1)) p' h t,
            segs := aset st1.segs (p', h) (y :: more) } p').length := congrArg List.length habs0
        rw [List.length_cons] at hlen
        omega
    · have hq'1 : alookup st1.md.queues p' = some q' := by
        rw [← hq', setSegmentPointers, lookup_putQueue_ne _ _ _ _ hp', setQueueCount,
          lookup_putQueue_ne _ _ _ _ hp']
      refine QInv_transport ss buf p' _ st1 q' (hR2 p') ?_ (fun i => rfl) (habsne p' hp')
        (hrecs p' q' hq'1)
      intro i
      exact alookup_aset_ne _ _ _ _ (hkeyne p' i hp')
  · intro p' hp'
    have hp'0 : p' ≠ p0 := by
      intro hcontr
      subst hcontr
      rw [hlq2] at hp'
      simp at hp'
    have hnone1 : alookup st1.md.queues p' = none := (hlookiff p').mp hp'
    intro i
    have := habsent p' hnone1 i
    show alookup (aset st1.segs (p0, h) (y :: more)) (p', i) = none ∨
      alookup (aset st1.segs (p0, h) (y :: more)) (p', i) = some []
    rw [alookup_aset_ne _ _ _ _ (hkeyne p' i hp'0)]
    exact this

/- The pop branch that empties the head segment of a queue with more
   segments: count decremented, head pointer advanced, the emptied head
   segment written back as []; the abstract queue loses its first element. -/
theorem popAdvanceInv {α : Type} (ss buf p0 c h t : Nat) (st1 : Store α) (q1 : QMeta)
    (x : α)
    (hss : 1 ≤ ss)
    (hInv1 : StInv ss buf st1)
    (hlq1 : alookup st1.md.queues p0 = some q1)
    (hq1c : q1.count = some c) (hq1h : q1.head_segment = some h)
    (hq1t : q1.tail_segment = some t)
    (hnr : inRangeB (getOffloadedRange st1.md p0) h = false)
    (hrng : getOffloadedRange st1.md p0 = none ∨
      ∃ bb, getOffloadedRange st1.md p0 = some (h + buf + 1, bb))
    (hsegh : alookup st1.segs (p0, h) = some [x])
    (hlt : h < t) :
    StInv ss buf
      { st1 with
        md := setSegmentPointers (setQueueCount st1.md p0 (c - 1)) p0 (h + 1) t,
        segs := aset st1.segs (p0, h) [] } ∧
    absQueue st1 p0 =
      x :: absQueue { st1 with
        md := setSegmentPointers (setQueueCount st1.md p0 (c - 1)) p0 (h + 1) t,
        segs := aset st1.segs (p0, h) [] } p0 ∧
    (∀ p', p' ≠ p0 →
      absQueue { st1 with
        md := setSegmentPointers (setQueueCount st1.md p0 (c - 1)) p0 (h + 1) t,
        segs := aset st1.segs (p0, h) [] } p' = absQueue st1 p') ∧
    absQueue { st1 with
      md := setSegmentPointers (setQueueCount st1.md p0 (c - 1)) p0 (h + 1) t,
      segs := aset st1.segs (p0, h) [] } p0 ≠ [] := by
  obtain ⟨hconf, hnd, hrecs, habsent⟩ := hInv1
  obtain ⟨c', h', t', hq1c', hq1h', hq1t', hcpos, hht, hshape, hbfull, hres, hstale, hcnt⟩ :=
    hrecs p0 q1 hlq1
  have hcc : c' = c := Option.some.inj (hq1c'.symm.trans hq1c)
  have hhh : h' = h := Option.some.inj (hq1h'.symm.trans hq1h)
  have htt : t' = t := Option.some.inj (hq1t'.symm.trans hq1t)
  simp only [hcc, hhh, htt] at hcpos hht hshape hres hstale hcnt
  have hlq2 : alookup (setSegmentPointers (setQueueCount st1.md p0 (c - 1))
      p0 (h + 1) t).queues p0 =
      some ⟨some (c - 1), some (h + 1), some t,
        q1.head_offloaded_segment, q1.tail_offloaded_segment⟩ := by
    simp only [setSegmentPointers, setQueueCount, lookup_putQueue_self, hlq1, Option.getD_some]
  have hR2 : ∀ p', getOffloadedRange (setSegmentPointers (setQueueCount st1.md p0 (c - 1))
      p0 (h + 1) t) p' = getOffloadedRange st1.md p' := by
    intro p'
    rw [getOffloadedRange_setSegmentPointers, getOffloadedRange_setQueueCount]
  have hH2 : getHeadSegment (setSegmentPointers (setQueueCount st1.md p0 (c - 1))
      p0 (h + 1) t) p0 = h + 1 := getHeadSegment_setSegmentPointers_self _ _ _ _
  have hT2 : getTailSegment (setSegmentPointers (setQueueCount st1.md p0 (c - 1))
      p0 (h + 1) t) p0 = t := getTailSegment_setSegmentPointers_self _ _ _ _
  have hHst1 : getHeadSegment st1.md p0 = h := getHeadSegment_of_lookup hlq1 hq1h
  have hTst1 : getTailSegment st1.md p0 = t := getTailSegment_of_lookup hlq1 hq1t
  have hlookiff : ∀ p',
      alookup (setSegmentPointers (setQueueCount st1.md p0 (c - 1))
        p0 (h + 1) t).queues p' = none ↔
      alookup st1.md.queues p' = none := by
    intro p'
    by_cases hp' : p' = p0
    · subst hp'
      rw [hlq2, hlq1]
      simp
    · rw [setSegmentPointers, lookup_putQueue_ne _ _ _ _ hp', setQueueCount,
        lookup_putQueue_ne _ _ _ _ hp']
  have hkeyne : ∀ (p' i : Nat), p' ≠ p0 → ((p' : Nat), i) ≠ (p0, h) := by
    intro p' i hp' hcontr
    exact hp' (congrArg Prod.fst hcontr)
  have hresolvene : ∀ p' i, p' ≠ p0 →
      resolveSeg { st1 with
        md := setSegmentPointers (setQueueCount st1.md p0 (c - 1)) p0 (h + 1) t,
        segs := aset st1.segs (p0, h) [] } p' i = resolveSeg st1 p' i := by
    intro p' i hp'
    show (if inRangeB (getOffloadedRange (setSegmentPointers (setQueueCount st1.md p0 (c - 1))
        p0 (h + 1) t) p') i = true then alookup st1.bulk (p', i)
      else alookup (aset st1.segs (p0, h) []) (p', i)) = resolveSeg st1 p' i
    rw [hR2 p', alookup_aset_ne _ _ _ _ (hkeyne p' i hp')]
    rfl
  have hresolvep : ∀ i, i ≠ h →
      resolveSeg { st1 with
        md := setSegmentPointers (setQueueCount st1.md p0 (c - 1)) p0 (h + 1) t,
        segs := aset st1.segs (p0, h) [] } p0 i = resolveSeg st1 p0 i := by
    intro i hi
    show (if inRangeB (getOffloadedRange (setSegmentPointers (setQueueCount st1.md p0 (c - 1))
        p0 (h + 1) t) p0) i = true then alookup st1.bulk (p0, i)
      else alookup (aset st1.segs (p0, h) []) (p0, i)) = resolveSeg st1 p0 i
    rw [hR2 p0, alookup_aset_ne _ _ _ _ (by intro hcontr; exact hi (congrArg Prod.snd hcontr))]
    rfl
  have hresolveh1 : resolveSeg st1 p0 h = some [x] := by
    rw [resolveSeg, hnr]
    simp only [Bool.false_eq_true, if_false]
    exact hsegh
  have habsne : ∀ p', p' ≠ p0 →
      absQueue { st1 with
        md := setSegmentPointers (setQueueCount st1.md p0 (c - 1)) p0 (h + 1) t,
        segs := aset st1.segs (p0, h) [] } p' = absQueue st1 p' := by
    intro p' hp'
    refine absQueue_congr _ st1 p' (hlookiff p') ?_ ?_ (fun i _ _ => hresolvene p' i hp')
    · show getHeadSegment (setSegmentPointers (setQueueCount st1.md p0 (c - 1))
        p0 (h + 1) t) p' = getHeadSegment st1.md p'
      rw [getHeadSegment_setSegmentPointers_ne _ _ _ _ _ hp', getHeadSegment_setQueueCount]
    · show getTailSegment (setSegmentPointers (setQueueCount st1.md p0 (c - 1))
        p0 (h + 1) t) p' = getTailSegment st1.md p'
      rw [getTailSegment_setSegmentPointers_ne _ _ _ _ _ hp', getTailSegment_setQueueCount]
  have hdec1 : absQueue st1 p0 =
      [x] ++ segConcat (fun i => (resolveSeg st1 p0 i).getD [])
        (List.range' (h + 1) (t - h)) := by
    rw [absQueue_of_lookup st1 p0 q1 hlq1, hHst1, hTst1,
      show t + 1 - h = (t - h) + 1 from by omega, segConcat_range'_left, hresolveh1]
    rfl
  have hdec2 : absQueue { st1 with
        md := setSegmentPointers (setQueueCount st1.md p0 (c - 1)) p0 (h + 1) t,
        segs := aset st1.segs (p0, h) [] } p0 =
      segConcat (fun i => (resolveSeg st1 p0 i).getD [])
        (List.range' (h + 1) (t - h)) := by
    rw [absQueue_of_lookup _ p0 _ hlq2, hH2, hT2,
      show t + 1 - (h + 1) = t - h from by omega]
    apply segConcat_congr
    intro i hi
    rw [List.mem_range'_1] at hi
    rw [hresolvep i (by omega)]
  have habs0 : absQueue st1 p0 =
      x :: absQueue { st1 with
        md := setSegmentPointers (setQueueCount st1.md p0 (c - 1)) p0 (h + 1) t,
        segs := aset st1.segs (p0, h) [] } p0 := by
    rw [hdec1, hdec2]
    rfl
  have hTne : segConcat (fun i => (resolveSeg st1 p0 i).getD [])
      (List.range' (h + 1) (t - h)) ≠ [] := by
    rw [show t - h = (t - h - 1) + 1 from by omega, segConcat_range'_left]
    intro hcontr
    rw [List.append_eq_nil] at hcontr
    have hfirst : (resolveSeg st1 p0 (h + 1)).getD [] ≠ [] := by
      by_cases hin : inRangeB (getOffloadedRange st1.md p0) (h + 1) = true
      · obtain ⟨l, hl, hlen⟩ := hbfull (h + 1) hin
        rw [resolveSeg, hin]
        simp only [if_true, hl, Option.getD_some]
        intro hl0
        rw [hl0] at hlen
        simp at hlen
        omega
      · rw [Bool.not_eq_true] at hin
        obtain ⟨l, hl, hlne, -, -⟩ := hres (h + 1) (by omega) (by omega) hin
        rw [resolveSeg, hin]
        simp only [Bool.false_eq_true, if_false, hl, Option.getD_some]
        exact hlne
    exact hfirst hcontr.1
  have hc2 : 2 ≤ c := by
    have hlen0 : c = ([x] ++ segConcat (fun i => (resolveSeg st1 p0 i).getD [])
        (List.range' (h + 1) (t - h))).length := by rw [hcnt, hdec1]
    have hpos : 0 < (segConcat (fun i => (resolveSeg st1 p0 i).getD [])
        (List.range' (h + 1) (t - h))).length := List.length_pos.mpr hTne
    simp only [List.length_append, List.length_cons, List.length_nil] at hlen0
    omega
  refine ⟨⟨?_, ?_, ?_, ?_⟩, habs0, habsne, by rw [hdec2]; exact hTne⟩
  · show (setSegmentPointers (setQueueCount st1.md p0 (c - 1)) p0 (h + 1) t).config = ⟨ss, buf⟩
    rw [config_setSegmentPointers, config_setQueueCount]
    exact hconf
  · show ((setSegmentPointers (setQueueCount st1.md p0 (c - 1)) p0 (h + 1) t).queues.map
      Prod.fst).Nodup
    simp only [setSegmentPointers, setQueueCount, putQueue]
    exact nodup_keys_aset _ _ _ (nodup_keys_aset _ _ _ hnd)
  · intro p' q' hq'
    by_cases hp' : p' = p0
    · subst hp'
      rw [hlq2] at hq'
      have hq'' := (Option.some.inj hq').symm
      refine ⟨c - 1, h + 1, t, by rw [hq''], by rw [hq''], by rw [hq''], ?_, by omega, ?_,
        ?_, ?_, ?_, ?_⟩
      · have hlen : (absQueue st1 p').length = (x :: absQueue { st1 with
            md := setSegmentPointers (setQueueCount st1.md p' (c - 1)) p' (h + 1) t,
            segs := aset st1.segs (p', h) [] } p').length := congrArg List.length habs0
        rw [List.length_cons] at hlen
        have hpos2 : absQueue { st1 with
            md := setSegmentPointers (setQueueCount st1.md p' (c - 1)) p' (h + 1) t,
            segs := aset st1.segs (p', h) [] } p' ≠ [] := by
          rw [hdec2]
          exact hTne
        have := List.length_pos.mpr hpos2
        omega
      · rw [hq'']
        rcases hrng with hrn | ⟨bb, hrs⟩
        · rcases hshape with ⟨hn1, hn2⟩ | ⟨ho, toff, hho, hto, -, -, -, -⟩
          · exact Or.inl ⟨hn1, hn2⟩
          · have : getOffloadedRange st1.md p' = some (ho, toff) := by
              simp only [getOffloadedRange, hlq1, hho, hto]
            rw [this] at hrn
            exact absurd hrn (by simp)
        · obtain ⟨qr, hqr, hqrho, hqrto⟩ := getOffloadedRange_some_lookup hrs
          have hqq : qr = q1 := Option.some.inj (hqr.symm.trans hlq1)
          rw [hqq] at hqrho hqrto
          rcases hshape with ⟨hn1, -⟩ | ⟨ho, toff, hho, hto, -, -, hb3, hb4⟩
          · rw [hn1] at hqrho
            exact absurd hqrho (by simp)
          · have hoeq : ho = h + buf + 1 := Option.some.inj (hho.symm.trans hqrho)
            have hteq : toff = bb := Option.some.inj (hto.symm.trans hqrto)
            refine Or.inr ⟨ho, toff, hho, hto, by omega, by omega, hb3, hb4⟩
      · intro i hi
        rw [hR2 p'] at hi
        exact hbfull i hi
      · intro i hi1 hi2 hi3
        rw [hR2 p'] at hi3
        have hih : i ≠ h := by omega
        obtain ⟨l, hl, hlne, hfull, htl⟩ := hres i (by omega) hi2 hi3
        refine ⟨l, ?_, hlne, fun h1 h2 => hfull (by omega) h2, htl⟩
        show alookup (aset st1.segs (p', h) []) (p', i) = some l
        rw [alookup_aset_ne _ _ _ _
          (by intro hcontr; exact hih (congrArg Prod.snd hcontr))]
        exact hl
      · intro i hi
        by_cases hih : i = h
        · subst hih
          exact Or.inr (alookup_aset_self _ _ _)
        · show alookup (aset st1.segs (p', h) []) (p', i) = none ∨
            alookup (aset st1.segs (p', h) []) (p', i) = some []
          rw [alookup_aset_ne _ _ _ _
            (by intro hcontr; exact hih (congrArg Prod.snd hcontr))]
          exact hstale i (by omega)
      · have hlen : (absQueue st1 p').length = (x :: absQueue { st1 with
            md := setSegmentPointers (setQueueCount st1.md p' (c - 1)) p' (h + 1) t,
            segs := aset st1.segs (p', h) [] } p').length := congrArg List.length habs0
        rw [List.length_cons] at hlen
        omega
    · have hq'1 : alookup st1.md.queues p' = some q' := by
        rw [← hq', setSegmentPointers, lookup_putQueue_ne _ _ _ _ hp', setQueueCount,
          lookup_putQueue_ne _ _ _ _ hp']
      refine QInv_transport ss buf p' _ st1 q' (hR2 p') ?_ (fun i => rfl) (habsne p' hp')
        (hrecs p' q' hq'1)
      intro i
      exact alookup_aset_ne _ _ _ _ (hkeyne p' i hp')
  · intro p' hp'
    have hp'0 : p' ≠ p0 := by
      intro hcontr
      subst hcontr
      rw [hlq2] at hp'
      simp at hp'
    have hnone1 : alookup st1.md.queues p' = none := (hlookiff p').mp hp'
    intro i
    have := habsent p' hnone1 i
    show alookup (aset st1.segs (p0, h) []) (p', i) = none ∨
      alookup (aset st1.segs (p0, h) []) (p', i) = some []
    rw [alookup_aset_ne _ _ _ _ (hkeyne p' i hp'0)]
    exact this

/- The pop branch that takes the last item of a single-segment queue: the
   queue record is deleted and the emptied segment written back as [];
   the abstract queue becomes empty. -/
theorem popDeleteInv {α : Type} (ss buf p0 c h : Nat) (st1 : Store α) (q1 : QMeta) (x : α)
    (hInv1 : StInv ss buf st1)
    (hlq1 : alookup st1.md.queues p0 = some q1)
    (hq1c : q1.count = some c) (hq1h : q1.head_segment = some h)
    (hq1t : q1.tail_segment = some h)
    (hnr : inRangeB (getOffloadedRange st1.md p0) h = false)
    (hsegh : alookup st1.segs (p0, h) = some [x]) :
    StInv ss buf
      { st1 with
        md := deleteQueueMetadata st1.md p0,
        segs := aset st1.segs (p0, h) [] } ∧
    absQueue st1 p0 =
      x :: absQueue { st1 with
        md := deleteQueueMetadata st1.md p0,
        segs := aset st1.segs (p0, h) [] } p0 ∧
    (∀ p', p' ≠ p0 →
      absQueue { st1 with
        md := deleteQueueMetadata st1.md p0,
        segs := aset st1.segs (p0, h) [] } p' = absQueue st1 p') ∧
    absQueue { st1 with
      md := deleteQueueMetadata st1.md p0,
      segs := aset st1.segs (p0, h) [] } p0 = [] := by
  obtain ⟨hconf, hnd, hrecs, habsent⟩ := hInv1
  obtain ⟨c', h', t', hq1c', hq1h', hq1t', hcpos, hht, hshape, hbfull, hres, hstale, hcnt⟩ :=
    hrecs p0 q1 hlq1
  have hcc : c' = c := Option.some.inj (hq1c'.symm.trans hq1c)
  have hhh : h' = h := Option.some.inj (hq1h'.symm.trans hq1h)
  have htt : t' = h := Option.some.inj (hq1t'.symm.trans hq1t)
  simp only [hcc, hhh, htt] at hcpos hht hshape hres hstale hcnt
  have hHst1 : getHeadSegment st1.md p0 = h := getHeadSegment_of_lookup hlq1 hq1h
  have hTst1 : getTailSegment st1.md p0 = h := getTailSegment_of_lookup hlq1 hq1t
  have hlqdel : alookup (deleteQueueMetadata st1.md p0).queues p0 = none :=
    lookup_deleteQueueMetadata_self _ _ hnd
  have hkeyne : ∀ (p' i : Nat), p' ≠ p0 → ((p' : Nat), i) ≠ (p0, h) := by
    intro p' i hp' hcontr
    exact hp' (congrArg Prod.fst hcontr)
  have habsp0 : absQueue { st1 with
      md := deleteQueueMetadata st1.md p0,
      segs := aset st1.segs (p0, h) [] } p0 = [] := absQueue_of_none _ _ hlqdel
  have hresolveh1 : resolveSeg st1 p0 h = some [x] := by
    rw [resolveSeg, hnr]
    simp only [Bool.false_eq_true, if_false]
    exact hsegh
  have hdec1 : absQueue st1 p0 = [x] := by
    rw [absQueue_of_lookup st1 p0 q1 hlq1, hHst1, hTst1,
      show h + 1 - h = 0 + 1 from by omega, segConcat_range'_left, hresolveh1]
    rfl
  have habs0 : absQueue st1 p0 =
      x :: absQueue { st1 with
        md := deleteQueueMetadata st1.md p0,
        segs := aset st1.segs (p0, h) [] } p0 := by
    rw [hdec1, habsp0]
  have habsne : ∀ p', p' ≠ p0 →
      absQueue { st1 with
        md := deleteQueueMetadata st1.md p0,
        segs := aset st1.segs (p0, h) [] } p' = absQueue st1 p' := by
    intro p' hp'
    refine absQueue_congr _ st1 p' ?_ ?_ ?_ ?_
    · show alookup (deleteQueueMetadata st1.md p0).queues p' = none ↔
        alookup st1.md.queues p' = none
      rw [lookup_deleteQueueMetadata_ne _ _ _ hp']
    · exact getHeadSegment_deleteQueueMetadata_ne _ _ _ hp'
    · exact getTailSegment_deleteQueueMetadata_ne _ _ _ hp'
    · intro i _ _
      show (if inRangeB (getOffloadedRange (deleteQueueMetadata st1.md p0) p') i = true then
          alookup st1.bulk (p', i)
        else alookup (aset st1.segs (p0, h) []) (p', i)) = resolveSeg st1 p' i
      rw [getOffloadedRange_deleteQueueMetadata_ne _ _ _ hp',
        alookup_aset_ne _ _ _ _ (hkeyne p' i hp')]
      rfl
  refine ⟨⟨?_, ?_, ?_, ?_⟩, habs0, habsne, habsp0⟩
  · show (deleteQueueMetadata st1.md p0).config = ⟨ss, buf⟩
    rw [config_deleteQueueMetadata]
    exact hconf
  · show ((deleteQueueMetadata st1.md p0).queues.map Prod.fst).Nodup
    exact nodup_keys_aremove _ _ hnd
  · intro p' q' hq'
    have hp' : p' ≠ p0 := by
      intro hcontr
      subst hcontr
      rw [hlqdel] at hq'
      exact absurd hq' (by simp)
    have hq'1 : alookup st1.md.queues p' = some q' := by
      rw [← lookup_deleteQueueMetadata_ne st1.md p0 p' hp']
      exact hq'
    refine QInv_transport ss buf p' _ st1 q'
      (getOffloadedRange_deleteQueueMetadata_ne _ _ _ hp') ?_ (fun i => rfl)
      (habsne p' hp') (hrecs p' q' hq'1)
    intro i
    exact alookup_aset_ne _ _ _ _ (hkeyne p' i hp')
  · intro p' hp'
    by_cases hp'0 : p' = p0
    · subst hp'0
      intro i
      by_cases hih : i = h
      · subst hih
        exact Or.inr (alookup_aset_self _ _ _)
      · show alookup (aset st1.segs (p', h) []) (p', i) = none ∨
          alookup (aset st1.segs (p', h) []) (p', i) = some []
        rw [alookup_aset_ne _ _ _ _
          (by intro hcontr; exact hih (congrArg Prod.snd hcontr))]
        exact hstale i (by omega)
    · have hnone1 : alookup st1.md.queues p' = none := by
        rw [← lookup_deleteQueueMetadata_ne st1.md p0 p' hp'0]
        exact hp'
      intro i
      have := habsent p' hnone1 i
      show alookup (aset st1.segs (p0, h) []) (p', i) = none ∨
        alookup (aset st1.segs (p0, h) []) (p', i) = some []
      rw [alookup_aset_ne _ _ _ _ (hkeyne p' i hp'0)]
      exact this

theorem listMin_le {l : List Nat} : ∀ {m : Nat}, listMin l = some m → ∀ x ∈ l, m ≤ x := by
  induction l with
  | nil => intro m h; simp [listMin] at h
  | cons x xs ih =>
    intro m h y hy
    rcases hm : listMin xs with _ | m'
    · rw [listMin, hm] at h
      simp only [Option.some.injEq] at h
      have hxs : xs = [] := listMin_eq_none_iff.mp hm
      subst hxs
      rcases List.mem_cons.mp hy with h1 | h1
      · rw [← h, h1]
      · simp at h1
    · rw [listMin, hm] at h
      simp only [Option.some.injEq] at h
      rcases List.mem_cons.mp hy with h1 | h1
      · rw [← h, h1]
        exact Nat.min_le_left x m'
      · exact Nat.le_trans (h ▸ Nat.min_le_right x m') (ih hm y h1)

/- One Pop refines one specification pop: the same item (or none) is
   returned, and the refinement relation is preserved. -/
theorem pop_step {α : Type} (ss buf : Nat) (s : ActorState α) (Q : SpecQueues α)
    (hss : 1 ≤ ss) (hA : Abs ss buf s Q) :
    (Pop s).1 = (specPop Q).1 ∧ Abs ss buf (Pop s).2 (specPop Q).2 := by
  obtain ⟨md, hmd, hInv, hQI, habs⟩ := hA
  rcases hpk : priorityKeys md with _ | ⟨p0, rest⟩
  · have hno : ∀ p, alookup md.queues p = none := priorityKeys_eq_nil md hpk
    have hQnil : Q = [] := by
      rcases hQcase : Q with _ | ⟨e, Q'⟩
      · rfl
      · exfalso
        have hmeme : e ∈ Q := by
          rw [hQcase]
          exact List.mem_cons_self _ _
        obtain ⟨v, hv⟩ := exists_alookup_of_mem_keys Q e.1 (List.mem_map_of_mem Prod.fst hmeme)
        have hvne : v ≠ [] := hQI.2 (e.1, v) (alookup_mem Q e.1 v hv)
        have h0 : absQueue (Store.mk md s.segs s.bulk) e.1 = [] :=
          absQueue_of_none _ _ (hno e.1)
        rw [habs e.1, hv] at h0
        exact hvne h0
    have hPop : Pop s =
        ([], ({ metadata := some md, segs := s.segs, bulk := s.bulk } : ActorState α)) := by
      simp only [Pop, hmd, hpk, popLoop, Option.toList, Store.toActor]
    have hSpec : specPop Q = ([], Q) := by
      rw [hQnil]
      rfl
    rw [hPop, hSpec]
    exact ⟨rfl, md, rfl, hInv, hQI, habs⟩
  · have hp0pk : p0 ∈ priorityKeys md := by
      rw [hpk]
      exact List.mem_cons_self _ _
    obtain ⟨q0, hq0⟩ :=
      exists_alookup_of_mem_keys md.queues p0 ((mem_priorityKeys md p0).mp hp0pk)
    obtain ⟨hconf0, hnd0, hrecs0, habsent0⟩ := hInv
    obtain ⟨c, h, t, hq0c, hq0h, hq0t, hcpos, hht0, hshape0, hbfull0, hres0, hstale0, hcnt0⟩ :=
      hrecs0 p0 q0 hq0
    have hInv' : StInv ss buf (Store.mk md s.segs s.bulk) := ⟨hconf0, hnd0, hrecs0, habsent0⟩
    obtain ⟨hInv1, habs1, hget1, hrng1, hfin1⟩ :=
      checkAndLoadSegmentsInv ss buf p0 (Store.mk md s.segs s.bulk) hss hInv'
    have hgc0 : getQueueCount (Store.mk md s.segs s.bulk : Store α).md p0 = c :=
      getQueueCount_of_lookup hq0 hq0c
    have hH0 : getHeadSegment (Store.mk md s.segs s.bulk : Store α).md p0 = h :=
      getHeadSegment_of_lookup hq0 hq0h
    have hT0 : getTailSegment (Store.mk md s.segs s.bulk : Store α).md p0 = t :=
      getTailSegment_of_lookup hq0 hq0t
    have hH1 : getHeadSegment (checkAndLoadSegments (Store.mk md s.segs s.bulk) p0).md p0 = h :=
      (hget1 p0).2.1.trans hH0
    have hT1 : getTailSegment (checkAndLoadSegments (Store.mk md s.segs s.bulk) p0).md p0 = t :=
      (hget1 p0).2.2.trans hT0
    have hC1 : getQueueCount (checkAndLoadSegments (Store.mk md s.segs s.bulk) p0).md p0 = c :=
      (hget1 p0).1.trans hgc0
    rcases hlq1 : alookup (checkAndLoadSegments (Store.mk md s.segs s.bulk) p0).md.queues p0
      with _ | q1
    · exfalso
      have h0 : getQueueCount (checkAndLoadSegments (Store.mk md s.segs s.bulk) p0).md p0 =
          0 := by
        simp [getQueueCount, hlq1]
      omega
    obtain ⟨hconf1, hnd1, hrecs1, habsent1⟩ := hInv1
    have hInv1' : StInv ss buf (checkAndLoadSegments (Store.mk md s.segs s.bulk) p0) :=
      ⟨hconf1, hnd1, hrecs1, habsent1⟩
    obtain ⟨c1, h1, t1, hq1c, hq1h, hq1t, hc1pos, hht1, hshape1, hbfull1, hres1, hstale1,
      hcnt1⟩ := hrecs1 p0 q1 hlq1
    have hc1c : c1 = c := by
      have h0 := getQueueCount_of_lookup hlq1 hq1c
      omega
    have hh1h : h1 = h := by
      have h0 := getHeadSegment_of_lookup hlq1 hq1h
      omega
    have ht1t : t1 = t := by
      have h0 := getTailSegment_of_lookup hlq1 hq1t
      omega
    rw [hc1c] at hq1c
    rw [hh1h] at hq1h
    rw [ht1t] at hq1t
    simp only [hh1h, ht1t] at hshape1 hres1
    have hnr : inRangeB (getOffloadedRange
        (checkAndLoadSegments (Store.mk md s.segs s.bulk) p0).md p0) h = false := by
      rcases hfin1 with hnone | ⟨a', b', hsome, hgt⟩
      · rw [hnone]
        rfl
      · rw [hH0] at hgt
        rw [hsome]
        simp only [inRangeB]
        have hna : ¬ a' ≤ h := by omega
        simp [hna]
    obtain ⟨lh, hlh, hlhne, -, -⟩ := hres1 h (Nat.le_refl h) hht0 hnr
    rcases lh with _ | ⟨x, seg⟩
    · exact absurd rfl hlhne
    have hrng : getOffloadedRange (checkAndLoadSegments (Store.mk md s.segs s.bulk) p0).md
        p0 = none ∨ ∃ bb, getOffloadedRange
        (checkAndLoadSegments (Store.mk md s.segs s.bulk) p0).md p0 =
        some (h + buf + 1, bb) := by
      rcases hfin1 with hnone | ⟨a', b', hsome, hgt⟩
      · exact Or.inl hnone
      · rw [hH0] at hgt
        obtain ⟨qr, hqr, hqrho, hqrto⟩ := getOffloadedRange_some_lookup hsome
        have hqq : qr = q1 := Option.some.inj (hqr.symm.trans hlq1)
        rw [hqq] at hqrho hqrto
        rcases hshape1 with ⟨hn1, -⟩ | ⟨ho, toff, hho, hto, hb1, hb2, -, -⟩
        · rw [hn1] at hqrho
          exact absurd hqrho (by simp)
        · have hoeq : ho = a' := Option.some.inj (hho.symm.trans hqrho)
          have haeq : a' = h + buf + 1 := by omega
          refine Or.inr ⟨b', ?_⟩
          rw [hsome, haeq]
    have habs10 : absQueue (checkAndLoadSegments (Store.mk md s.segs s.bulk) p0) p0 =
        absQueue (Store.mk md s.segs s.bulk) p0 := habs1 p0
    have hQl : alookup Q p0 = some (absQueue (Store.mk md s.segs s.bulk) p0) := by
      rcases hv : alookup Q p0 with _ | v
      · exfalso
        have h0 := habs p0
        rw [hv] at h0
        simp only [Option.getD_none] at h0
        rw [h0] at hcnt0
        simp at hcnt0
        omega
      · have h0 := habs p0
        rw [hv] at h0
        simp only [Option.getD_some] at h0
        rw [h0]
    have hQkeys : p0 ∈ Q.map Prod.fst := by
      by_contra h0
      rw [← alookup_eq_none_iff] at h0
      rw [h0] at hQl
      exact absurd hQl (by simp)
    have hmin : listMin (Q.map Prod.fst) = some p0 := by
      obtain ⟨m', hm'⟩ := listMin_isSome
        (show Q.map Prod.fst ≠ [] from by
          intro h0
          rw [h0] at hQkeys
          simp at hQkeys)
      have hle1 : m' ≤ p0 := listMin_le hm' p0 hQkeys
      obtain ⟨v', hv'⟩ := exists_alookup_of_mem_keys Q m' (listMin_mem hm')
      have hv'ne : v' ≠ [] := hQI.2 (m', v') (alookup_mem Q m' v' hv')
      have habs' : absQueue (Store.mk md s.segs s.bulk) m' ≠ [] := by
        rw [habs m', hv']
        exact hv'ne
      have hrec' : alookup md.queues m' ≠ none := by
        intro h0
        exact habs' (absQueue_of_none _ _ h0)
      have hm'keys : m' ∈ md.queues.map Prod.fst := by
        by_contra h0
        exact hrec' ((alookup_eq_none_iff _ _).mpr h0)
      have hge : p0 ≤ m' :=
        priorityKeys_head_le md p0 rest hpk m' ((mem_priorityKeys md m').mpr hm'keys)
      have heq : m' = p0 := Nat.le_antisymm hle1 hge
      rw [← heq]
      exact hm'
    have hne0 : ¬ c = 0 := by omega
    rcases seg with _ | ⟨y, more⟩
    · by_cases hhlt : h < t
      · obtain ⟨hInv2, habs0, habsne, habsY0⟩ :=
          popAdvanceInv ss buf p0 c h t (checkAndLoadSegments (Store.mk md s.segs s.bulk) p0)
            q1 x hss hInv1' hlq1 hq1c hq1h hq1t hnr hrng hlh hhlt
        rcases habsY : absQueue { checkAndLoadSegments (Store.mk md s.segs s.bulk) p0 with
            md := setSegmentPointers (setQueueCount
              (checkAndLoadSegments (Store.mk md s.segs s.bulk) p0).md p0 (c - 1))
              p0 (h + 1) t,
            segs := aset (checkAndLoadSegments (Store.mk md s.segs s.bulk) p0).segs
              (p0, h) [] } p0 with _ | ⟨y', W'⟩
        · exact absurd habsY habsY0
        have hst0x : absQueue (Store.mk md s.segs s.bulk) p0 = x :: y' :: W' := by
          rw [← habs10, habs0, habsY]
        have hQlx : alookup Q p0 = some (x :: y' :: W') := by
          rw [hQl, hst0x]
        have hpoploop : popLoop (Store.mk md s.segs s.bulk) (p0 :: rest) =
            (some x, { checkAndLoadSegments (Store.mk md s.segs s.bulk) p0 with
              md := setSegmentPointers (setQueueCount
                (checkAndLoadSegments (Store.mk md s.segs s.bulk) p0).md p0 (c - 1))
                p0 (h + 1) t,
              segs := aset (checkAndLoadSegments (Store.mk md s.segs s.bulk) p0).segs
                (p0, h) [] }) := by
          simp only [popLoop, hgc0, hne0, if_false, hH1, hT1, hlh, hC1, hhlt, if_true]
        have hPop : Pop s = ([x],
            ({ metadata := some (setSegmentPointers (setQueueCount (checkAndLoadSegments (Store.mk md s.segs s.bulk) p0).md p0 (c - 1)) p0 (h + 1) t),
               segs := aset (checkAndLoadSegments (Store.mk md s.segs s.bulk) p0).segs (p0, h) [],
               bulk := (checkAndLoadSegments (Store.mk md s.segs s.bulk) p0).bulk } :
              ActorState α)) := by
          simp only [Pop, hmd, hpk, hpoploop, Option.toList, Store.toActor]
        have hSpec : specPop Q = ([x], aset Q p0 (y' :: W')) := by
          simp only [specPop, hmin, hQlx]
        rw [hPop, hSpec]
        refine ⟨rfl, setSegmentPointers (setQueueCount
          (checkAndLoadSegments (Store.mk md s.segs s.bulk) p0).md p0 (c - 1))
          p0 (h + 1) t, rfl, hInv2, ?_, ?_⟩
        · refine ⟨nodup_keys_aset _ _ _ hQI.1, ?_⟩
          intro e he
          rcases mem_aset_elim Q p0 (y' :: W') e he with h1 | h1
          · exact hQI.2 e h1
          · rw [h1]
            simp
        · intro p
          by_cases hp : p = p0
          · subst hp
            rw [alookup_aset_self]
            exact habsY
          · rw [alookup_aset_ne _ _ _ _ hp]
            rw [habsne p hp, habs1 p]
            exact habs p
      · have hteq : t = h := by omega
        rw [hteq] at hq1t
        obtain ⟨hInv2, habs0, habsne, habsZ⟩ :=
          popDeleteInv ss buf p0 c h (checkAndLoadSegments (Store.mk md s.segs s.bulk) p0)
            q1 x hInv1' hlq1 hq1c hq1h hq1t hnr hlh
        have hst0x : absQueue (Store.mk md s.segs s.bulk) p0 = [x] := by
          rw [← habs10, habs0, habsZ]
        have hQlx : alookup Q p0 = some [x] := by
          rw [hQl, hst0x]
        have hpoploop : popLoop (Store.mk md s.segs s.bulk) (p0 :: rest) =
            (some x, { checkAndLoadSegments (Store.mk md s.segs s.bulk) p0 with
              md := deleteQueueMetadata
                (checkAndLoadSegments (Store.mk md s.segs s.bulk) p0).md p0,
              segs := aset (checkAndLoadSegments (Store.mk md s.segs s.bulk) p0).segs
                (p0, h) [] }) := by
          simp only [popLoop, hgc0, hne0, if_false, hH1, hT1, hlh, hC1, hhlt]
        have hPop : Pop s = ([x],
            ({ metadata := some (deleteQueueMetadata (checkAndLoadSegments (Store.mk md s.segs s.bulk) p0).md p0),
               segs := aset (checkAndLoadSegments (Store.mk md s.segs s.bulk) p0).segs (p0, h) [],
               bulk := (checkAndLoadSegments (Store.mk md s.segs s.bulk) p0).bulk } :
              ActorState α)) := by
          simp only [Pop, hmd, hpk, hpoploop, Option.toList, Store.toActor]
        have hSpec : specPop Q = ([x], aremove Q p0) := by
          simp only [specPop, hmin, hQlx]
        rw [hPop, hSpec]
        refine ⟨rfl, deleteQueueMetadata
          (checkAndLoadSegments (Store.mk md s.segs s.bulk) p0).md p0, rfl, hInv2, ?_, ?_⟩
        · exact ⟨nodup_keys_aremove _ _ hQI.1, fun e he => hQI.2 e (mem_aremove _ _ e he)⟩
        · intro p
          by_cases hp : p = p0
          · subst hp
            rw [alookup_aremove_self _ _ hQI.1]
            exact habsZ
          · rw [alookup_aremove_ne _ _ _ hp]
            rw [habsne p hp, habs1 p]
            exact habs p
    · obtain ⟨hInv2, habs0, habsne, habsY0⟩ :=
        popHeadTakeInv ss buf p0 c h t (checkAndLoadSegments (Store.mk md s.segs s.bulk) p0)
          q1 x (y :: more) hInv1' hlq1 hq1c hq1h hq1t hnr hlh (by simp)
      rcases habsY : absQueue { checkAndLoadSegments (Store.mk md s.segs s.bulk) p0 with
          md := setSegmentPointers (setQueueCount
            (checkAndLoadSegments (Store.mk md s.segs s.bulk) p0).md p0 (c - 1)) p0 h t,
          segs := aset (checkAndLoadSegments (Store.mk md s.segs s.bulk) p0).segs
            (p0, h) (y :: more) } p0 with _ | ⟨y', W'⟩
      · exact absurd habsY habsY0
      have hst0x : absQueue (Store.mk md s.segs s.bulk) p0 = x :: y' :: W' := by
        rw [← habs10, habs0, habsY]
      have hQlx : alookup Q p0 = some (x :: y' :: W') := by
        rw [hQl, hst0x]
      have hpoploop : popLoop (Store.mk md s.segs s.bulk) (p0 :: rest) =
          (some x, { checkAndLoadSegments (Store.mk md s.segs s.bulk) p0 with
            md := setSegmentPointers (setQueueCount
              (checkAndLoadSegments (Store.mk md s.segs s.bulk) p0).md p0 (c - 1)) p0 h t,
            segs := aset (checkAndLoadSegments (Store.mk md s.segs s.bulk) p0).segs
              (p0, h) (y :: more) }) := by
        simp only [popLoop, hgc0, hne0, if_false, hH1, hT1, hlh, hC1]
      have hPop : Pop s = ([x],
          ({ metadata := some (setSegmentPointers (setQueueCount (checkAndLoadSegments (Store.mk md s.segs s.bulk) p0).md p0 (c - 1)) p0 h t),
             segs := aset (checkAndLoadSegments (Store.mk md s.segs s.bulk) p0).segs (p0, h) (y :: more),
             bulk := (checkAndLoadSegments (Store.mk md s.segs s.bulk) p0).bulk } :
            ActorState α)) := by
        simp only [Pop, hmd, hpk, hpoploop, Option.toList, Store.toActor]
      have hSpec : specPop Q = ([x], aset Q p0 (y' :: W')) := by
        simp only [specPop, hmin, hQlx]
      rw [hPop, hSpec]
      refine ⟨rfl, setSegmentPointers (setQueueCount
        (checkAndLoadSegments (Store.mk md s.segs s.bulk) p0).md p0 (c - 1)) p0 h t, rfl,
        hInv2, ?_, ?_⟩
      · refine ⟨nodup_keys_aset _ _ _ hQI.1, ?_⟩
        intro e he
        rcases mem_aset_elim Q p0 (y' :: W') e he with h1 | h1
        · exact hQI.2 e h1
        · rw [h1]
          simp
      · intro p
        by_cases hp : p = p0
        · subst hp
          rw [alookup_aset_self]
          exact habsY
        · rw [alookup_aset_ne _ _ _ _ hp]
          rw [habsne p hp, habs1 p]
          exact habs p

/- A freshly activated instance refines the empty specification queues. -/
theorem abs_init {α : Type} (ss buf : Nat) :
    Abs ss buf (initState ss buf : ActorState α) [] := by
  refine ⟨{ config := { segment_size := ss, buffer_segments := buf }, queues := [] }, rfl,
    ⟨rfl, List.nodup_nil, ?_, ?_⟩, ⟨List.nodup_nil, ?_⟩, ?_⟩
  · intro p q hq
    exact absurd hq (by simp [alookup])
  · intro p _ i
    exact Or.inl rfl
  · intro e he
    exact absurd he (by simp)
  · intro p
    exact absQueue_of_none _ _ rfl

/- Every run of Push and Pop operations from a refinement-related pair
   produces exactly the Pop outputs of the specification model. -/
theorem run_refines {α : Type} (ss buf : Nat) (hss : 1 ≤ ss) :
    ∀ (ops : List (Op α)) (s : ActorState α) (Q : SpecQueues α),
    Abs ss buf s Q → run s ops = specRun Q ops := by
  intro ops
  induction ops with
  | nil =>
    intro s Q hA
    rfl
  | cons op rest ih =>
    intro s Q hA
    cases op with
    | push x p =>
      show run (Push s x p).2 rest = specRun (specPush Q x p) rest
      exact ih (Push s x p).2 (specPush Q x p) (push_step ss buf s Q x p hss hA)
    | pop =>
      obtain ⟨h1, h2⟩ := pop_step ss buf s Q hss hA
      show (Pop s).1 :: run (Pop s).2 rest = (specPop Q).1 :: specRun (specPop Q).2 rest
      rw [h1, ih (Pop s).2 (specPop Q).2 h2]

/- None of the queue-record helpers reads or writes `_active_lock`:
   they all commute with replacing it. -/

theorem setQueueCount_lock_comm {α : Type} (m : Metadata α) (l : Option (ALock α)) (p c : Nat) :
    setQueueCount { m with active_lock := l } p c =
      { setQueueCount m p c with active_lock := l } := rfl

theorem setSegmentPointers_lock_comm {α : Type} (m : Metadata α) (l : Option (ALock α))
    (p h t : Nat) :
    setSegmentPointers { m with active_lock := l } p h t =
      { setSegmentPointers m p h t with active_lock := l } := rfl

theorem deleteQueueMetadata_lock_comm {α : Type} (m : Metadata α) (l : Option (ALock α))
    (p : Nat) :
    deleteQueueMetadata { m with active_lock := l } p =
      { deleteQueueMetadata m p with active_lock := l } := rfl

theorem removeOffloadedSegment_lock_comm {α : Type} (m : Metadata α) (l : Option (ALock α))
    (p n : Nat) :
    removeOffloadedSegment { m with active_lock := l } p n =
      { removeOffloadedSegment m p n with active_lock := l } := by
  rcases hr : getOffloadedRange m p with _ | ⟨a, b⟩
  · have hr' : getOffloadedRange { m with active_lock := l } p = none := hr
    rw [removeOffloadedSegment_eq_of_none _ p n hr',
      removeOffloadedSegment_eq_of_none _ p n hr]
  · have hr' : getOffloadedRange { m with active_lock := l } p = some (a, b) := hr
    rw [removeOffloadedSegment_eq_of_some _ p n a b hr',
      removeOffloadedSegment_eq_of_some _ p n a b hr]
    by_cases hn : n = a
    · by_cases hab : a = b <;> simp [hn, hab, putQueue]
    · simp [hn]

theorem loadOffloadedSegment_withLock {α : Type} (st : Store α) (l : Option (ALock α))
    (p n : Nat) :
    (loadOffloadedSegment (st.withLock l) p n).1 = (loadOffloadedSegment st p n).1 ∧
    (loadOffloadedSegment (st.withLock l) p n).2 = (loadOffloadedSegment st p n).2.withLock l := by
  rcases hb : alookup st.bulk (p, n) with _ | d
  · constructor <;> simp [loadOffloadedSegment, Store.withLock, hb]
  · rcases d with _ | ⟨x, xs⟩
    · constructor <;> simp [loadOffloadedSegment, Store.withLock, hb]
    · constructor <;>
        simp [loadOffloadedSegment, Store.withLock, hb, removeOffloadedSegment_lock_comm]

theorem loadLoop_withLock {α : Type} (p maxOff : Nat) (l : Option (ALock α)) (L : List Nat) :
    ∀ st : Store α, loadLoop p maxOff (st.withLock l) L = (loadLoop p maxOff st L).withLock l := by
  induction L with
  | nil => intro st; rfl
  | cons n rest ih =>
    intro st
    by_cases hn : n ≤ maxOff
    · simp only [loadLoop, hn, if_true]
      rw [(loadOffloadedSegment_withLock st l p n).2, ih]
    · simp [loadLoop, hn]

theorem checkAndLoadSegments_withLock {α : Type} (st : Store α) (l : Option (ALock α))
    (p : Nat) :
    checkAndLoadSegments (st.withLock l) p = (checkAndLoadSegments st p).withLock l := by
  rcases hr : getOffloadedRange st.md p with _ | ⟨ho, toff⟩
  · have hr' : getOffloadedRange (st.withLock l).md p = none := hr
    simp only [checkAndLoadSegments, hr', hr]
  · have hr' : getOffloadedRange (st.withLock l).md p = some (ho, toff) := hr
    simp only [checkAndLoadSegments, hr', hr]
    exact loadLoop_withLock _ _ _ _ st

theorem store_delete_withLock {α : Type} (X : Store α) (l : Option (ALock α)) (p : Nat) :
    ({ X.withLock l with md := deleteQueueMetadata (X.withLock l).md p } : Store α) =
      ({ X with md := deleteQueueMetadata X.md p } : Store α).withLock l := by
  show ({ X.withLock l with md := deleteQueueMetadata { X.md with active_lock := l } p } :
      Store α) = _
  rw [deleteQueueMetadata_lock_comm]
  rfl

theorem popLoop_withLock {α : Type} (l : Option (ALock α)) (keys : List Nat) :
    ∀ st : Store α,
      (popLoop (st.withLock l) keys).1 = (popLoop st keys).1 ∧
      (popLoop (st.withLock l) keys).2 = (popLoop st keys).2.withLock l := by
  induction keys with
  | nil => intro st; exact ⟨rfl, rfl⟩
  | cons p rest ih =>
    intro st
    by_cases h0 : getQueueCount st.md p = 0
    · have h0' : getQueueCount (st.withLock l).md p = 0 := h0
      have e1 : popLoop (st.withLock l) (p :: rest) = popLoop (st.withLock l) rest := by
        simp only [popLoop, h0', if_true]
      have e2 : popLoop st (p :: rest) = popLoop st rest := by
        simp only [popLoop, h0, if_true]
      rw [e1, e2]
      exact ih st
    · have h0' : ¬ getQueueCount (st.withLock l).md p = 0 := h0
      have hcls : checkAndLoadSegments (st.withLock l) p =
          (checkAndLoadSegments st p).withLock l := checkAndLoadSegments_withLock st l p
      rcases hl : alookup (checkAndLoadSegments st p).segs
          (p, getHeadSegment (checkAndLoadSegments st p).md p) with _ | seg
      · have hl' : alookup ((checkAndLoadSegments st p).withLock l).segs
            (p, getHeadSegment ((checkAndLoadSegments st p).withLock l).md p) = none := hl
        have e1 : popLoop (st.withLock l) (p :: rest) =
            popLoop ({ (checkAndLoadSegments st p).withLock l with
              md := deleteQueueMetadata ((checkAndLoadSegments st p).withLock l).md p }) rest := by
          simp only [popLoop, h0', if_false, hcls, hl']
        have e2 : popLoop st (p :: rest) =
            popLoop ({ checkAndLoadSegments st p with
              md := deleteQueueMetadata (checkAndLoadSegments st p).md p }) rest := by
          simp only [popLoop, h0, if_false, hl]
        rw [e1, e2, store_delete_withLock]
        exact ih _
      · rcases seg with _ | ⟨x, xs⟩
        · have hl' : alookup ((checkAndLoadSegments st p).withLock l).segs
              (p, getHeadSegment ((checkAndLoadSegments st p).withLock l).md p) = some [] := hl
          have e1 : popLoop (st.withLock l) (p :: rest) =
              popLoop ({ (checkAndLoadSegments st p).withLock l with
                md := deleteQueueMetadata ((checkAndLoadSegments st p).withLock l).md p }) rest := by
            simp only [popLoop, h0', if_false, hcls, hl']
          have e2 : popLoop st (p :: rest) =
              popLoop ({ checkAndLoadSegments st p with
                md := deleteQueueMetadata (checkAndLoadSegments st p).md p }) rest := by
            simp only [popLoop, h0, if_false, hl]
          rw [e1, e2, store_delete_withLock]
          exact ih _
        · rcases xs with _ | ⟨y, ys⟩
          · have hl' : alookup ((checkAndLoadSegments st p).withLock l).segs
                (p, getHeadSegment ((checkAndLoadSegments st p).withLock l).md p) =
                some [x] := hl
            constructor
            · simp only [popLoop, h0', h0, if_false, hcls, hl', hl]
              by_cases hht : getHeadSegment (checkAndLoadSegments st p).md p <
                  getTailSegment (checkAndLoadSegments st p).md p
              · have hht' : getHeadSegment ((checkAndLoadSegments st p).withLock l).md p <
                    getTailSegment ((checkAndLoadSegments st p).withLock l).md p := hht
                simp only [hht, hht', if_true]
              · have hht' : ¬ getHeadSegment ((checkAndLoadSegments st p).withLock l).md p <
                    getTailSegment ((checkAndLoadSegments st p).withLock l).md p := hht
                simp only [hht, hht', if_false]
            · simp only [popLoop, h0', h0, if_false, hcls, hl', hl]
              by_cases hht : getHeadSegment (checkAndLoadSegments st p).md p <
                  getTailSegment (checkAndLoadSegments st p).md p
              · have hht' : getHeadSegment ((checkAndLoadSegments st p).withLock l).md p <
                    getTailSegment ((checkAndLoadSegments st p).withLock l).md p := hht
                simp only [hht, hht', if_true]
                show ({ (checkAndLoadSegments st p).withLock l with
                    md := setSegmentPointers
                      (setQueueCount { (checkAndLoadSegments st p).md with active_lock := l } p
                        (getQueueCount { (checkAndLoadSegments st p).md with active_lock := l } p - 1))
                      p (getHeadSegment (checkAndLoadSegments st p).md p + 1)
                      (getTailSegment (checkAndLoadSegments st p).md p),
                    segs := aset (checkAndLoadSegments st p).segs
                      (p, getHeadSegment (checkAndLoadSegments st p).md p) [] } : Store α) = _
                rw [setQueueCount_lock_comm, setSegmentPointers_lock_comm]
                rfl
              · have hht' : ¬ getHeadSegment ((checkAndLoadSegments st p).withLock l).md p <
                    getTailSegment ((checkAndLoadSegments st p).withLock l).md p := hht
                simp only [hht, hht', if_false]
                show ({ (checkAndLoadSegments st p).withLock l with
                    md := deleteQueueMetadata
                      { (checkAndLoadSegments st p).md with active_lock := l } p,
                    segs := aset (checkAndLoadSegments st p).segs
                      (p, getHeadSegment (checkAndLoadSegments st p).md p) [] } : Store α) = _
                rw [deleteQueueMetadata_lock_comm]
                rfl
          · have hl' : alookup ((checkAndLoadSegments st p).withLock l).segs
                (p, getHeadSegment ((checkAndLoadSegments st p).withLock l).md p) =
                some (x :: y :: ys) := hl
            constructor
            · simp only [popLoop, h0', h0, if_false, hcls, hl', hl]
            · simp only [popLoop, h0', h0, if_false, hcls, hl', hl]
              show ({ (checkAndLoadSegments st p).withLock l with
                  md := setSegmentPointers
                    (setQueueCount { (checkAndLoadSegments st p).md with active_lock := l } p
                      (getQueueCount { (checkAndLoadSegments st p).md with active_lock := l } p - 1))
                    p (getHeadSegment (checkAndLoadSegments st p).md p)
                    (getTailSegment (checkAndLoadSegments st p).md p),
                  segs := aset (checkAndLoadSegments st p).segs
                    (p, getHeadSegment (checkAndLoadSegments st p).md p) (y :: ys) } : Store α) = _
              rw [setQueueCount_lock_comm, setSegmentPointers_lock_comm]
              rfl

/- Pointwise characterization of the offload loop: a key of priority p is
   moved from the resident map to the bulk store exactly when it is a
   candidate, outside the captured range, resident and exactly full; all
   other keys are untouched. -/
theorem offloadLoop_lookup {α : Type} (p : Nat) (R : Option (Nat × Nat)) (ss : Nat)
    (L : List Nat) :
    ∀ st : Store α, L.Nodup → (st.segs.map Prod.fst).Nodup →
    ∀ k1 k2 : Nat,
      (alookup (offloadLoop p R ss st L).bulk (k1, k2) =
        if k1 = p ∧ k2 ∈ L ∧ offloadEligibleB st.segs R ss p k2 = true
        then alookup st.segs (p, k2) else alookup st.bulk (k1, k2))
      ∧ (alookup (offloadLoop p R ss st L).segs (k1, k2) =
        if k1 = p ∧ k2 ∈ L ∧ offloadEligibleB st.segs R ss p k2 = true
        then none else alookup st.segs (k1, k2)) := by
  induction L with
  | nil =>
    intro st _ _ k1 k2
    constructor <;> simp [offloadLoop]
  | cons n rest ih =>
    intro st hnd hsegnd k1 k2
    have hnr : n ∉ rest := (List.nodup_cons.mp hnd).1
    have hndr : rest.Nodup := (List.nodup_cons.mp hnd).2
    cases hr : inRangeB R n
    case true =>
      have hstep : offloadLoop p R ss st (n :: rest) = offloadLoop p R ss st rest := by
        simp [offloadLoop, hr]
      have hiff : (k1 = p ∧ k2 ∈ n :: rest ∧ offloadEligibleB st.segs R ss p k2 = true) ↔
          (k1 = p ∧ k2 ∈ rest ∧ offloadEligibleB st.segs R ss p k2 = true) := by
        constructor
        · rintro ⟨h1, h2, h3⟩
          rcases List.mem_cons.mp h2 with h2' | h2'
          · subst h2'
            simp [offloadEligibleB, hr] at h3
          · exact ⟨h1, h2', h3⟩
        · rintro ⟨h1, h2, h3⟩
          exact ⟨h1, List.mem_cons_of_mem _ h2, h3⟩
      obtain ⟨hb, hs⟩ := ih st hndr hsegnd k1 k2
      rw [hstep]
      constructor
      · rw [hb, if_congr hiff rfl rfl]
      · rw [hs, if_congr hiff rfl rfl]
    case false =>
      rcases hseg : alookup st.segs (p, n) with _ | l
      · -- not resident: skipped
        have hstep : offloadLoop p R ss st (n :: rest) = offloadLoop p R ss st rest := by
          simp [offloadLoop, hr, hseg]
        have hiff : (k1 = p ∧ k2 ∈ n :: rest ∧ offloadEligibleB st.segs R ss p k2 = true) ↔
            (k1 = p ∧ k2 ∈ rest ∧ offloadEligibleB st.segs R ss p k2 = true) := by
          constructor
          · rintro ⟨h1, h2, h3⟩
            rcases List.mem_cons.mp h2 with h2' | h2'
            · subst h2'
              simp [offloadEligibleB, hseg, fullSeg] at h3
            · exact ⟨h1, h2', h3⟩
          · rintro ⟨h1, h2, h3⟩
            exact ⟨h1, List.mem_cons_of_mem _ h2, h3⟩
        obtain ⟨hb, hs⟩ := ih st hndr hsegnd k1 k2
        rw [hstep]
        constructor
        · rw [hb, if_congr hiff rfl rfl]
        · rw [hs, if_congr hiff rfl rfl]
      · by_cases hfull : l.length = ss
        · -- offloaded
          have hstep : offloadLoop p R ss st (n :: rest) =
              offloadLoop p R ss (offloadSegment st p n l) rest := by
            simp [offloadLoop, hr, hseg, hfull]
          have hsegnd' : ((offloadSegment st p n l).segs.map Prod.fst).Nodup :=
            nodup_keys_aremove _ _ hsegnd
          obtain ⟨hb, hs⟩ := ih (offloadSegment st p n l) hndr hsegnd' k1 k2
          rw [hstep]
          by_cases hk2 : k2 = n
          · subst hk2
            by_cases hk1 : k1 = p
            · subst hk1
              have hcondrest : ¬ (k1 = k1 ∧ k2 ∈ rest ∧
                  offloadEligibleB (offloadSegment st k1 k2 l).segs R ss k1 k2 = true) := by
                rintro ⟨-, h2, -⟩
                exact hnr h2
              have hcondL : (k1 = k1 ∧ k2 ∈ k2 :: rest ∧
                  offloadEligibleB st.segs R ss k1 k2 = true) := by
                refine ⟨rfl, List.mem_cons_self _ _, ?_⟩
                simp [offloadEligibleB, hr, hseg, fullSeg, hfull]
              constructor
              · rw [hb, if_neg hcondrest, if_pos hcondL]
                show alookup (aset st.bulk (k1, k2) l) (k1, k2) = alookup st.segs (k1, k2)
                rw [alookup_aset_self, hseg]
              · rw [hs, if_neg hcondrest, if_pos hcondL]
                show alookup (aremove st.segs (k1, k2)) (k1, k2) = none
                exact alookup_aremove_self _ _ hsegnd
            · -- k1 ≠ p, k2 = n: untouched
              have hcondrest : ¬ (k1 = p ∧ k2 ∈ rest ∧
                  offloadEligibleB (offloadSegment st p k2 l).segs R ss p k2 = true) := by
                rintro ⟨h1, -, -⟩
                exact hk1 h1
              have hcondL : ¬ (k1 = p ∧ k2 ∈ k2 :: rest ∧
                  offloadEligibleB st.segs R ss p k2 = true) := by
                rintro ⟨h1, -, -⟩
                exact hk1 h1
              have hkne : (k1, k2) ≠ (p, k2) := by
                intro h
                exact hk1 (congrArg Prod.fst h)
              constructor
              · rw [hb, if_neg hcondrest, if_neg hcondL]
                show alookup (aset st.bulk (p, k2) l) (k1, k2) = alookup st.bulk (k1, k2)
                exact alookup_aset_ne _ _ _ _ hkne
              · rw [hs, if_neg hcondrest, if_neg hcondL]
                show alookup (aremove st.segs (p, k2)) (k1, k2) = alookup st.segs (k1, k2)
                exact alookup_aremove_ne _ _ _ hkne
          · -- k2 ≠ n
            have hkne : ((k1 : Nat), k2) ≠ (p, n) := by
              intro h
              exact hk2 (congrArg Prod.snd h)
            have hpne : ((p : Nat), k2) ≠ (p, n) := by
              intro h
              exact hk2 (congrArg Prod.snd h)
            have hsegsame : alookup (offloadSegment st p n l).segs (p, k2) =
                alookup st.segs (p, k2) := by
              show alookup (aremove st.segs (p, n)) (p, k2) = alookup st.segs (p, k2)
              exact alookup_aremove_ne _ _ _ hpne
            have hiff : (k1 = p ∧ k2 ∈ rest ∧
                offloadEligibleB (offloadSegment st p n l).segs R ss p k2 = true) ↔
                (k1 = p ∧ k2 ∈ n :: rest ∧ offloadEligibleB st.segs R ss p k2 = true) := by
              constructor
              · rintro ⟨h1, h2, h3⟩
                rw [offloadEligibleB, hsegsame] at h3
                exact ⟨h1, List.mem_cons_of_mem _ h2, h3⟩
              · rintro ⟨h1, h2, h3⟩
                rcases List.mem_cons.mp h2 with h2' | h2'
                · exact absurd h2' hk2
                · refine ⟨h1, h2', ?_⟩
                  rw [offloadEligibleB, hsegsame]
                  exact h3
            constructor
            · rw [hb, if_congr hiff rfl rfl]
              by_cases hc : (k1 = p ∧ k2 ∈ n :: rest ∧
                  offloadEligibleB st.segs R ss p k2 = true)
              · rw [if_pos hc, if_pos hc, hsegsame]
              · rw [if_neg hc, if_neg hc]
                show alookup (aset st.bulk (p, n) l) (k1, k2) = alookup st.bulk (k1, k2)
                exact alookup_aset_ne _ _ _ _ hkne
            · rw [hs, if_congr hiff rfl rfl]
              by_cases hc : (k1 = p ∧ k2 ∈ n :: rest ∧
                  offloadEligibleB st.segs R ss p k2 = true)
              · rw [if_pos hc, if_pos hc]
              · rw [if_neg hc, if_neg hc]
                show alookup (aremove st.segs (p, n)) (k1, k2) = alookup st.segs (k1, k2)
                exact alookup_aremove_ne _ _ _ hkne
        · -- resident but not full: skipped
          have hstep : offloadLoop p R ss st (n :: rest) = offloadLoop p R ss st rest := by
            simp [offloadLoop, hr, hseg, hfull]
          have hiff : (k1 = p ∧ k2 ∈ n :: rest ∧ offloadEligibleB st.segs R ss p k2 = true) ↔
              (k1 = p ∧ k2 ∈ rest ∧ offloadEligibleB st.segs R ss p k2 = true) := by
            constructor
            · rintro ⟨h1, h2, h3⟩
              rcases List.mem_cons.mp h2 with h2' | h2'
              · subst h2'
                simp [offloadEligibleB, hseg, fullSeg, hfull] at h3
              · exact ⟨h1, h2', h3⟩
            · rintro ⟨h1, h2, h3⟩
              exact ⟨h1, List.mem_cons_of_mem _ h2, h3⟩
          obtain ⟨hb, hs⟩ := ih st hndr hsegnd k1 k2
          rw [hstep]
          constructor
          · rw [hb, if_congr hiff rfl rfl]
          · rw [hs, if_congr hiff rfl rfl]

/- The PopWithAck loop pops the head item of priority p when every
   priority before p in the (sorted) key list has count zero and p's head
   segment is resident and non-empty. -/
theorem popAckLoop_first {α : Type} (p : Nat) (x : α) (seg : List α) (l : List Nat) :
    ∀ st : Store α, l.Sorted (· ≤ ·) → p ∈ l →
      (∀ q ∈ l, q < p → getQueueCount st.md q = 0) →
      getQueueCount st.md p ≠ 0 →
      getOffloadedRange st.md p = none →
      alookup st.segs (p, getHeadSegment st.md p) = some (x :: seg) →
      (popAckLoop st l).1 = some (x, p) := by
  induction l with
  | nil =>
    intro st _ hm
    exact absurd hm (List.not_mem_nil p)
  | cons q rest ih =>
    intro st hs hm hlow hc hr hseg
    by_cases hqp : q = p
    · subst hqp
      have hload : checkAndLoadSegments st q = st := checkAndLoadSegments_range_none st q hr
      simp only [popAckLoop, hc, if_false, hload, hseg]
    · have hmem : p ∈ rest := by
        rcases List.mem_cons.mp hm with h1 | h1
        · exact absurd h1.symm hqp
        · exact h1
      have hql : q < p :=
        lt_of_le_of_ne (List.rel_of_sorted_cons hs p hmem) hqp
      have h0 : getQueueCount st.md q = 0 := hlow q (List.mem_cons_self q rest) hql
      simp only [popAckLoop, h0, if_true]
      exact ih st hs.of_cons hmem
        (fun r hrm hrp => hlow r (List.mem_cons_of_mem q hrm) hrp) hc hr hseg

/-- Claim C4 (amended): when the bulk-store entry for an offloaded segment
that must be reloaded is absent, the reload is silently skipped and the
consuming operation does not fail with any error; if the priority's head
segment is consequently not resident, the operation deletes that
priority's metadata record (the count-desync self-heal) and moves on,
leaving segments and bulk store untouched. -/
theorem c4_missing_bulk_entry_silent {α : Type} (s : ActorState α) (md : Metadata α)
    (q : QMeta) (p c ho toff : Nat)
    (hm : s.metadata = some md) (hq : md.queues = [(p, q)])
    (hc : q.count = some c) (hc0 : c ≠ 0)
    (hho : q.head_offloaded_segment = some ho)
    (hto : q.tail_offloaded_segment = some toff)
    (hcover : ho ≤ getHeadSegment md p + bufferSegments md)
    (hbulk : ∀ n, alookup s.bulk (p, n) = none)
    (hseg : alookup s.segs (p, getHeadSegment md p) = none) :
    Pop s = ([], ⟨some { md with queues := [] }, s.segs, s.bulk⟩) := by
  have hlook : alookup md.queues p = some q := by
    rw [hq]; simp [alookup]
  have hkeys : priorityKeys md = [p] := by
    simp [priorityKeys, hq, List.insertionSort, List.orderedInsert]
  have hcount : getQueueCount md p = c := by
    simp [getQueueCount, hlook, hc]
  have hrange : getOffloadedRange md p = some (ho, toff) := by
    simp [getOffloadedRange, hlook, hho, hto]
  have hload : checkAndLoadSegments ⟨md, s.segs, s.bulk⟩ p = ⟨md, s.segs, s.bulk⟩ := by
    have : getOffloadedRange (Store.mk md s.segs s.bulk).md p = some (ho, toff) := hrange
    simp only [checkAndLoadSegments, this]
    exact loadLoop_bulk_absent p _ _ _ hbulk
  have hdel : deleteQueueMetadata md p = { md with queues := [] } := by
    simp [deleteQueueMetadata, hq, aremove]
  simp only [Pop, hm, hkeys, popLoop, hcount, hc0, if_false, hload, hseg, hdel,
    Option.toList, Store.toActor]

theorem c4_missing_bulk_entry_silent_witness :
    Pop c4SoleCorrupt =
      ([], ⟨some { config := { segment_size := 3, buffer_segments := 1 }, queues := [] },
            c4SoleCorrupt.segs, c4SoleCorrupt.bulk⟩) :=
  c4_missing_bulk_entry_silent c4SoleCorrupt _ _ 0 4 1 1 rfl rfl rfl (by decide) rfl rfl
    (by decide) (fun n => rfl) rfl

/-- Claim C8: after each successful Push to priority p, a segment n is
moved to the bulk store if and only if head_segment + buffer_segments <
n < tail_segment (pointers as committed by the Push), n is resident in
actor state holding exactly segment_size items, and n is not inside the
recorded offloaded range; the moved segments leave actor state, and no
key of another priority changes. -/
theorem c8_push_offload_policy {α : Type} (s : ActorState α) (x : α) (p n k1 k2 : Nat)
    (hnd : (s.segs.map Prod.fst).Nodup) (hk1 : k1 ≠ p) :
    (alookup (Push s x p).2.bulk (p, n) =
      if pushOffloadEligible (pushCore s x p) p n = true
      then alookup (pushCore s x p).segs (p, n)
      else alookup s.bulk (p, n))
    ∧ (alookup (Push s x p).2.segs (p, n) =
      if pushOffloadEligible (pushCore s x p) p n = true
      then none
      else alookup (pushCore s x p).segs (p, n))
    ∧ alookup (Push s x p).2.bulk (k1, k2) = alookup s.bulk (k1, k2)
    ∧ alookup (Push s x p).2.segs (k1, k2) = alookup (pushCore s x p).segs (k1, k2) := by
  have hne : alookup (pushCore s x p).md.queues p ≠ none := by
    simp [pushCore, setSegmentPointers, putQueue, alookup_aset_self]
  have hnds1 : ((pushCore s x p).segs.map Prod.fst).Nodup :=
    nodup_keys_aset s.segs _ _ hnd
  have hco : ∀ st' : Store α, st' = pushCore s x p →
      checkAndOffloadSegments st' p =
        offloadLoop p (getOffloadedRange st'.md p) (segmentSize st'.md) st'
          (List.range' (getHeadSegment st'.md p + bufferSegments st'.md + 1)
            (getTailSegment st'.md p - (getHeadSegment st'.md p + bufferSegments st'.md + 1))) := by
    intro st' hst'
    rcases hq : alookup st'.md.queues p with _ | q
    · rw [hst'] at hq
      exact absurd hq hne
    · simp [checkAndOffloadSegments, hq]
  have hPush : (Push s x p).2 = (checkAndOffloadSegments (pushCore s x p) p).toActor := rfl
  rw [hPush, hco (pushCore s x p) rfl]
  have hmem : ∀ m : Nat,
      m ∈ List.range' (getHeadSegment (pushCore s x p).md p + bufferSegments (pushCore s x p).md + 1)
        (getTailSegment (pushCore s x p).md p -
          (getHeadSegment (pushCore s x p).md p + bufferSegments (pushCore s x p).md + 1)) ↔
      (getHeadSegment (pushCore s x p).md p + bufferSegments (pushCore s x p).md < m ∧
        m < getTailSegment (pushCore s x p).md p) := by
    intro m
    rw [List.mem_range'_1]
    omega
  have hchar := offloadLoop_lookup p (getOffloadedRange (pushCore s x p).md p)
    (segmentSize (pushCore s x p).md)
    (List.range' (getHeadSegment (pushCore s x p).md p + bufferSegments (pushCore s x p).md + 1)
      (getTailSegment (pushCore s x p).md p -
        (getHeadSegment (pushCore s x p).md p + bufferSegments (pushCore s x p).md + 1)))
    (pushCore s x p) (List.nodup_range' _ _) hnds1
  have hcond : ∀ m : Nat,
      (p = p ∧ m ∈ List.range'
          (getHeadSegment (pushCore s x p).md p + bufferSegments (pushCore s x p).md + 1)
          (getTailSegment (pushCore s x p).md p -
            (getHeadSegment (pushCore s x p).md p + bufferSegments (pushCore s x p).md + 1)) ∧
        offloadEligibleB (pushCore s x p).segs (getOffloadedRange (pushCore s x p).md p)
          (segmentSize (pushCore s x p).md) p m = true) ↔
      (pushOffloadEligible (pushCore s x p) p m = true) := by
    intro m
    simp only [pushOffloadEligible, Bool.and_eq_true, decide_eq_true_eq, hmem m, true_and]
  simp only [Store.toActor]
  refine ⟨?_, ?_, ?_, ?_⟩
  · rw [(hchar p n).1, if_congr (hcond n) rfl rfl]
    rfl
  · rw [(hchar p n).2, if_congr (hcond n) rfl rfl]
  · rw [(hchar k1 k2).1, if_neg (by rintro ⟨h1, -, -⟩; exact hk1 h1)]
    rfl
  · rw [(hchar k1 k2).2, if_neg (by rintro ⟨h1, -, -⟩; exact hk1 h1)]

theorem c8_push_offload_policy_witness :
    (alookup (Push c8State 3 0).2.bulk (0, 1) = some [2])
    ∧ (alookup (Push c8State 3 0).2.segs (0, 1) = none)
    ∧ (alookup (Push c8State 3 0).2.bulk (1, 0) = none)
    ∧ (alookup (Push c8State 3 0).2.segs (1, 0) = none) :=
  c8_push_offload_policy c8State 3 0 1 1 0 (by decide) (by decide)

/-- Claim C9: plain Pop never reads or modifies the lease: whatever value
the _active_lock field holds (present, absent, expired or not), Pop
returns the same items and produces the same state apart from that field,
which it carries over unchanged — so Pop never reports a locked status
and never returns held items to a queue. -/
theorem c9_pop_ignores_lease {α : Type} (s : ActorState α) (l : Option (ALock α)) :
    Pop (setLockA s l) = ((Pop s).1, setLockA (Pop s).2 l)
    ∧ (Pop s).2.metadata.map Metadata.active_lock = s.metadata.map Metadata.active_lock := by
  rcases hm : s.metadata with _ | md
  · constructor
    · simp [Pop, setLockA, hm]
    · simp [Pop, hm]
  · have hsl : setLockA s l =
        ActorState.mk (some { md with active_lock := l }) s.segs s.bulk := by
      simp [setLockA, hm]
    have hpl := popLoop_withLock l (priorityKeys md) (Store.mk md s.segs s.bulk)
    have hpair : popLoop (Store.mk { md with active_lock := l } s.segs s.bulk)
          (priorityKeys { md with active_lock := l }) =
        ((popLoop (Store.mk md s.segs s.bulk) (priorityKeys md)).1,
         (popLoop (Store.mk md s.segs s.bulk) (priorityKeys md)).2.withLock l) :=
      Prod.ext hpl.1 hpl.2
    have heta := (popLoop_withLock md.active_lock (priorityKeys md)
      (Store.mk md s.segs s.bulk)).2
    have heta' : (popLoop (Store.mk md s.segs s.bulk) (priorityKeys md)).2 =
        (popLoop (Store.mk md s.segs s.bulk) (priorityKeys md)).2.withLock md.active_lock :=
      heta
    constructor
    · simp only [Pop, hm, hsl, hpair]
      rfl
    · simp only [Pop, hm, Store.toActor, Option.map_some]
      have := congrArg (fun st : Store α => st.md.active_lock) heta'
      simpa using this

/-- Claim C3 (amended): after PopWithAck acquired an item from priority p
and the lease expired, the next PopWithAck invocation — not a plain Pop,
which ignores the lease — returns that held item: the item is prepended
to the head segment of priority p and re-popped, provided no priority
below p holds items and p has no offloaded range pending. -/
theorem c3_expired_lease_item_on_next_popWithAck {α : Type} (s : ActorState α)
    (md : Metadata α) (lock : ALock α) (x : α) (p now : Nat) (ttl : Option Int) (lid : Nat)
    (hm : s.metadata = some md) (hl : md.active_lock = some lock)
    (hexp : lock.expires_at ≤ now)
    (hitems : lock.items_with_priority = [(x, p)])
    (hlow : ∀ q, q < p → getQueueCount md q = 0)
    (hr : getOffloadedRange md p = none) :
    (PopWithAck s now ttl lid).1.items = [x] ∧
    (PopWithAck s now ttl lid).1.locked = true := by
  have hnl : ¬ now < lock.expires_at := by omega
  -- the state built by _return_items_to_queue
  have hload : checkAndLoadSegments ⟨md, s.segs, s.bulk⟩ p = ⟨md, s.segs, s.bulk⟩ :=
    checkAndLoadSegments_range_none _ _ hr
  set H := getHeadSegment md p with hH
  set T := getTailSegment md p with hT
  set seg0 := (alookup s.segs (p, H)).getD [] with hseg0
  set md1 := setSegmentPointers (setQueueCount md p (getQueueCount md p + 1)) p H T with hmd1
  have hret : returnItemsToQueue s [(x, p)] =
      Store.toActor ⟨md1, aset s.segs (p, H) ([x] ++ seg0), s.bulk⟩ := by
    simp only [returnItemsToQueue, hm, Option.getD_some, groupByPriority, List.foldl,
      alookup, returnGroup, hload]
    rfl
  set md2 : Metadata α := { md1 with active_lock := none } with hmd2
  set segs1 := aset s.segs (p, H) ([x] ++ seg0) with hsegs1
  have hres : PopWithAck s now ttl lid = popAckResume ⟨some md2, segs1, s.bulk⟩ now ttl lid := by
    simp only [PopWithAck, hm, hl, hnl, if_false, hitems, hret, Store.toActor]
  have hfirst : (popAckLoop ⟨md2, segs1, s.bulk⟩ (priorityKeys md2)).1 = some (x, p) := by
    apply popAckLoop_first p x seg0 (priorityKeys md2) _ (priorityKeys_sorted md2)
    · rw [mem_priorityKeys]
      show p ∈ (aset (setQueueCount md p (getQueueCount md p + 1)).queues p _).map Prod.fst
      exact mem_keys_aset _ _ _
    · intro q hq hqp
      have h1 : getQueueCount md2 q = getQueueCount md q := by
        show getQueueCount md1 q = getQueueCount md q
        rw [hmd1, getQueueCount_setSegmentPointers,
          getQueueCount_setQueueCount_ne md p q _ (Nat.ne_of_lt hqp)]
      show getQueueCount md2 q = 0
      rw [h1]
      exact hlow q hqp
    · show getQueueCount md2 p ≠ 0
      have h1 : getQueueCount md2 p = getQueueCount md p + 1 := by
        show getQueueCount md1 p = getQueueCount md p + 1
        rw [hmd1, getQueueCount_setSegmentPointers, getQueueCount_setQueueCount_self]
      rw [h1]
      exact Nat.succ_ne_zero _
    · show getOffloadedRange md2 p = none
      have h1 : getOffloadedRange md2 p = getOffloadedRange md p := by
        show getOffloadedRange md1 p = getOffloadedRange md p
        rw [hmd1, getOffloadedRange_setSegmentPointers, getOffloadedRange_setQueueCount]
      rw [h1]
      exact hr
    · show alookup segs1 (p, getHeadSegment md2 p) = some (x :: seg0)
      have h1 : getHeadSegment md2 p = H := by
        show getHeadSegment md1 p = H
        rw [hmd1, getHeadSegment_setSegmentPointers_self]
      rw [h1, hsegs1]
      simp [alookup_aset_self]
  rw [hres]
  simp only [popAckResume, hfirst]
  exact ⟨trivial, trivial⟩

theorem c3_expired_lease_item_on_next_popWithAck_witness :
    (PopWithAck c3Leased 2000 none 43).1.items = [7] ∧
    (PopWithAck c3Leased 2000 none 43).1.locked = true :=
  c3_expired_lease_item_on_next_popWithAck c3Leased
    { config := { segment_size := 100, buffer_segments := 1 },
      queues := [(0, { count := some 1, head_segment := some 0, tail_segment := some 0 })],
      active_lock := some { lock_id := 42, items_with_priority := [(7, 0)],
                            expires_at := 1030, created_at := 1000 } }
    { lock_id := 42, items_with_priority := [(7, 0)], expires_at := 1030, created_at := 1000 }
    7 0 2000 none 43 (by decide) rfl (by decide) rfl
    (fun q hq => absurd hq (Nat.not_lt_zero q)) rfl


/-- Claim C1: for every sequence of Push and Pop invocations on a fresh
instance (any configured segment_size ≥ 1 and any buffer_segments),
consumption order is by strictly ascending priority and FIFO within each
priority — the run produces exactly the outputs of the specification
model in which each Pop returns the first-pushed not-yet-consumed item
of the lowest-numbered priority holding items. -/
theorem c1_consumption_order {α : Type} (ss buf : Nat) (hss : 1 ≤ ss)
    (ops : List (Op α)) :
    run (initState ss buf) ops = specRun [] ops :=
  run_refines ss buf hss ops (initState ss buf) [] (abs_init ss buf)

theorem c1_consumption_order_witness :
    1 ≤ 2 ∧
    run (initState 2 1 : ActorState Nat)
      [Op.push 1 2, Op.push 2 0, Op.push 3 1, Op.push 4 2, Op.push 5 2, Op.push 6 2,
       Op.pop, Op.push 7 0, Op.pop, Op.pop, Op.pop, Op.pop, Op.pop, Op.pop, Op.pop] =
    specRun []
      [Op.push 1 2, Op.push 2 0, Op.push 3 1, Op.push 4 2, Op.push 5 2, Op.push 6 2,
       Op.pop, Op.push 7 0, Op.pop, Op.pop, Op.pop, Op.pop, Op.pop, Op.pop, Op.pop] :=
  ⟨by decide, c1_consumption_order 2 1 (by decide)
    [Op.push 1 2, Op.push 2 0, Op.push 3 1, Op.push 4 2, Op.push 5 2, Op.push 6 2,
     Op.pop, Op.push 7 0, Op.pop, Op.pop, Op.pop, Op.pop, Op.pop, Op.pop, Op.pop]⟩


end PushPop
